import Mathlib

/-!
# mcdb name-service layer (`nss_mcdb.c`): embedding and verified properties

The C functions of `nss_mcdb.c` are embedded as Lean functions over an explicit
state:

* the mapped database file is a list of bytes (`Bytes`), a read outside of it
  is a fault;
* the file-scope statics (`nss_mcdb_mmap_st`, `nss_mcdb_mmap`, `dfd`) form the
  record `Globals`, which also carries the trace of the external calls made;
* what the operating system and `mcdb.c` answer (mutex, `open`, `openat`,
  `mcdb_mmap_init`, `mcdb_register`) is given by an `Env` per call;
* `uint32_t` values are natural numbers reduced modulo `2^32`.

`mcdb.c`, `mcdb.h`, `mcdb_make.c` and `mcdb_uint32.h` are not part of the
sources at hand; what is needed from them is either a parameter or a definition
marked `Modelled from the spec:`.
-/

namespace NssMcdb

/-! ## Status codes, database types -/

/-- The values of `enum nss_status` from `<nss.h>`. -/
inductive nss_status where
  | NSS_STATUS_TRYAGAIN
  | NSS_STATUS_UNAVAIL
  | NSS_STATUS_NOTFOUND
  | NSS_STATUS_SUCCESS
  | NSS_STATUS_RETURN
  deriving DecidableEq, Repr

open nss_status

/-- The values of `enum nss_dbtype`. -/
inductive nss_dbtype where
  | NSS_DBTYPE_ALIASES
  | NSS_DBTYPE_ETHERS
  | NSS_DBTYPE_GROUP
  | NSS_DBTYPE_HOSTS
  | NSS_DBTYPE_NETGROUP
  | NSS_DBTYPE_NETWORKS
  | NSS_DBTYPE_PASSWD
  | NSS_DBTYPE_PROTOCOLS
  | NSS_DBTYPE_PUBLICKEY
  | NSS_DBTYPE_RPC
  | NSS_DBTYPE_SERVICES
  | NSS_DBTYPE_SHADOW
  deriving DecidableEq, Repr

open nss_dbtype

/-- The numeric value of an `enum nss_dbtype` constant (array index). -/
def nss_dbtype.idx : nss_dbtype → Nat
  | NSS_DBTYPE_ALIASES => 0
  | NSS_DBTYPE_ETHERS => 1
  | NSS_DBTYPE_GROUP => 2
  | NSS_DBTYPE_HOSTS => 3
  | NSS_DBTYPE_NETGROUP => 4
  | NSS_DBTYPE_NETWORKS => 5
  | NSS_DBTYPE_PASSWD => 6
  | NSS_DBTYPE_PROTOCOLS => 7
  | NSS_DBTYPE_PUBLICKEY => 8
  | NSS_DBTYPE_RPC => 9
  | NSS_DBTYPE_SERVICES => 10
  | NSS_DBTYPE_SHADOW => 11

/-- The table `nss_dbnames[]`. -/
def nss_dbnames : List String :=
  [ "aliases.mcdb", "ethers.mcdb", "group.mcdb", "hosts.mcdb", "netgroup.mcdb",
    "networks.mcdb", "passwd.mcdb", "protocols.mcdb", "publickey.mcdb", "rpc.mcdb",
    "services.mcdb", "shadow.mcdb" ]

/-- Number of elements of `nss_mcdb_mmap_st` and of `nss_mcdb_mmap`:
`sizeof(nss_dbnames)/sizeof(char *)`. -/
def nss_mcdb_mmap_st_len : Nat := nss_dbnames.length

/-! ## `nss_mcdb_mmap_free` -/

/-- The function `nss_mcdb_mmap_free(v)`. Pointers are addresses; `st` is the
address `&nss_mcdb_mmap_st[0]` and `sz` is `sizeof(struct mcdb_mmap)`, so that
`&nss_mcdb_mmap_st[N]` is `st + N * sz`. The result lists the pointers handed
to `free`. -/
def nss_mcdb_mmap_free (st sz : Nat) (v : Nat) : List Nat :=
  let m := v
  if st + nss_mcdb_mmap_st_len * sz ≤ m ∨ m < st then [v] else []

/-! ## Bytes, 32-bit words, the cursor `struct mcdb` -/

/-- A region of memory, byte by byte. -/
abbrev Bytes := List Nat

/-- Modelled from the spec: `mcdb_uint32_unpack_bigendian_macro` of the absent
`mcdb_uint32.h`; a `u32` is stored big-endian. Reads the four bytes at
`pos .. pos+3`; `none` when one of them lies outside the region. -/
def mcdb_uint32_unpack_bigendian_macro (p : Bytes) (pos : Nat) : Option Nat :=
  match p[pos]?, p[pos + 1]?, p[pos + 2]?, p[pos + 3]? with
  | some a, some b, some c, some d =>
      some ((a % 256) * 16777216 + (b % 256) * 65536 + (c % 256) * 256 + d % 256)
  | _, _, _, _ => none

/-- Modelled from the spec: `mcdb_uint32_unpack_bigendian_aligned_macro`; the
same value as the unaligned form, read from a 4-byte aligned address. -/
def mcdb_uint32_unpack_bigendian_aligned_macro (p : Bytes) (pos : Nat) : Option Nat :=
  mcdb_uint32_unpack_bigendian_macro p pos

/-- Reduction of a value to `uint32_t`. -/
def u32 (n : Nat) : Nat := n % 4294967296

/-- Modelled from the spec: `struct mcdb` of the absent `mcdb.h`, the lookup
cursor. `map` is `NULL` or points to the static handle of a database type (the
only handles `nss_mcdb.c` ever stores); the other fields are `uint32_t`. -/
structure mcdb where
  map : Option nss_dbtype
  loop : Nat
  hslots : Nat
  kpos : Nat
  hpos : Nat
  dpos : Nat
  dlen : Nat
  khash : Nat
  deriving DecidableEq, Repr

/-- Modelled from the spec: the macro `mcdb_datalen(m)` of `mcdb.h`. -/
def mcdb_datalen (m : mcdb) : Nat := m.dlen

/-- Modelled from the spec: the macro `mcdb_datapos(m)` of `mcdb.h`. -/
def mcdb_datapos (m : mcdb) : Nat := m.dpos

/-- Modelled from the spec: the macro `mcdb_dataptr(m)` of `mcdb.h`, that is
`m->map->ptr + m->dpos`: the memory starting at the data position. -/
def mcdb_dataptr (ptr : Bytes) (m : mcdb) : Bytes := ptr.drop m.dpos

/-- The struct `_nss_kinfo`: `key` is the memory the key pointer designates. -/
structure _nss_kinfo where
  key : Bytes
  klen : Nat
  tagc : Nat
  deriving DecidableEq, Repr

/-! ## Output buffer -/

/-- The stores a call makes into the caller's buffer, in program order, each as
(offset from `buf`, byte stored). -/
abbrev Writes := List (Nat × Nat)

/-- The buffer contents after the stores `w`, from the contents `buf` before. -/
def apply_writes (buf : Nat → Nat) (w : Writes) : Nat → Nat :=
  w.foldl (fun b p => Function.update b p.1 p.2) buf

/-- The stores of the bytes `bs` at the consecutive offsets `k`, `k+1`, ... -/
def stores_from (k : Nat) : Bytes → Writes
  | [] => []
  | b :: bs => (k, b) :: stores_from (k + 1) bs

/-- The stores of `memcpy(buf, src, n)`; `none` when `src` has fewer than `n`
readable bytes. -/
def memcpy (src : Bytes) (n : Nat) : Option Writes :=
  if n ≤ src.length then some (stores_from 0 (src.take n)) else none

/-- A decoder, the type of `_nss_vinfo.decode`: it is given the mapped bytes
`m->map->ptr` (`none` for `NULL`), the cursor, the key info (`none` for `NULL`)
and `buflen`; it faults (`none`) or returns a status and its stores to `buf`. -/
abbrev Decoder := Option Bytes → mcdb → Option _nss_kinfo → Nat → Option (nss_status × Writes)

/-- The struct `_nss_vinfo`; `buf` is the base the offsets of `Writes` refer
to, `vstruct` and `vstructp` are used by no function embedded here. -/
structure _nss_vinfo where
  decode : Decoder
  buflen : Nat

/-- The function `_nss_files_decode_buf`, on the fields of `vinfo` it uses. -/
def _nss_files_decode_buf : Decoder := fun ptr m _kinfo buflen =>
  let dlen := mcdb_datalen m
  if buflen > dlen then
    match ptr with
    | none => none
    | some p =>
      match memcpy (mcdb_dataptr p m) dlen with
      | none => none
      | some w => some (NSS_STATUS_SUCCESS, w ++ [(dlen, 0)])
  else
    some (NSS_STATUS_TRYAGAIN, [])

/-! ## The shared mappings: statics, environment, trace -/

/-- Modelled from the spec: `struct mcdb_mmap` of the absent `mcdb.h`, the
mapping handle, with the fields `nss_mcdb.c` touches and the reference count:
`ptr` is the base of the mapping (`none` for `NULL`), `fn_malloc` and `fn_free`
tell whether `malloc` and `nss_mcdb_mmap_free` have been installed. -/
structure mcdb_mmap where
  ptr : Option Bytes
  refcnt : Nat
  fn_malloc : Bool
  fn_free : Bool
  fname : String
  dfd : Int
  deriving DecidableEq, Repr

/-- External calls and accesses to a mapping, as recorded in the trace. -/
inductive Event where
  | pthread_mutex_lock (rc : Nat)
  | pthread_mutex_unlock
  | open_dbpath (fd : Int)
  | openat (d : nss_dbtype) (fd : Int)
  | close (fd : Int)
  | mcdb_mmap_init (d : nss_dbtype) (ok : Bool)
  | mcdb_register (h : Option nss_dbtype) (ok : Bool)
  | getshared (d : nss_dbtype) (r : Option nss_dbtype)
  | mcdb_unregister (h : nss_dbtype)
  | mcdb_mmap_unmap (h : nss_dbtype)
  | mcdb_findtagstart (h : nss_dbtype)
  | mcdb_findtagnext (h : nss_dbtype)
  | decode (h : nss_dbtype) (kpos dpos dlen : Nat)
  deriving DecidableEq, Repr

/-- The file-scope state of `nss_mcdb.c`: the static handles, the published
pointers (`none` for `NULL`, `some d` for `&nss_mcdb_mmap_st[d]`), the function
static `dfd` of `_nss_mcdb_db_openshared`, and the trace of events so far. -/
structure Globals where
  nss_mcdb_mmap_st : nss_dbtype → mcdb_mmap
  nss_mcdb_mmap : nss_dbtype → Option nss_dbtype
  dfd : Int
  trace : List Event

/-- The state at program start: zero-initialised statics, `dfd = -1`. -/
def Globals.init : Globals where
  nss_mcdb_mmap_st := fun _ =>
    { ptr := none, refcnt := 0, fn_malloc := false, fn_free := false, fname := "", dfd := 0 }
  nss_mcdb_mmap := fun _ => none
  dfd := -1
  trace := []

/-- Append an event to the trace. -/
def Globals.emit (G : Globals) (e : Event) : Globals :=
  { G with trace := G.trace ++ [e] }

/-- Update the static handle `nss_mcdb_mmap_st[d]`. -/
def Globals.setSt (G : Globals) (d : nss_dbtype) (f : mcdb_mmap → mcdb_mmap) : Globals :=
  { G with nss_mcdb_mmap_st := Function.update G.nss_mcdb_mmap_st d (f (G.nss_mcdb_mmap_st d)) }

/-- What the environment answers during one call: the return value of
`pthread_mutex_lock`, the descriptors returned by `open(NSS_DBPATH, ...)` and
by `openat`, the outcome of `mcdb_mmap_init` (`none`: failure, `some b`: the
bytes `b` are the mapped memory, which `mmap` makes of the contents of the file
and of zero bytes up to the end of the last page, see `mmap_pages`) and of
`mcdb_register`. -/
structure Env where
  pthread_mutex_lock : Nat
  open_dbpath : Int
  openat : Int
  mcdb_mmap_init : Option Bytes
  mcdb_register : Bool
  deriving DecidableEq, Repr

/-- The constant `STDERR_FILENO`. -/
def STDERR_FILENO : Int := 2

/-- Modelled from the spec: `mcdb_mmap_init` of the absent `mcdb.c`, which maps
the opened file read-only into the handle; its success and the mapped memory
are the environment's. -/
def mcdb_mmap_init (env : Env) (G : Globals) (d : nss_dbtype) : Bool × Globals :=
  match env.mcdb_mmap_init with
  | none => (false, G.emit (.mcdb_mmap_init d false))
  | some b => (true, (G.setSt d fun map => { map with ptr := some b }).emit (.mcdb_mmap_init d true))

/-- Modelled from the spec: `mcdb_register` of the absent `mcdb.c`, the
acquisition of a reference: the reference count of the handle is incremented;
it fails, changing nothing, on a `NULL` handle or when the environment refuses
(synchronisation failure). -/
def mcdb_register (env : Env) (G : Globals) (h : Option nss_dbtype) : Bool × Globals :=
  match h with
  | none => (false, G.emit (.mcdb_register none false))
  | some d =>
    if env.mcdb_register then
      (true, (G.setSt d fun map => { map with refcnt := map.refcnt + 1 }).emit
        (.mcdb_register (some d) true))
    else (false, G.emit (.mcdb_register (some d) false))

/-- Modelled from the spec: `mcdb_unregister` of the absent `mcdb.c`, the
release of a reference: the reference count is decremented and, when it
reaches 0, the mapping is torn down: `mcdb_mmap_unmap` sets `ptr` to `NULL`
(as the note at the end of `nss_mcdb.c` says) and the handle goes to `fn_free`,
here `nss_mcdb_mmap_free`, which leaves static handles alone. -/
def mcdb_unregister (G : Globals) (h : nss_dbtype) : Bool × Globals :=
  let G := G.emit (.mcdb_unregister h)
  let map := G.nss_mcdb_mmap_st h
  if map.refcnt = 0 then (true, G)
  else
    let G := G.setSt h fun map => { map with refcnt := map.refcnt - 1 }
    if map.refcnt - 1 = 0 then
      (true, (G.setSt h fun map => { map with ptr := none }).emit (.mcdb_mmap_unmap h))
    else (true, G)

/-- The part of `_nss_mcdb_db_openshared` after the shared directory
descriptor is known to be open (`__linux`/`__sun` configuration): copy the file
name, `openat`, `mcdb_mmap_init`, `close`, publish, unlock. -/
def _nss_mcdb_db_openshared_file (env : Env) (G : Globals) (dbtype : nss_dbtype) :
    Bool × Globals :=
  let G := G.setSt dbtype fun map =>
    { map with fname := nss_dbnames.getD dbtype.idx "", dfd := G.dfd }
  let fd := env.openat
  let G := G.emit (.openat dbtype fd)
  if fd ≠ -1 then
    let (rc, G) := mcdb_mmap_init env G dbtype
    let G := G.emit (.close fd)
    let G := if rc then
        { G with nss_mcdb_mmap := Function.update G.nss_mcdb_mmap dbtype (some dbtype) }
      else G
    (rc, G.emit .pthread_mutex_unlock)
  else
    (false, G.emit .pthread_mutex_unlock)

/-- The function `_nss_mcdb_db_openshared` (`__linux`/`__sun` configuration,
`_THREAD_SAFE`). -/
def _nss_mcdb_db_openshared (env : Env) (G : Globals) (dbtype : nss_dbtype) :
    Bool × Globals :=
  let G := G.emit (.pthread_mutex_lock env.pthread_mutex_lock)
  if env.pthread_mutex_lock ≠ 0 then (false, G)
  else if (G.nss_mcdb_mmap dbtype).isSome then
    (true, G.emit .pthread_mutex_unlock)
  else
    let G := G.setSt dbtype fun map => { map with fn_malloc := true, fn_free := true }
    if G.dfd ≤ STDERR_FILENO then
      let G := { G with dfd := env.open_dbpath }.emit (.open_dbpath env.open_dbpath)
      if G.dfd > STDERR_FILENO then
        _nss_mcdb_db_openshared_file env G dbtype
      else
        let G := if G.dfd ≠ -1 then G.emit (.close G.dfd) else G
        (false, G.emit .pthread_mutex_unlock)
    else
      _nss_mcdb_db_openshared_file env G dbtype

/-- The function `_nss_mcdb_db_getshared`; the event `getshared` records what
it returns. -/
def _nss_mcdb_db_getshared (env : Env) (G : Globals) (dbtype : nss_dbtype) :
    Option nss_dbtype × Globals :=
  let (c, G) :=
    if (G.nss_mcdb_mmap dbtype).isSome then (true, G)
    else _nss_mcdb_db_openshared env G dbtype
  if c then
    let (r, G) := mcdb_register env G (G.nss_mcdb_mmap dbtype)
    if r then (G.nss_mcdb_mmap dbtype, G.emit (.getshared dbtype (G.nss_mcdb_mmap dbtype)))
    else (none, G.emit (.getshared dbtype none))
  else (none, G.emit (.getshared dbtype none))

/-! ## Sequential traversal: `setent`, `endent`, `getent` -/

/-- The function `_nss_mcdb_setent`. -/
def _nss_mcdb_setent (env : Env) (G : Globals) (m : mcdb) (dbtype : nss_dbtype) :
    nss_status × mcdb × Globals :=
  if m.map.isSome then
    (NSS_STATUS_SUCCESS, { m with hpos := 0 }, G)
  else
    let (r, G) := _nss_mcdb_db_getshared env G dbtype
    let m := { m with map := r }
    if r.isSome then (NSS_STATUS_SUCCESS, { m with hpos := 0 }, G)
    else (NSS_STATUS_UNAVAIL, m, G)

/-- The function `_nss_mcdb_endent`. -/
def _nss_mcdb_endent (G : Globals) (m : mcdb) : nss_status × Globals :=
  match m.map with
  | none => (NSS_STATUS_SUCCESS, G)
  | some h =>
    let (r, G) := mcdb_unregister G h
    if r then (NSS_STATUS_SUCCESS, G) else (NSS_STATUS_TRYAGAIN, G)

/-- How a call that contains a loop ends: it returns, it makes an invalid
memory access, or the iteration bound given to the model is used up. -/
inductive Outcome (α : Type) where
  | ret (a : α)
  | fault
  | nofuel
  deriving DecidableEq, Repr

/-- What `_nss_mcdb_getent` yields when it returns: the status, the cursor, the
stores of the decoder into `buf`, the globals. -/
structure GetentResult where
  status : nss_status
  m : mcdb
  writes : Writes
  G : Globals

/-- The `while (m->hpos < eod)` loop of `_nss_mcdb_getent` with its two
`return`s; `map` is `m->map->ptr`, `h` the handle `m->map`, `fuel` bounds the
number of iterations. The address `p + (8+klen)` is `map + hpos` plus the
`uint32_t` value `8+klen`. -/
def _nss_mcdb_getent_loop (vinfo : _nss_vinfo) (h : nss_dbtype) (map : Bytes) (eod : Nat) :
    Nat → mcdb → Globals → Outcome GetentResult
  | 0, _, _ => .nofuel
  | fuel + 1, m, G =>
    if m.hpos < eod then
      let p := m.hpos
      match mcdb_uint32_unpack_bigendian_macro map p,
            mcdb_uint32_unpack_bigendian_macro map (p + 4) with
      | some klen, some dlen =>
        let kpos := u32 (m.hpos + 8)
        let dpos := u32 (kpos + klen)
        let hpos := u32 (dpos + dlen)
        let m := { m with dlen := dlen, kpos := kpos, dpos := dpos, hpos := hpos }
        match map[p + u32 (8 + klen)]? with
        | none => .fault
        | some c =>
          if c = 61 then
            match vinfo.decode (some map) m none vinfo.buflen with
            | none => .fault
            | some (st, w) =>
              .ret { status := st, m := m, writes := w,
                     G := G.emit (.decode h m.kpos m.dpos m.dlen) }
          else _nss_mcdb_getent_loop vinfo h map eod fuel m G
      | _, _ => .fault
    else
      .ret { status := NSS_STATUS_NOTFOUND, m := m, writes := [], G := G }

/-- The function `_nss_mcdb_getent`; `fuel` bounds the iterations of its loop. -/
def _nss_mcdb_getent (fuel : Nat) (env : Env) (G : Globals) (m : mcdb) (dbtype : nss_dbtype)
    (vinfo : _nss_vinfo) : Outcome GetentResult :=
  let (st, m, G) :=
    if m.map.isNone then _nss_mcdb_setent env G m dbtype else (NSS_STATUS_SUCCESS, m, G)
  if st ≠ NSS_STATUS_SUCCESS then
    .ret { status := NSS_STATUS_UNAVAIL, m := m, writes := [], G := G }
  else
    match m.map with
    | none => .fault
    | some h =>
      match (G.nss_mcdb_mmap_st h).ptr with
      | none => .fault
      | some map =>
        match mcdb_uint32_unpack_bigendian_aligned_macro map 0 with
        | none => .fault
        | some w0 =>
          let eod := u32 (w0 + 4294967296 - 7)
          _nss_mcdb_getent_loop vinfo h map eod fuel m G

/-! ## Keyed lookup: `_nss_files_get_generic` and the host and service entry points -/

/-- The two lookup functions of the absent `mcdb.c`, as parameters: given
`m->map->ptr`, the cursor, the key memory, `klen` and `tagc`, each faults
(`none`) or returns its `bool` and the cursor it leaves. -/
structure Lookup where
  mcdb_findtagstart : Option Bytes → mcdb → Bytes → Nat → Nat → Option (Bool × mcdb)
  mcdb_findtagnext : Option Bytes → mcdb → Bytes → Nat → Nat → Option (Bool × mcdb)

/-- The condition `mcdb_findtagstart(&m, key, klen, tagc) &&
mcdb_findtagnext(&m, key, klen, tagc)` of the keyed entry points, evaluated
left to right with short circuit, on the mapping of the handle `h`. -/
def findtag (L : Lookup) (G : Globals) (h : nss_dbtype) (m : mcdb) (key : Bytes)
    (klen tagc : Nat) : Option (Bool × mcdb × Globals) :=
  let ptr := (G.nss_mcdb_mmap_st h).ptr
  let G := G.emit (.mcdb_findtagstart h)
  match L.mcdb_findtagstart ptr m key klen tagc with
  | none => none
  | some (false, m) => some (false, m, G)
  | some (true, m) =>
    let G := G.emit (.mcdb_findtagnext h)
    match L.mcdb_findtagnext ptr m key klen tagc with
    | none => none
    | some (b, m) => some (b, m, G)

/-- The function `_nss_files_get_generic`; `stack` is the indeterminate content
of the local `struct mcdb m` before `m.map` is assigned. A fault of the lookup
or of the decoder is `none`. -/
def _nss_files_get_generic (L : Lookup) (env : Env) (G : Globals) (stack : mcdb)
    (dbtype : nss_dbtype) (kinfo : _nss_kinfo) (vinfo : _nss_vinfo) :
    Option (nss_status × Writes × Globals) :=
  let status := NSS_STATUS_NOTFOUND
  let (map, G) := _nss_mcdb_db_getshared env G dbtype
  match map with
  | none => some (NSS_STATUS_UNAVAIL, [], G)
  | some h =>
    let m := { stack with map := some h }
    match findtag L G h m kinfo.key kinfo.klen kinfo.tagc with
    | none => none
    | some (true, m, G) =>
      match vinfo.decode (G.nss_mcdb_mmap_st h).ptr m (some kinfo) vinfo.buflen with
      | none => none
      | some (status, w) =>
        let G := G.emit (.decode h m.kpos m.dpos m.dlen)
        let (_, G) := mcdb_unregister G h
        some (status, w, G)
    | some (false, _, G) =>
      let (_, G) := mcdb_unregister G h
      some (status, [], G)

/-- The C function `strlen` on the memory a string pointer designates. -/
def strlen (s : Bytes) : Nat := (s.takeWhile fun c => c ≠ 0).length

/-- The ASCII code of the upper-case hexadecimal digit of a value below 16. -/
def uphex_digit (n : Nat) : Nat := if n < 10 then 48 + n else 55 + n

/-- Modelled from the spec: `uint32_to_ascii8uphex` of the absent
`mcdb_uint32.h`: the eight upper-case hexadecimal digits of a `uint32_t`, most
significant first. -/
def uint32_to_ascii8uphex (n : Nat) : Bytes :=
  [28, 24, 20, 16, 12, 8, 4, 0].map fun s => uphex_digit (n / 2 ^ s % 16)

/-- The conversion `(uint32_t)i` of a signed integer. -/
def cast_uint32 (i : Int) : Nat := (i % 4294967296).toNat

/-- The common body of `_nss_files_gethostbyname2_r`, `_nss_files_gethostbyaddr_r`,
`_nss_files_getservbyname_r` and `_nss_files_getservbyport_r` once the key is
known: these four differ in the database type, the key and the tag only. -/
def keyed_stub (L : Lookup) (env : Env) (G : Globals) (stack : mcdb) (dbtype : nss_dbtype)
    (key : Bytes) (klen tagc : Nat) : Option (nss_status × Globals) :=
  let (map, G) := _nss_mcdb_db_getshared env G dbtype
  match map with
  | none => some (NSS_STATUS_UNAVAIL, G)
  | some h =>
    let m := { stack with map := some h }
    match findtag L G h m key klen tagc with
    | none => none
    | some (true, _, G) =>
      let (_, G) := mcdb_unregister G h
      some (NSS_STATUS_SUCCESS, G)
    | some (false, _, G) =>
      let (_, G) := mcdb_unregister G h
      some (NSS_STATUS_NOTFOUND, G)

/-- The function `_nss_files_gethostbyname2_r`. -/
def _nss_files_gethostbyname2_r (L : Lookup) (env : Env) (G : Globals) (stack : mcdb)
    (name : Bytes) : Option (nss_status × Globals) :=
  keyed_stub L env G stack NSS_DBTYPE_HOSTS name (strlen name) 61

/-- The function `_nss_files_gethostbyaddr_r`; `len` is a `socklen_t`. -/
def _nss_files_gethostbyaddr_r (L : Lookup) (env : Env) (G : Globals) (stack : mcdb)
    (len : Nat) : Option (nss_status × Globals) :=
  keyed_stub L env G stack NSS_DBTYPE_HOSTS (uint32_to_ascii8uphex (u32 len)) 8 120

/-- The function `_nss_files_getservbyname_r`. -/
def _nss_files_getservbyname_r (L : Lookup) (env : Env) (G : Globals) (stack : mcdb)
    (name : Bytes) : Option (nss_status × Globals) :=
  keyed_stub L env G stack NSS_DBTYPE_SERVICES name (strlen name) 61

/-- The function `_nss_files_getservbyport_r`; `port` is an `int`. -/
def _nss_files_getservbyport_r (L : Lookup) (env : Env) (G : Globals) (stack : mcdb)
    (port : Int) : Option (nss_status × Globals) :=
  keyed_stub L env G stack NSS_DBTYPE_SERVICES (uint32_to_ascii8uphex (cast_uint32 port)) 8 120

/-! ## Sequences of calls on the shared mappings -/

/-- A call that acts on the shared mappings. -/
inductive Call where
  | openshared (d : nss_dbtype)
  | getshared (d : nss_dbtype)
  | unregister (h : nss_dbtype)
  deriving DecidableEq, Repr

/-- The globals after one call, made in the environment `c.2`. -/
def Call.run (G : Globals) (c : Call × Env) : Globals :=
  match c.1 with
  | .openshared d => (_nss_mcdb_db_openshared c.2 G d).2
  | .getshared d => (_nss_mcdb_db_getshared c.2 G d).2
  | .unregister h => (mcdb_unregister G h).2

/-- The globals after a sequence of calls, each with its environment. -/
def run_calls (G : Globals) (cs : List (Call × Env)) : Globals :=
  cs.foldl Call.run G

/-- Events that are accesses to a mapping by the lookup or the decoder. -/
def Event.isUse : Event → Bool
  | .mcdb_findtagstart _ => true
  | .mcdb_findtagnext _ => true
  | .decode _ _ _ _ => true
  | _ => false

/-- Events that are a call of `mcdb_unregister`. -/
def Event.isUnregister : Event → Bool
  | .mcdb_unregister _ => true
  | _ => false

/-- Events that are a return of a handle by `_nss_mcdb_db_getshared`. -/
def Event.isAcquire : Event → Bool
  | .getshared _ (some _) => true
  | _ => false

/-- Events by which a file is opened or mapped. -/
def Event.isOpen : Event → Bool
  | .open_dbpath _ => true
  | .openat _ _ => true
  | .mcdb_mmap_init _ _ => true
  | _ => false

/-- Events that are neither an access to a mapping, nor a release, nor the
return of a handle. -/
def Event.isQuiet (e : Event) : Bool := !e.isUse && !e.isUnregister && !e.isAcquire

/-- What is asserted of one call of a keyed entry point that took the globals
from `G` to `G'` and returned `s`: the events of the call split into a first
part without any release and a second part without any access to a mapping;
there are as many releases as handles obtained, one and one, or none and none
with `s = NSS_STATUS_UNAVAIL`; every reference count is as before the call. -/
def balanced (G G' : Globals) (s : nss_status) : Prop :=
  ∃ pre post, G'.trace = G.trace ++ (pre ++ post) ∧
    (pre ++ post).countP Event.isUnregister = (pre ++ post).countP Event.isAcquire ∧
    ((pre ++ post).countP Event.isAcquire = 1 ∨
      ((pre ++ post).countP Event.isAcquire = 0 ∧ s = NSS_STATUS_UNAVAIL)) ∧
    (∀ e ∈ pre, e.isUnregister = false) ∧
    (∀ e ∈ post, e.isUse = false) ∧
    ∀ d, (G'.nss_mcdb_mmap_st d).refcnt = (G.nss_mcdb_mmap_st d).refcnt

/-! ## Stand-ins used in examples -/

/-- A lookup that answers `b₁` from `mcdb_findtagstart` and `b₂` from
`mcdb_findtagnext` and reports the data at `dpos` with length `dlen`. -/
def Lookup.answer (b₁ b₂ : Bool) (dpos dlen : Nat) : Lookup where
  mcdb_findtagstart := fun _ m _ _ _ => some (b₁, m)
  mcdb_findtagnext := fun _ m _ _ _ => some (b₂, { m with dpos := dpos, dlen := dlen })

/-- An environment in which every call succeeds and the mapped memory is
`img`. -/
def Env.ok (img : Bytes) : Env where
  pthread_mutex_lock := 0
  open_dbpath := 3
  openat := 4
  mcdb_mmap_init := some img
  mcdb_register := true

/-- A cursor with every field zero. -/
def mcdb.zero : mcdb where
  map := none
  loop := 0
  hslots := 0
  kpos := 0
  hpos := 0
  dpos := 0
  dlen := 0
  khash := 0

/-- A decoder that reports `NSS_STATUS_UNAVAIL` for every record. -/
def decode_unavail : Decoder := fun _ _ _ _ => some (NSS_STATUS_UNAVAIL, [])

/-- Invariant of the shared mappings: `mcdb_mmap_init` has succeeded at most
once for each database type, and not at all while `nss_mcdb_mmap[d]` is `NULL`. -/
def mapped_once (G : Globals) : Prop :=
  ∀ d, G.trace.count (.mcdb_mmap_init d true) ≤ (if (G.nss_mcdb_mmap d).isSome then 1 else 0)

/-- Modelled from the spec: `uint32_strpack_bigendian_macro` of the absent
`mcdb_uint32.h`: the four bytes of a `uint32_t`, most significant first. -/
def uint32_strpack_bigendian_macro (n : Nat) : Bytes :=
  [n / 16777216 % 256, n / 65536 % 256, n / 256 % 256, n % 256]

/-- A database file with the single record of key `a` and value `=1`: the head
table (bucket 196 has 2 slots at 2059, the buckets after it start at 2075), the
record at 2048, and the two slots of bucket 196, the second one holding the
hash 177604 and the record position 2048. -/
def image_one_record : Bytes :=
  (List.range 256).flatMap (fun b =>
    uint32_strpack_bigendian_macro (if b ≤ 196 then 2059 else 2075) ++
    uint32_strpack_bigendian_macro (if b = 196 then 2 else 0)) ++
  ( uint32_strpack_bigendian_macro 1 ++ uint32_strpack_bigendian_macro 2 ++ [97] ++ [61, 49]) ++
  ( uint32_strpack_bigendian_macro 0 ++ uint32_strpack_bigendian_macro 0 ++
    uint32_strpack_bigendian_macro 177604 ++ uint32_strpack_bigendian_macro 2048)

/-- The globals after a first `_nss_mcdb_db_getshared` for `d`, which maps
`img`, and the release of the reference it returned. -/
def released_once (img : Bytes) (d : nss_dbtype) : Globals :=
  (mcdb_unregister (_nss_mcdb_db_getshared (Env.ok img) Globals.init d).2 d).2

/-! ## The database file: builder and keyed lookup of `mcdb_make.c` and `mcdb.c` -/

/-- Modelled from the spec: a record of the data model, `(key, value,
discriminator)`; the discriminator `tag` is the byte stored immediately after
the key, that is the first byte of the value region of the serialized record. -/
structure Record where
  key : Bytes
  value : Bytes
  tag : Nat
  deriving DecidableEq, Repr

/-- Modelled from the spec: the serialized form of the record added by
`add(key, value)`: `u32` big-endian key length, `u32` big-endian value length,
the key bytes, the value bytes. -/
def record_bytes (key value : Bytes) : Bytes :=
  uint32_strpack_bigendian_macro key.length ++ uint32_strpack_bigendian_macro value.length ++
    key ++ value

/-- Modelled from the spec: the value region of a record of the data model as
it is handed to `add`: the discriminator followed by the value bytes. -/
def Record.region (r : Record) : Bytes := r.tag :: r.value

/-- Modelled from the spec: the state of a build session (`struct mcdb_make` of
the absent `mcdb_make.h`): the record stream written so far, which starts at
file offset 2048, and the recorded `(hash, position)` pairs in insertion order
(the per-bucket lists are its sublists by `hash mod 256`). -/
structure mcdb_make where
  stream : Bytes
  entries : List (Nat × Nat)
  deriving DecidableEq, Repr

/-- Modelled from the spec: `start`, the empty build session. -/
def mcdb_make_start : mcdb_make := { stream := [], entries := [] }

/-- Modelled from the spec: `add(key, value)` of the builder (`mcdb_make_add`):
the record is appended to the stream and `(hash(key), position)` is recorded. -/
def mcdb_make_add (hash : Bytes → Nat) (m : mcdb_make) (key value : Bytes) : mcdb_make :=
  { stream := m.stream ++ record_bytes key value,
    entries := m.entries ++ [(u32 (hash key), 2048 + m.stream.length)] }

/-- Modelled from the spec: the least power of two that is at least `n`,
searched upwards from `p` by doubling (part of the absent `mcdb_make.c`). -/
def pow2_above (n : Nat) : Nat → Nat → Nat
  | 0, p => p
  | fuel + 1, p => if n ≤ p then p else pow2_above n fuel (2 * p)

/-- Modelled from the spec: the size of the slot table of a bucket with `n`
entries: the next power of two at least `2 * n`, and 0 for an empty bucket. -/
def slot_table_size (n : Nat) : Nat :=
  if n = 0 then 0 else pow2_above (2 * n) (2 * n) 1

/-- Modelled from the spec: linear probing for the first empty slot (hash 0)
from index `i`, forward with wrap-around, at most `fuel` slots; the entry is
stored there (part of the absent `mcdb_make.c`). -/
def probe_insert (e : Nat × Nat) : Nat → List (Nat × Nat) → Nat → List (Nat × Nat)
  | 0, tbl, _ => tbl
  | fuel + 1, tbl, i =>
    if (tbl.getD i (0, 0)).1 = 0 then tbl.set i e
    else probe_insert e fuel tbl ((i + 1) % tbl.length)

/-- Modelled from the spec: insertion of one `(hash, position)` pair into a
slot table, starting at slot `(hash >> 8) mod table_size`. -/
def insert_slot (tbl : List (Nat × Nat)) (e : Nat × Nat) : List (Nat × Nat) :=
  probe_insert e tbl.length tbl ((e.1 / 256) % tbl.length)

/-- Modelled from the spec: the slot table of a bucket built at `finish` from
the bucket's `(hash, position)` pairs. -/
def build_table (es : List (Nat × Nat)) : List (Nat × Nat) :=
  es.foldl insert_slot (List.replicate (slot_table_size es.length) (0, 0))

/-- Modelled from the spec: the `(hash, position)` pairs of bucket `b`, those
with `hash mod 256 = b`, in insertion order. -/
def bucket_entries (m : mcdb_make) (b : Nat) : List (Nat × Nat) :=
  m.entries.filter fun e => e.1 % 256 = b

/-- Modelled from the spec: the serialized form of a slot table, per slot the
`u32` big-endian hash and the `u32` big-endian record position. -/
def table_bytes (tbl : List (Nat × Nat)) : Bytes :=
  tbl.flatMap fun e =>
    uint32_strpack_bigendian_macro e.1 ++ uint32_strpack_bigendian_macro e.2

/-- Modelled from the spec: the serialized slot tables of the buckets below
`b`, in ascending bucket order. -/
def tables_upto (m : mcdb_make) (b : Nat) : Bytes :=
  (List.range b).flatMap fun b' => table_bytes (build_table (bucket_entries m b'))

/-- Modelled from the spec: the file position of the slot table of bucket `b`,
after the head table, the record stream and the tables of the buckets below. -/
def table_pos (m : mcdb_make) (b : Nat) : Nat :=
  2048 + m.stream.length + (tables_upto m b).length

/-- Modelled from the spec: the bucket head table, per bucket the `u32`
big-endian position and the `u32` big-endian number of slots of its table. -/
def head_bytes (m : mcdb_make) : Bytes :=
  (List.range 256).flatMap fun b =>
    uint32_strpack_bigendian_macro (table_pos m b) ++
    uint32_strpack_bigendian_macro (build_table (bucket_entries m b)).length

/-- Modelled from the spec: `finish` of the builder (`mcdb_make_finish`): the
file is the head table, the record stream, the slot tables of the 256 buckets. -/
def mcdb_make_finish (m : mcdb_make) : Bytes :=
  head_bytes m ++ m.stream ++ tables_upto m 256

/-- Modelled from the spec: the build session after the records `rs` have been
added in order, each as `add(key, discriminator followed by value)`. -/
def mcdb_make_all (hash : Bytes → Nat) (rs : List Record) : mcdb_make :=
  rs.foldl (fun m r => mcdb_make_add hash m r.key r.region) mcdb_make_start

/-- Modelled from the spec: the database file built from the records `rs`:
`start`, one `add` per record, `finish`. -/
def mcdb_build (hash : Bytes → Nat) (rs : List Record) : Bytes :=
  mcdb_make_finish (mcdb_make_all hash rs)

/-- Modelled from the spec: `find_start` of the lookup engine
(`mcdb_findtagstart` of the absent `mcdb.c`): the hash of the key selects the
bucket, the head table gives its slot table, the cursor is set to slot
`(h >> 8) mod table_size`; false for an empty bucket. -/
def mcdb_findtagstart (hash : Bytes → Nat) (ptr : Option Bytes) (m : mcdb) (key : Bytes)
    (klen _tagc : Nat) : Option (Bool × mcdb) :=
  match ptr with
  | none => none
  | some map =>
    let khash := u32 (hash (key.take klen))
    match mcdb_uint32_unpack_bigendian_aligned_macro map (khash % 256 * 8),
          mcdb_uint32_unpack_bigendian_aligned_macro map (khash % 256 * 8 + 4) with
    | some hpos, some hslots =>
      let m := { m with khash := khash, hpos := hpos, hslots := hslots, loop := 0 }
      if hslots = 0 then some (false, m)
      else some (true, { m with kpos := hpos + khash / 256 % hslots * 8 })
    | _, _ => none

/-- Modelled from the spec: the probe loop of `find_next` (absent `mcdb.c`), at
most `fuel` slots: an empty slot (hash 0) ends the search; a slot with the hash
of the key is followed to its record, whose key length, key bytes and
discriminator (the byte right after the key) are compared; on a match the
cursor stays past the slot and `dpos`, `dlen` designate the value bytes after
the discriminator, which is what the round-trip property of the spec has a
lookup return. -/
def mcdb_findtagnext_loop (map key : Bytes) (klen tagc : Nat) : Nat → mcdb → Option (Bool × mcdb)
  | 0, m => some (false, m)
  | fuel + 1, m =>
    match mcdb_uint32_unpack_bigendian_aligned_macro map m.kpos,
          mcdb_uint32_unpack_bigendian_aligned_macro map (m.kpos + 4) with
    | some h, some pos =>
      let m := { m with
        kpos := if m.kpos + 8 = m.hpos + m.hslots * 8 then m.hpos else m.kpos + 8,
        loop := m.loop + 1 }
      if h = 0 then some (false, m)
      else if h = m.khash then
        match mcdb_uint32_unpack_bigendian_macro map pos,
              mcdb_uint32_unpack_bigendian_macro map (pos + 4) with
        | some rklen, some rdlen =>
          if rklen = klen ∧ (map.drop (pos + 8)).take klen = key.take klen ∧
              map[pos + 8 + klen]? = some tagc then
            some (true, { m with dpos := pos + 8 + klen + 1, dlen := rdlen - 1 })
          else mcdb_findtagnext_loop map key klen tagc fuel m
        | _, _ => none
      else mcdb_findtagnext_loop map key klen tagc fuel m
    | _, _ => none

/-- Modelled from the spec: `find_next` of the lookup engine
(`mcdb_findtagnext` of the absent `mcdb.c`): the probe loop over the slots not
yet visited. -/
def mcdb_findtagnext (ptr : Option Bytes) (m : mcdb) (key : Bytes) (klen tagc : Nat) :
    Option (Bool × mcdb) :=
  match ptr with
  | none => none
  | some map => mcdb_findtagnext_loop map key klen tagc (m.hslots - m.loop) m

/-- Modelled from the spec: the lookup engine of the absent `mcdb.c` with the
hash function `hash`, as the two functions the entry points call. -/
def mcdb_lookup (hash : Bytes → Nat) : Lookup where
  mcdb_findtagstart := mcdb_findtagstart hash
  mcdb_findtagnext := mcdb_findtagnext

/-- A hash function for the examples: `h = 5381`, then `h = (h * 33) xor c`
for each byte, in 32 bits. -/
def example_hash (key : Bytes) : Nat :=
  key.foldl (fun h c => u32 (h * 33) ^^^ (c % 256)) 5381

/-- The three records of the example: `alice` with `100` under `=`, `bob` with
`200` under `=`, `alice` with `999` under `x`. -/
def example_records : List Record :=
  [ { key := [97, 108, 105, 99, 101], value := [49, 48, 48], tag := 61 },
    { key := [98, 111, 98], value := [50, 48, 48], tag := 61 },
    { key := [97, 108, 105, 99, 101], value := [57, 57, 57], tag := 120 } ]

/-- The state of a slot table `tbl` after the pairs `es` have been inserted:
every pair has a non-zero hash; every slot is empty or holds one of the pairs;
every pair is found by probing from its start slot over non-empty slots; the
empty slots and the pairs together make up the size of the table. -/
structure TableInv (tbl es : List (Nat × Nat)) : Prop where
  nz : ∀ e ∈ es, e.1 ≠ 0
  slots : ∀ i, i < tbl.length → tbl.getD i (0, 0) = (0, 0) ∨ tbl.getD i (0, 0) ∈ es
  reach : ∀ e ∈ es, ∃ j, j < tbl.length ∧
    tbl.getD ((e.1 / 256 % tbl.length + j) % tbl.length) (0, 0) = e ∧
    ∀ j', j' < j → (tbl.getD ((e.1 / 256 % tbl.length + j') % tbl.length) (0, 0)).1 ≠ 0
  count : tbl.countP (fun s => s.1 == 0) + es.length = tbl.length

/-- The records `rs` with the file positions at which they are written when the
first one goes to position `start`. -/
def located (start : Nat) : List Record → List (Nat × Record)
  | [] => []
  | r :: rs => (start, r) :: located (start + (record_bytes r.key r.region).length) rs

/-- What the probe loop relies on in a file `img`: the slot table `tbl` of the
bucket is stored at `tp`; each of its slots is empty or holds the hash and the
position of one of the located records `L`; each located record is stored at
its position as key length, value length, key, discriminator, value. -/
structure BucketLayout (img : Bytes) (tbl : List (Nat × Nat)) (tp : Nat)
    (L : List (Nat × Record)) (H : Record → Nat) : Prop where
  slot_read : ∀ i, i < tbl.length →
    mcdb_uint32_unpack_bigendian_macro img (tp + i * 8) = some (tbl.getD i (0, 0)).1 ∧
    mcdb_uint32_unpack_bigendian_macro img (tp + i * 8 + 4) = some (tbl.getD i (0, 0)).2
  slot_entry : ∀ i, i < tbl.length →
    tbl.getD i (0, 0) = (0, 0) ∨ ∃ pr ∈ L, tbl.getD i (0, 0) = (H pr.2, pr.1)
  record_read : ∀ pr ∈ L,
    mcdb_uint32_unpack_bigendian_macro img pr.1 = some pr.2.key.length ∧
    mcdb_uint32_unpack_bigendian_macro img (pr.1 + 4) = some (pr.2.value.length + 1) ∧
    (img.drop (pr.1 + 8)).take pr.2.key.length = pr.2.key ∧
    img[pr.1 + 8 + pr.2.key.length]? = some pr.2.tag

/-- The database file built from zero records: 256 head-table entries, each
with the slot-table position 2048 and 0 slots; 2048 bytes. -/
def image_empty : Bytes :=
  (List.range 256).flatMap fun _ =>
    uint32_strpack_bigendian_macro 2048 ++ uint32_strpack_bigendian_macro 0

/-- The cursor and the globals after `_nss_mcdb_setent` and then
`_nss_mcdb_endent` on the cursor `m`. -/
def set_then_end (env : Env) (G : Globals) (m : mcdb) (d : nss_dbtype) : mcdb × Globals :=
  let r := _nss_mcdb_setent env G m d
  (r.2.1, (_nss_mcdb_endent r.2.2 r.2.1).2)

/-- The globals while some other user of the database `d` holds a reference to
its mapping of `img`, obtained by `_nss_mcdb_db_getshared`. -/
def held_elsewhere (img : Bytes) (d : nss_dbtype) : Globals :=
  (_nss_mcdb_db_getshared (Env.ok img) Globals.init d).2

/-! ## Well-formed database files, as `_nss_mcdb_getent` walks them -/

/-- The record stream of a database file that holds the records `recs`, each a
key and a value region, in the order in which they were added. -/
def stream_bytes (recs : List (Bytes × Bytes)) : Bytes :=
  recs.flatMap fun r => record_bytes r.1 r.2

/-- The file offset at which record `i` of the stream starts; for `i` the
number of records it is the offset at which the stream ends. -/
def record_start (recs : List (Bytes × Bytes)) (i : Nat) : Nat :=
  2048 + (stream_bytes (recs.take i)).length

/-- The key length of record `j`. -/
def rec_klen (recs : List (Bytes × Bytes)) (j : Nat) : Nat := (recs.getD j ([], [])).1.length

/-- The length of the value region of record `j`. -/
def rec_dlen (recs : List (Bytes × Bytes)) (j : Nat) : Nat := (recs.getD j ([], [])).2.length

/-- A well-formed database file `img` with the records `recs`: the 2048 bytes
of the head table, the record stream, the slot tables, which are not empty when
there is a record (every record has a slot); the first word of the head table
is the offset at which the record stream ends; the file is shorter than 4 GiB. -/
structure WellFormed (img : Bytes) (recs : List (Bytes × Bytes)) : Prop where
  layout : ∃ head tables, head.length = 2048 ∧ img = head ++ stream_bytes recs ++ tables ∧
    (recs ≠ [] → tables ≠ [])
  word0 : mcdb_uint32_unpack_bigendian_aligned_macro img 0
    = some (2048 + (stream_bytes recs).length)
  size : img.length < 4294967296

/-- The byte that `_nss_mcdb_getent` compares with `=` when the cursor is at
the start of record `j`: the one at offset `8 + klen` from that start. -/
def tag_byte (img : Bytes) (recs : List (Bytes × Bytes)) (j : Nat) : Option Nat :=
  img[record_start recs j + 8 + rec_klen recs j]?

/-- The cursor `m` with `kpos`, `dpos`, `dlen` set to the key and the value
region of record `j` and `hpos` to the start of record `j + 1`. -/
def cursor_past (m : mcdb) (recs : List (Bytes × Bytes)) (j : Nat) : mcdb :=
  { m with dlen := rec_dlen recs j, kpos := record_start recs j + 8,
           dpos := record_start recs j + 8 + rec_klen recs j,
           hpos := record_start recs (j + 1) }

/-- The `return vinfo->decode(m, NULL, vinfo)` of `_nss_mcdb_getent` with the
cursor `m`. -/
def deliver (vinfo : _nss_vinfo) (h : nss_dbtype) (map : Bytes) (m : mcdb) (G : Globals) :
    Outcome GetentResult :=
  match vinfo.decode (some map) m none vinfo.buflen with
  | none => .fault
  | some (st, w) =>
    .ret { status := st, m := m, writes := w, G := G.emit (.decode h m.kpos m.dpos m.dlen) }

/-- Modelled from the spec: the build session after `add(key, value)` for each
pair of `kvs` in order, the value regions as they are, possibly empty. -/
def mcdb_make_adds (hash : Bytes → Nat) (kvs : List (Bytes × Bytes)) : mcdb_make :=
  kvs.foldl (fun m kv => mcdb_make_add hash m kv.1 kv.2) mcdb_make_start

/-- A database file with the single record of key `kcvfprb` and an empty value:
the head table (bucket 125 has 2 slots at 2063, the buckets after it start at
2079), the 15 bytes of the record at 2048, and the two slots of bucket 125, the
first one holding the hash 1025684093, which is `0x3D22B27D`, and the record
position 2048. -/
def image_empty_value : Bytes :=
  (List.range 256).flatMap (fun b =>
    uint32_strpack_bigendian_macro (if b ≤ 125 then 2063 else 2079) ++
    uint32_strpack_bigendian_macro (if b = 125 then 2 else 0)) ++
  ( uint32_strpack_bigendian_macro 7 ++ uint32_strpack_bigendian_macro 0 ++
    [107, 99, 118, 102, 112, 114, 98] ++ []) ++
  ( uint32_strpack_bigendian_macro 1025684093 ++ uint32_strpack_bigendian_macro 2048 ++
    uint32_strpack_bigendian_macro 0 ++ uint32_strpack_bigendian_macro 0)

/-- A database file with the single record whose key is the 8 bytes
`FF FF FF F8 00 00 00 00` and whose value is `=1`: the head table (bucket 194
has 2 slots at 2066, the buckets after it start at 2082), the 18 bytes of the
record at 2048, and the two slots of bucket 194, the first one holding the hash
2578988738 and the record position 2048. -/
def image_key_header : Bytes :=
  (List.range 256).flatMap (fun b =>
    uint32_strpack_bigendian_macro (if b ≤ 194 then 2066 else 2082) ++
    uint32_strpack_bigendian_macro (if b = 194 then 2 else 0)) ++
  ( uint32_strpack_bigendian_macro 8 ++ uint32_strpack_bigendian_macro 2 ++
    [255, 255, 255, 248, 0, 0, 0, 0] ++ [61, 49]) ++
  ( uint32_strpack_bigendian_macro 2578988738 ++ uint32_strpack_bigendian_macro 2048 ++
    uint32_strpack_bigendian_macro 0 ++ uint32_strpack_bigendian_macro 0)

/-- An inconsistent file of 2048 bytes: the first word of the head table is
`0xFFFFFFF8`, the second is 0, every other byte is 0. -/
def image_wrap_head : Bytes := [255, 255, 255, 248, 0, 0, 0, 0] ++ List.replicate 2040 0

/-- An inconsistent file of 2048 bytes: the first word of the head table is 0,
the second is 1, the byte at offset 8 is `=`, every other byte is 0. -/
def image_bad_head : Bytes := [0, 0, 0, 0, 0, 0, 0, 1, 61] ++ List.replicate 2039 0

/-- The globals after `_nss_mcdb_setent` on a fresh cursor has mapped the file
`img` for the database `d`. -/
def after_setent (img : Bytes) (d : nss_dbtype) : Globals :=
  (_nss_mcdb_setent (Env.ok img) Globals.init mcdb.zero d).2.2

/-- The cursor of the examples: every field zero but `map`, which is the handle
of the database `d`, and `hpos`. -/
def cursor_at (d : nss_dbtype) (hpos : Nat) : mcdb :=
  { map := some d, loop := 0, hslots := 0, kpos := 0, hpos := hpos, dpos := 0, dlen := 0,
    khash := 0 }

/-- What `_nss_mcdb_getent` returns on the file `image_one_record` when it hands
the record at 2048 to `_nss_files_decode_buf`: the value `=1` and a NUL are
stored in `buf`. -/
def one_record_result (G : Globals) : GetentResult :=
  { status := NSS_STATUS_SUCCESS,
    m := { map := some NSS_DBTYPE_PASSWD, loop := 0, hslots := 0, kpos := 2056, hpos := 2059,
           dpos := 2057, dlen := 2, khash := 0 },
    writes := [(0, 61), (1, 49), (2, 0)],
    G := G.emit (.decode NSS_DBTYPE_PASSWD 2056 2057 2) }

/-! ## The test program `testzero` -/

/-- Modelled from the spec: `uint32_strpack_bigendian_aligned_macro` of the
absent `uint32.h`: the four bytes of a `uint32_t`, most significant first,
stored at an aligned address. -/
def uint32_strpack_bigendian_aligned_macro (n : Nat) : Bytes :=
  uint32_strpack_bigendian_macro (u32 n)

/-- The array `data` of `t/testzero.c`, `static const char data[65536-12]`:
zero-initialized. -/
def t_testzero_data : Bytes := List.replicate (65536 - 12) 0

/-- The array `data` of the older `testzero.c`, `static const char data[65536]`. -/
def testzero_data : Bytes := List.replicate 65536 0

/-- What the calls of `main` of `testzero` into the absent libraries return:
the descriptor from `nointr_open`, whether `mcdb_make_start` succeeds, whether
the call number `k` (from 0) of `mcdb_make_add` succeeds, whether
`mcdb_make_finish` and `nointr_close` succeed, and the value `mcdb_error`
returns. -/
structure TestzeroEnv where
  nointr_open : Int
  mcdb_make_start : Bool
  mcdb_make_add : Nat → Bool
  mcdb_make_finish : Bool
  nointr_close : Bool
  mcdb_error : Int

/-- The loop `while (loop--) { ... }` of `main` of `testzero` with the value
array `data`: `calls` are the `(key, value)` arguments of the calls of
`mcdb_make_add` made so far, the key being the `sizeof(uint32_t)` bytes at `key`
and the value the `sizeof(data)` bytes at `data`; the result tells whether the
loop ran to its end (`true`) or left through the `return` after a failed
`mcdb_make_add`. -/
def testzero_loop (data : Bytes) (add_ok : Nat → Bool) :
    Nat → List (Bytes × Bytes) → Bool × List (Bytes × Bytes)
  | 0, calls => (true, calls)
  | loop + 1, calls =>
    let key := uint32_strpack_bigendian_aligned_macro loop
    let calls' := calls ++ [(key.take 4, data.take data.length)]
    if add_ok calls.length then testzero_loop data add_ok loop calls' else (false, calls')

/-- The function `main` of `t/testzero.c`: `argc`, and `arg1` the value of
`strtoul(argv[1], NULL, 10)`; the result is the exit status and the arguments
of the calls of `mcdb_make_add`, in order. -/
def t_testzero_main (env : TestzeroEnv) (argc arg1 : Nat) : Int × List (Bytes × Bytes) :=
  let loop := if argc > 1 then u32 arg1 else 0
  let fd : Int := if argc > 2 then env.nointr_open else -1
  if !env.mcdb_make_start then (env.mcdb_error, [])
  else
    let r := testzero_loop t_testzero_data env.mcdb_make_add loop []
    if !r.1 then (env.mcdb_error, r.2)
    else if !env.mcdb_make_finish || (fd != -1 && !env.nointr_close) then (env.mcdb_error, r.2)
    else (0, r.2)

/-- The function `main` of the older `testzero.c`: `loop` is an `unsigned long`
there, of 64 bits, and the key is packed from its low 32 bits. -/
def testzero_main (env : TestzeroEnv) (argc arg1 : Nat) : Int × List (Bytes × Bytes) :=
  let loop := if argc > 1 then arg1 % 18446744073709551616 else 0
  let fd : Int := if argc > 2 then env.nointr_open else -1
  if !env.mcdb_make_start then (env.mcdb_error, [])
  else
    let r := testzero_loop testzero_data env.mcdb_make_add loop []
    if !r.1 then (env.mcdb_error, r.2)
    else if !env.mcdb_make_finish || (fd != -1 && !env.nointr_close) then (env.mcdb_error, r.2)
    else (0, r.2)

/-- The arguments of the `n` calls of `mcdb_make_add` that `testzero` makes for
the record count `n` when none fails: call `i` has the key `n - 1 - i`, packed
big-endian, and the value `data`. -/
def testzero_calls (data : Bytes) (n : Nat) : List (Bytes × Bytes) :=
  (List.range n).map fun i => ( uint32_strpack_bigendian_macro (n - 1 - i), data)

/-- An environment of `testzero` in which every call succeeds. -/
def TestzeroEnv.ok : TestzeroEnv where
  nointr_open := 3
  mcdb_make_start := true
  mcdb_make_add := fun _ => true
  mcdb_make_finish := true
  nointr_close := true
  mcdb_error := 1

/-! ## Keyed entry points by name and by number -/

/-- The decoders that `nss_mcdb.c` declares and does not define, as parameters. -/
structure Decoders where
  _nss_files_decode_passwd : Decoder
  _nss_files_decode_group : Decoder
  _nss_files_decode_netent : Decoder
  _nss_files_decode_protoent : Decoder
  _nss_files_decode_rpcent : Decoder
  _nss_files_decode_aliasent : Decoder
  _nss_files_decode_spwd : Decoder
  _nss_files_decode_ether_addr : Decoder

/-- The function `_nss_files_getpwnam_r`; `name` is the memory at the pointer
`name`. -/
def _nss_files_getpwnam_r (L : Lookup) (env : Env) (G : Globals) (stack : mcdb) (D : Decoders)
    (name : Bytes) (buflen : Nat) : Option (nss_status × Writes × Globals) :=
  let kinfo : _nss_kinfo := { key := name, klen := strlen name, tagc := 61 }
  let vinfo : _nss_vinfo := { decode := D._nss_files_decode_passwd, buflen := buflen }
  _nss_files_get_generic L env G stack NSS_DBTYPE_PASSWD kinfo vinfo

/-- The function `_nss_files_getpwuid_r`; `uid` is a `uid_t`, `hexstr` the
local array of 8 bytes that `uint32_to_ascii8uphex` fills. -/
def _nss_files_getpwuid_r (L : Lookup) (env : Env) (G : Globals) (stack : mcdb) (D : Decoders)
    (uid : Nat) (buflen : Nat) : Option (nss_status × Writes × Globals) :=
  let hexstr := uint32_to_ascii8uphex (u32 uid)
  let kinfo : _nss_kinfo := { key := hexstr, klen := 8, tagc := 120 }
  let vinfo : _nss_vinfo := { decode := D._nss_files_decode_passwd, buflen := buflen }
  _nss_files_get_generic L env G stack NSS_DBTYPE_PASSWD kinfo vinfo

/-- The function `_nss_files_getgrnam_r`. -/
def _nss_files_getgrnam_r (L : Lookup) (env : Env) (G : Globals) (stack : mcdb) (D : Decoders)
    (name : Bytes) (buflen : Nat) : Option (nss_status × Writes × Globals) :=
  let kinfo : _nss_kinfo := { key := name, klen := strlen name, tagc := 61 }
  let vinfo : _nss_vinfo := { decode := D._nss_files_decode_group, buflen := buflen }
  _nss_files_get_generic L env G stack NSS_DBTYPE_GROUP kinfo vinfo

/-- The function `_nss_files_getgrgid_r`; `gid` is a `gid_t`. -/
def _nss_files_getgrgid_r (L : Lookup) (env : Env) (G : Globals) (stack : mcdb) (D : Decoders)
    (gid : Nat) (buflen : Nat) : Option (nss_status × Writes × Globals) :=
  let hexstr := uint32_to_ascii8uphex (u32 gid)
  let kinfo : _nss_kinfo := { key := hexstr, klen := 8, tagc := 120 }
  let vinfo : _nss_vinfo := { decode := D._nss_files_decode_group, buflen := buflen }
  _nss_files_get_generic L env G stack NSS_DBTYPE_GROUP kinfo vinfo

/-- The function `_nss_files_getnetbyname_r`. -/
def _nss_files_getnetbyname_r (L : Lookup) (env : Env) (G : Globals) (stack : mcdb)
    (D : Decoders) (name : Bytes) (buflen : Nat) : Option (nss_status × Writes × Globals) :=
  let kinfo : _nss_kinfo := { key := name, klen := strlen name, tagc := 61 }
  let vinfo : _nss_vinfo := { decode := D._nss_files_decode_netent, buflen := buflen }
  _nss_files_get_generic L env G stack NSS_DBTYPE_NETWORKS kinfo vinfo

/-- The function `_nss_files_getnetbyaddr_r`; `net` is a `long`, `type` is not
used. -/
def _nss_files_getnetbyaddr_r (L : Lookup) (env : Env) (G : Globals) (stack : mcdb)
    (D : Decoders) (net : Int) (_type : Int) (buflen : Nat) :
    Option (nss_status × Writes × Globals) :=
  let hexstr := uint32_to_ascii8uphex (cast_uint32 net)
  let kinfo : _nss_kinfo := { key := hexstr, klen := 8, tagc := 120 }
  let vinfo : _nss_vinfo := { decode := D._nss_files_decode_netent, buflen := buflen }
  _nss_files_get_generic L env G stack NSS_DBTYPE_NETWORKS kinfo vinfo

/-- The function `_nss_files_getprotobyname_r`. -/
def _nss_files_getprotobyname_r (L : Lookup) (env : Env) (G : Globals) (stack : mcdb)
    (D : Decoders) (name : Bytes) (buflen : Nat) : Option (nss_status × Writes × Globals) :=
  let kinfo : _nss_kinfo := { key := name, klen := strlen name, tagc := 61 }
  let vinfo : _nss_vinfo := { decode := D._nss_files_decode_protoent, buflen := buflen }
  _nss_files_get_generic L env G stack NSS_DBTYPE_PROTOCOLS kinfo vinfo

/-- The function `_nss_files_getprotobynumber_r`; `proto` is an `int`. -/
def _nss_files_getprotobynumber_r (L : Lookup) (env : Env) (G : Globals) (stack : mcdb)
    (D : Decoders) (proto : Int) (buflen : Nat) : Option (nss_status × Writes × Globals) :=
  let hexstr := uint32_to_ascii8uphex (cast_uint32 proto)
  let kinfo : _nss_kinfo := { key := hexstr, klen := 8, tagc := 120 }
  let vinfo : _nss_vinfo := { decode := D._nss_files_decode_protoent, buflen := buflen }
  _nss_files_get_generic L env G stack NSS_DBTYPE_PROTOCOLS kinfo vinfo

/-- The function `_nss_files_getrpcbyname_r`. -/
def _nss_files_getrpcbyname_r (L : Lookup) (env : Env) (G : Globals) (stack : mcdb)
    (D : Decoders) (name : Bytes) (buflen : Nat) : Option (nss_status × Writes × Globals) :=
  let kinfo : _nss_kinfo := { key := name, klen := strlen name, tagc := 61 }
  let vinfo : _nss_vinfo := { decode := D._nss_files_decode_rpcent, buflen := buflen }
  _nss_files_get_generic L env G stack NSS_DBTYPE_RPC kinfo vinfo

/-- The function `_nss_files_getrpcbynumber_r`; `number` is an `int`. -/
def _nss_files_getrpcbynumber_r (L : Lookup) (env : Env) (G : Globals) (stack : mcdb)
    (D : Decoders) (number : Int) (buflen : Nat) : Option (nss_status × Writes × Globals) :=
  let hexstr := uint32_to_ascii8uphex (cast_uint32 number)
  let kinfo : _nss_kinfo := { key := hexstr, klen := 8, tagc := 120 }
  let vinfo : _nss_vinfo := { decode := D._nss_files_decode_rpcent, buflen := buflen }
  _nss_files_get_generic L env G stack NSS_DBTYPE_RPC kinfo vinfo

/-- The function `_nss_files_getaliasbyname_r`. -/
def _nss_files_getaliasbyname_r (L : Lookup) (env : Env) (G : Globals) (stack : mcdb)
    (D : Decoders) (name : Bytes) (buflen : Nat) : Option (nss_status × Writes × Globals) :=
  let kinfo : _nss_kinfo := { key := name, klen := strlen name, tagc := 61 }
  let vinfo : _nss_vinfo := { decode := D._nss_files_decode_aliasent, buflen := buflen }
  _nss_files_get_generic L env G stack NSS_DBTYPE_ALIASES kinfo vinfo

/-- The function `_nss_files_getspnam_r`. -/
def _nss_files_getspnam_r (L : Lookup) (env : Env) (G : Globals) (stack : mcdb) (D : Decoders)
    (name : Bytes) (buflen : Nat) : Option (nss_status × Writes × Globals) :=
  let kinfo : _nss_kinfo := { key := name, klen := strlen name, tagc := 61 }
  let vinfo : _nss_vinfo := { decode := D._nss_files_decode_spwd, buflen := buflen }
  _nss_files_get_generic L env G stack NSS_DBTYPE_SHADOW kinfo vinfo

/-- The function `_nss_files_getpublickey`, whose decoder is
`_nss_files_decode_buf`. -/
def _nss_files_getpublickey (L : Lookup) (env : Env) (G : Globals) (stack : mcdb)
    (name : Bytes) (buflen : Nat) : Option (nss_status × Writes × Globals) :=
  let kinfo : _nss_kinfo := { key := name, klen := strlen name, tagc := 61 }
  let vinfo : _nss_vinfo := { decode := _nss_files_decode_buf, buflen := buflen }
  _nss_files_get_generic L env G stack NSS_DBTYPE_PUBLICKEY kinfo vinfo

/-- The function `_nss_files_gethostton_r`: `buf` is `NULL` and `buflen` is 0. -/
def _nss_files_gethostton_r (L : Lookup) (env : Env) (G : Globals) (stack : mcdb)
    (D : Decoders) (name : Bytes) : Option (nss_status × Writes × Globals) :=
  let kinfo : _nss_kinfo := { key := name, klen := strlen name, tagc := 61 }
  let vinfo : _nss_vinfo := { decode := D._nss_files_decode_ether_addr, buflen := 0 }
  _nss_files_get_generic L env G stack NSS_DBTYPE_ETHERS kinfo vinfo

/-- A lookup used to read off what a caller passes: `mcdb_findtagstart` finds
nothing when it is given the key bytes `key`, the length `klen` and the tag
`tagc`, and faults when it is given anything else. -/
def Lookup.expects (key : Bytes) (klen tagc : Nat) : Lookup where
  mcdb_findtagstart := fun _ m k kl t =>
    if k.take kl = key ∧ kl = klen ∧ t = tagc then some (false, m) else none
  mcdb_findtagnext := fun _ _ _ _ _ => none

/-- Events that are a call of `pthread_mutex_lock` or `pthread_mutex_unlock`. -/
def Event.isMutex : Event → Bool
  | .pthread_mutex_lock _ => true
  | .pthread_mutex_unlock => true
  | _ => false
/-- Invariant of the published handles: `nss_mcdb_mmap[d]` is `NULL` or the
address of the static handle `nss_mcdb_mmap_st[d]`, and in the latter case
`mcdb_mmap_init` has succeeded on that handle. -/
def published_own (G : Globals) : Prop :=
  ∀ d, G.nss_mcdb_mmap d = none ∨
    (G.nss_mcdb_mmap d = some d ∧ Event.mcdb_mmap_init d true ∈ G.trace)
/-! ## `_nss_files_getnetgrent_r` -/

/-- The C library function `memchr(buf + start, c, n)` on the buffer contents
`mem`, given by offset from `buf`: the offset from `buf` of the first byte equal
to `c` among the `n` bytes from `buf + start`, `none` for `NULL`. -/
def memchr (mem : Nat → Nat) (start c n : Nat) : Option Nat :=
  ((List.range n).find? fun i => mem (start + i) = c).map fun i => start + i

/-- A value of type `char *` as `_nss_files_getnetgrent_r` computes it: `buf + off`
or `(char *)NULL + off`. -/
inductive CharPtr where
  | buf (off : Nat)
  | null (off : Nat)
  deriving DecidableEq, Repr

/-- What `_nss_files_getnetgrent_r` yields when it returns: the status, the
cursor `nss_mcdb_st[NSS_DBTYPE_NETGROUP]`, the stores of the decoder into `buf`,
what it stores in `*host`, `*user` and `*domain` (`none` when it does not write
the location), the globals. -/
structure NetgrentResult where
  status : nss_status
  m : mcdb
  writes : Writes
  host : Option CharPtr
  user : Option CharPtr
  domain : Option CharPtr
  G : Globals

/-- The function `_nss_files_getnetgrent_r`; `st` is the cursor
`nss_mcdb_st[NSS_DBTYPE_NETGROUP]`, `buf` the contents of the buffer before the
call, `fuel` bounds the iterations of the loop of `_nss_mcdb_getent`. When the
first `memchr` returns `NULL`, `*user` is `NULL + 1` and the second `memchr`
reads through it: a fault. The length `buflen - (*user - buf)` of the second
`memchr` is computed in `size_t`; `*user - buf` is at most `buflen` here. -/
def _nss_files_getnetgrent_r (fuel : Nat) (env : Env) (G : Globals) (st : mcdb)
    (buf : Nat → Nat) (buflen : Nat) : Outcome NetgrentResult :=
  let vinfo : _nss_vinfo := { decode := _nss_files_decode_buf, buflen := buflen }
  match _nss_mcdb_getent fuel env G st NSS_DBTYPE_NETGROUP vinfo with
  | .fault => .fault
  | .nofuel => .nofuel
  | .ret r =>
    if r.status = NSS_STATUS_SUCCESS then
      let mem := apply_writes buf r.writes
      match memchr mem 0 0 buflen with
      | none => .fault
      | some i =>
        let user := i + 1
        let domain :=
          match memchr mem user 0 (buflen - user) with
          | none => CharPtr.null 1
          | some j => CharPtr.buf (j + 1)
        .ret { status := r.status, m := r.m, writes := r.writes, host := some (.buf 0),
               user := some (.buf user), domain := some domain, G := r.G }
    else
      .ret { status := r.status, m := r.m, writes := r.writes, host := none, user := none,
             domain := none, G := r.G }

/-- The string that starts at the pointer `p` ends inside `buf[0..buflen)`: `p`
is `buf + off` with `off < buflen` and some byte of `mem` from `off` on, before
`buflen`, is NUL. -/
def CharPtr.string_in (mem : Nat → Nat) (buflen : Nat) : CharPtr → Prop
  | .buf off => off < buflen ∧ ∃ e, off ≤ e ∧ e < buflen ∧ mem e = 0
  | .null _ => False

/-- A database file with the single record of key `mbcspwl` and value `=a`: the
head table (bucket 17 has 2 slots at 2065, the buckets after it start at 2081),
the 17 bytes of the record at 2048, and the two slots of bucket 17, the second
one, at 2073, holding the hash 1027348753, which is `0x3D3C1911`, and the record
position 2048. -/
def image_slot_tag : Bytes :=
  (List.range 256).flatMap (fun b =>
    uint32_strpack_bigendian_macro (if b ≤ 17 then 2065 else 2081) ++
    uint32_strpack_bigendian_macro (if b = 17 then 2 else 0)) ++
  ( uint32_strpack_bigendian_macro 7 ++ uint32_strpack_bigendian_macro 2 ++
    [109, 98, 99, 115, 112, 119, 108] ++ [61, 97]) ++
  ( uint32_strpack_bigendian_macro 0 ++ uint32_strpack_bigendian_macro 0 ++
    uint32_strpack_bigendian_macro 1027348753 ++ uint32_strpack_bigendian_macro 2048)
/-! ## `_nss_files_getntohost_r` -/

/-- The function `_nss_files_getntohost_r`. `ether` is the value of the pointer
argument and `_addr` the six bytes of the `struct ether_addr` it points to. The
key is what `uint32_to_ascii8uphex((uint32_t)ether, hexstr)` stores in `hexstr`,
the eight hexadecimal digits of the low 32 bits of the pointer; the function
does not read through `ether`. -/
def _nss_files_getntohost_r (L : Lookup) (env : Env) (G : Globals) (stack : mcdb)
    (ether : Nat) (_addr : Bytes) (buflen : Nat) : Option (nss_status × Writes × Globals) :=
  let hexstr := uint32_to_ascii8uphex (u32 ether)
  let kinfo : _nss_kinfo := { key := hexstr, klen := 8, tagc := 120 }
  let vinfo : _nss_vinfo := { decode := _nss_files_decode_buf, buflen := buflen }
  _nss_files_get_generic L env G stack NSS_DBTYPE_ETHERS kinfo vinfo

/-- The one record of the ethers example: the key `00001000` with the value `h`
under the tag `x`. -/
def ether_records : List Record :=
  [ { key := [48, 48, 48, 48, 49, 48, 48, 48], value := [104], tag := 120 } ]

/-- The memory a read-only `mmap` of a file gives: whole pages of `pagesize`
bytes, holding the bytes of the file and then zero bytes up to the end of the
last page. -/
def mmap_pages (pagesize : Nat) (file : Bytes) : Bytes :=
  file ++ List.replicate ((pagesize - file.length % pagesize) % pagesize) 0

/-- Two records with the same key `a` and the same tag `=`: the first with the
value `22222`, the second with the value `1`. -/
def duplicate_records : List Record :=
  [ { key := [97], value := [50, 50, 50, 50, 50], tag := 61 },
    { key := [97], value := [49], tag := 61 } ]

/-- One record whose key `cphvahfg` has the hash 0 under `example_hash`. -/
def zero_hash_records : List Record :=
  [ { key := [99, 112, 104, 118, 97, 104, 102, 103], value := [49], tag := 61 } ]

/-! ## Theorems -/

/-! ### Output buffer lemmas -/

theorem apply_writes_cons (buf : Nat → Nat) (p : Nat × Nat) (w : Writes) :
    apply_writes buf (p :: w) = apply_writes (Function.update buf p.1 p.2) w := rfl

theorem apply_writes_append (buf : Nat → Nat) (w₁ w₂ : Writes) :
    apply_writes buf (w₁ ++ w₂) = apply_writes (apply_writes buf w₁) w₂ := by
  simp [apply_writes, List.foldl_append]

theorem stores_from_index (k : Nat) (bs : Bytes) :
    ∀ p ∈ stores_from k bs, k ≤ p.1 ∧ p.1 < k + bs.length := by
  induction bs generalizing k with
  | nil => intro p hp; simp [stores_from] at hp
  | cons b bs ih =>
    intro p hp
    simp only [stores_from, List.mem_cons] at hp
    rcases hp with rfl | hp
    · simp
    · have := ih (k + 1) p hp
      simp only [List.length_cons]
      omega

theorem apply_writes_stores_from (buf : Nat → Nat) (k : Nat) (bs : Bytes) (i : Nat) :
    apply_writes buf (stores_from k bs) i
      = if k ≤ i then (bs[i - k]?).getD (buf i) else buf i := by
  induction bs generalizing k buf with
  | nil => simp [stores_from, apply_writes]
  | cons b bs ih =>
    rw [stores_from, apply_writes_cons, ih]
    by_cases h1 : k + 1 ≤ i
    · have h2 : k ≤ i := by omega
      have h3 : i - k = (i - (k + 1)) + 1 := by omega
      have h4 : i ≠ k := by omega
      simp [h1, h2, h3, Function.update, h4]
    · by_cases h2 : k ≤ i
      · have h3 : i = k := by omega
        subst h3
        simp
      · have h4 : i ≠ k := by omega
        simp [h1, h2, Function.update, h4]

/-! ### `_nss_files_decode_buf` -/

/-- C3: `_nss_files_decode_buf` returns `NSS_STATUS_TRYAGAIN` exactly when
`buflen <= dlen` (so also when the buffer is exactly as long as the value), and
then it makes no store at all: the buffer is left as it was. -/
theorem decode_buf_tryagain_iff (ptr : Option Bytes) (m : mcdb) (kinfo : Option _nss_kinfo)
    (buflen : Nat) :
    ((∃ w, _nss_files_decode_buf ptr m kinfo buflen = some (NSS_STATUS_TRYAGAIN, w))
        ↔ buflen ≤ mcdb_datalen m) ∧
    (∀ w, _nss_files_decode_buf ptr m kinfo buflen = some (NSS_STATUS_TRYAGAIN, w) →
        w = [] ∧ ∀ buf : Nat → Nat, apply_writes buf w = buf) := by
  unfold _nss_files_decode_buf
  by_cases h : buflen > mcdb_datalen m
  · have h' : ¬ buflen ≤ mcdb_datalen m := by omega
    simp only [h, if_true, h', iff_false, not_exists]
    constructor
    · intro w
      cases ptr with
      | none => simp
      | some p =>
        cases hm : memcpy (mcdb_dataptr p m) (mcdb_datalen m) <;> simp [hm]
    · intro w
      cases ptr with
      | none => simp
      | some p =>
        cases hm : memcpy (mcdb_dataptr p m) (mcdb_datalen m) <;> simp [hm]
  · have h' : buflen ≤ mcdb_datalen m := by omega
    simp only [h, if_false, h', iff_true]
    constructor
    · exact ⟨[], rfl⟩
    · intro w hw
      simp only [Option.some.injEq, Prod.mk.injEq, true_and] at hw
      subst hw
      exact ⟨rfl, fun _ => rfl⟩

/-- The instance of `decode_buf_tryagain_iff` for the 3-byte value `100` and a
3-byte buffer. -/
theorem decode_buf_tryagain_iff_witness :
    ((∃ w, _nss_files_decode_buf (some [49, 48, 48])
          { map := none, loop := 0, hslots := 0, kpos := 0, hpos := 0, dpos := 0, dlen := 3,
            khash := 0 } none 3 = some (NSS_STATUS_TRYAGAIN, w)) ↔ 3 ≤ 3) :=
  (decode_buf_tryagain_iff (some [49, 48, 48])
    { map := none, loop := 0, hslots := 0, kpos := 0, hpos := 0, dpos := 0, dlen := 3,
      khash := 0 } none 3).1

/-- C4: for a value of length `dlen` lying inside the mapping and a buffer with
`buflen > dlen`, `_nss_files_decode_buf` returns `NSS_STATUS_SUCCESS`; after its
stores `buf[0..dlen)` holds the value bytes, `buf[dlen]` is 0, every byte at an
index above `dlen` is as before, and every store goes to an index below
`buflen`. -/
theorem decode_buf_success (ptr : Bytes) (m : mcdb) (kinfo : Option _nss_kinfo)
    (buflen : Nat) (buf : Nat → Nat)
    (hval : m.dpos + mcdb_datalen m ≤ ptr.length) (hbuf : buflen > mcdb_datalen m) :
    ∃ w, _nss_files_decode_buf (some ptr) m kinfo buflen = some (NSS_STATUS_SUCCESS, w) ∧
      (∀ i, i < mcdb_datalen m → some (apply_writes buf w i) = ptr[m.dpos + i]?) ∧
      apply_writes buf w (mcdb_datalen m) = 0 ∧
      (∀ i, mcdb_datalen m < i → apply_writes buf w i = buf i) ∧
      (∀ p ∈ w, p.1 < buflen) := by
  have hlen : mcdb_datalen m ≤ (mcdb_dataptr ptr m).length := by
    simp only [mcdb_dataptr, List.length_drop]; omega
  have htl : ((mcdb_dataptr ptr m).take (mcdb_datalen m)).length = mcdb_datalen m := by
    simp only [List.length_take]; omega
  refine ⟨stores_from 0 ((mcdb_dataptr ptr m).take (mcdb_datalen m)) ++ [(mcdb_datalen m, 0)],
    ?_, ?_, ?_, ?_, ?_⟩
  · simp [_nss_files_decode_buf, hbuf, memcpy, hlen]
  · intro i hi
    rw [apply_writes_append, apply_writes_cons]
    have hne : i ≠ mcdb_datalen m := by omega
    simp only [apply_writes, List.foldl_nil, Function.update, hne, dite_false, eq_rec_constant]
    have := apply_writes_stores_from buf 0 ((mcdb_dataptr ptr m).take (mcdb_datalen m)) i
    simp only [apply_writes] at this
    rw [this]
    have h1 : i < ((mcdb_dataptr ptr m).take (mcdb_datalen m)).length := by omega
    simp only [Nat.zero_le, if_true, Nat.sub_zero, List.getElem?_eq_getElem h1,
      Option.getD_some]
    have h2 : m.dpos + i < ptr.length := by simp only [mcdb_datalen] at hval hi; omega
    rw [List.getElem?_eq_getElem h2]
    simp [mcdb_dataptr, List.getElem_take, List.getElem_drop]
  · rw [apply_writes_append, apply_writes_cons]
    simp [apply_writes]
  · intro i hi
    rw [apply_writes_append, apply_writes_cons]
    have hne : i ≠ mcdb_datalen m := by omega
    simp only [apply_writes, List.foldl_nil, Function.update, hne, dite_false, eq_rec_constant]
    have := apply_writes_stores_from buf 0 ((mcdb_dataptr ptr m).take (mcdb_datalen m)) i
    simp only [apply_writes] at this
    rw [this]
    have h1 : ¬ i < ((mcdb_dataptr ptr m).take (mcdb_datalen m)).length := by omega
    simp [List.getElem?_eq_none (Nat.le_of_not_lt h1)]
  · intro p hp
    simp only [List.mem_append, List.mem_singleton] at hp
    rcases hp with hp | rfl
    · have := stores_from_index 0 _ p hp
      omega
    · exact hbuf

/-- The instance of `decode_buf_success` for the value `100` stored at offset 2
of a 5-byte mapping and a 4-byte buffer. -/
theorem decode_buf_success_witness :
    ∃ w, _nss_files_decode_buf (some [97, 61, 49, 48, 48])
        { map := none, loop := 0, hslots := 0, kpos := 0, hpos := 0, dpos := 2, dlen := 3,
          khash := 0 } none 4 = some (NSS_STATUS_SUCCESS, w) ∧
      (∀ i, i < 3 → some (apply_writes (fun _ => 7) w i) = [97, 61, 49, 48, 48][2 + i]?) ∧
      apply_writes (fun _ => 7) w 3 = 0 ∧
      (∀ i, 3 < i → apply_writes (fun _ => 7) w i = 7) ∧
      (∀ p ∈ w, p.1 < 4) :=
  decode_buf_success [97, 61, 49, 48, 48]
    { map := none, loop := 0, hslots := 0, kpos := 0, hpos := 0, dpos := 2, dlen := 3,
      khash := 0 } none 4 (fun _ => 7) (by decide) (by decide)

/-! ### `nss_mcdb_mmap_free` -/

/-- C7: `nss_mcdb_mmap_free` hands `m` to `free` if and only if `m` lies outside
the static handle array, that is `m < &nss_mcdb_mmap_st[0]` or
`m >= &nss_mcdb_mmap_st[N]` with `N = 12` the number of database types; no
address inside the array, start of an element or not, is ever handed to `free`. -/
theorem mmap_free_iff_outside_static (st sz m : Nat) :
    nss_mcdb_mmap_st_len = 12 ∧
    (m ∈ nss_mcdb_mmap_free st sz m ↔ (m < st ∨ st + nss_mcdb_mmap_st_len * sz ≤ m)) ∧
    (∀ a, st ≤ a → a < st + nss_mcdb_mmap_st_len * sz → ∀ v, a ∉ nss_mcdb_mmap_free st sz v) := by
  refine ⟨rfl, ?_, ?_⟩
  · unfold nss_mcdb_mmap_free
    by_cases h : st + nss_mcdb_mmap_st_len * sz ≤ m ∨ m < st
    · simp only [h, if_true, List.mem_singleton, true_iff]
      tauto
    · simp only [h, if_false, List.not_mem_nil, false_iff]
      tauto
  · intro a h1 h2 v hv
    unfold nss_mcdb_mmap_free at hv
    by_cases h : st + nss_mcdb_mmap_st_len * sz ≤ v ∨ v < st
    · simp only [h, if_true, List.mem_singleton] at hv
      subst hv
      omega
    · simp [h] at hv

/-- The instance of `mmap_free_iff_outside_static` for an array at address 1000
with 64-byte elements: the address 1100, inside the third element, is never
freed. -/
theorem mmap_free_iff_outside_static_witness :
    ∀ v, 1100 ∉ nss_mcdb_mmap_free 1000 64 v :=
  (mmap_free_iff_outside_static 1000 64 0).2.2 1100 (by decide) (by decide)

/-! ### Frame lemmas for the globals -/

@[simp] theorem emit_trace (G : Globals) (e : Event) : (G.emit e).trace = G.trace ++ [e] := rfl

@[simp] theorem emit_st (G : Globals) (e : Event) :
    (G.emit e).nss_mcdb_mmap_st = G.nss_mcdb_mmap_st := rfl

@[simp] theorem emit_mmap (G : Globals) (e : Event) :
    (G.emit e).nss_mcdb_mmap = G.nss_mcdb_mmap := rfl

@[simp] theorem emit_dfd (G : Globals) (e : Event) : (G.emit e).dfd = G.dfd := rfl

@[simp] theorem setSt_trace (G : Globals) (d : nss_dbtype) (f : mcdb_mmap → mcdb_mmap) :
    (G.setSt d f).trace = G.trace := rfl

@[simp] theorem setSt_mmap (G : Globals) (d : nss_dbtype) (f : mcdb_mmap → mcdb_mmap) :
    (G.setSt d f).nss_mcdb_mmap = G.nss_mcdb_mmap := rfl

@[simp] theorem setSt_dfd (G : Globals) (d : nss_dbtype) (f : mcdb_mmap → mcdb_mmap) :
    (G.setSt d f).dfd = G.dfd := rfl

theorem setSt_st (G : Globals) (d d' : nss_dbtype) (f : mcdb_mmap → mcdb_mmap) :
    (G.setSt d f).nss_mcdb_mmap_st d'
      = if d' = d then f (G.nss_mcdb_mmap_st d) else G.nss_mcdb_mmap_st d' := by
  by_cases h : d' = d
  · subst h; simp [Globals.setSt]
  · simp [Globals.setSt, Function.update, h]

theorem setSt_refcnt (G : Globals) (d d' : nss_dbtype) (f : mcdb_mmap → mcdb_mmap)
    (hf : (f (G.nss_mcdb_mmap_st d)).refcnt = (G.nss_mcdb_mmap_st d).refcnt) :
    ((G.setSt d f).nss_mcdb_mmap_st d').refcnt = (G.nss_mcdb_mmap_st d').refcnt := by
  rw [setSt_st]
  split
  · next h => subst h; exact hf
  · rfl

theorem mmap_init_refcnt (env : Env) (G : Globals) (d d' : nss_dbtype) :
    ((mcdb_mmap_init env G d).2.nss_mcdb_mmap_st d').refcnt = (G.nss_mcdb_mmap_st d').refcnt := by
  unfold mcdb_mmap_init
  cases env.mcdb_mmap_init <;> simp [setSt_refcnt]

theorem openshared_file_refcnt (env : Env) (G : Globals) (d d' : nss_dbtype) :
    ((_nss_mcdb_db_openshared_file env G d).2.nss_mcdb_mmap_st d').refcnt
      = (G.nss_mcdb_mmap_st d').refcnt := by
  unfold _nss_mcdb_db_openshared_file
  simp only []
  split_ifs <;> simp [setSt_refcnt, mmap_init_refcnt]

theorem openshared_refcnt (env : Env) (G : Globals) (d d' : nss_dbtype) :
    ((_nss_mcdb_db_openshared env G d).2.nss_mcdb_mmap_st d').refcnt
      = (G.nss_mcdb_mmap_st d').refcnt := by
  unfold _nss_mcdb_db_openshared
  simp only []
  split_ifs <;> simp [openshared_file_refcnt, setSt_refcnt]

/-! ### What each call does to the trace and to the published pointers -/

@[simp] theorem mmap_init_fst (env : Env) (G : Globals) (d : nss_dbtype) :
    (mcdb_mmap_init env G d).1 = env.mcdb_mmap_init.isSome := by
  unfold mcdb_mmap_init; cases env.mcdb_mmap_init <;> rfl

@[simp] theorem mmap_init_trace (env : Env) (G : Globals) (d : nss_dbtype) :
    (mcdb_mmap_init env G d).2.trace
      = G.trace ++ [.mcdb_mmap_init d env.mcdb_mmap_init.isSome] := by
  unfold mcdb_mmap_init; cases env.mcdb_mmap_init <;> rfl

@[simp] theorem mmap_init_mmap (env : Env) (G : Globals) (d : nss_dbtype) :
    (mcdb_mmap_init env G d).2.nss_mcdb_mmap = G.nss_mcdb_mmap := by
  unfold mcdb_mmap_init; cases env.mcdb_mmap_init <;> rfl

@[simp] theorem mmap_init_dfd (env : Env) (G : Globals) (d : nss_dbtype) :
    (mcdb_mmap_init env G d).2.dfd = G.dfd := by
  unfold mcdb_mmap_init; cases env.mcdb_mmap_init <;> rfl

theorem openshared_file_fst (env : Env) (G : Globals) (d : nss_dbtype) :
    (_nss_mcdb_db_openshared_file env G d).1
      = (decide (env.openat ≠ -1) && env.mcdb_mmap_init.isSome) := by
  unfold _nss_mcdb_db_openshared_file
  by_cases h : env.openat = -1 <;> simp [h]

theorem openshared_file_trace (env : Env) (G : Globals) (d : nss_dbtype) :
    (_nss_mcdb_db_openshared_file env G d).2.trace
      = G.trace ++ (if env.openat ≠ -1 then
          [.openat d env.openat, .mcdb_mmap_init d env.mcdb_mmap_init.isSome,
           .close env.openat, .pthread_mutex_unlock]
        else [.openat d env.openat, .pthread_mutex_unlock]) := by
  unfold _nss_mcdb_db_openshared_file
  by_cases h : env.openat = -1 <;> cases h' : env.mcdb_mmap_init <;> simp [h, h']

theorem openshared_file_mmap (env : Env) (G : Globals) (d : nss_dbtype) :
    (_nss_mcdb_db_openshared_file env G d).2.nss_mcdb_mmap
      = if env.openat ≠ -1 ∧ env.mcdb_mmap_init.isSome = true then
          Function.update G.nss_mcdb_mmap d (some d)
        else G.nss_mcdb_mmap := by
  unfold _nss_mcdb_db_openshared_file
  by_cases h : env.openat = -1 <;> cases h' : env.mcdb_mmap_init <;> simp [h, h']

theorem openshared_fst (env : Env) (G : Globals) (d : nss_dbtype) :
    (_nss_mcdb_db_openshared env G d).1
      = if env.pthread_mutex_lock ≠ 0 then false
        else if (G.nss_mcdb_mmap d).isSome then true
        else if G.dfd ≤ STDERR_FILENO ∧ ¬ env.open_dbpath > STDERR_FILENO then false
        else (decide (env.openat ≠ -1) && env.mcdb_mmap_init.isSome) := by
  unfold _nss_mcdb_db_openshared
  simp only []
  split_ifs <;> simp_all [openshared_file_fst]
  all_goals (simp only [STDERR_FILENO] at *; omega)

theorem openshared_trace (env : Env) (G : Globals) (d : nss_dbtype) :
    (_nss_mcdb_db_openshared env G d).2.trace
      = G.trace ++ (.pthread_mutex_lock env.pthread_mutex_lock ::
        if env.pthread_mutex_lock ≠ 0 then []
        else if (G.nss_mcdb_mmap d).isSome then [.pthread_mutex_unlock]
        else
          (if G.dfd ≤ STDERR_FILENO then [Event.open_dbpath env.open_dbpath] else []) ++
          (if G.dfd ≤ STDERR_FILENO ∧ ¬ env.open_dbpath > STDERR_FILENO then
            (if env.open_dbpath ≠ -1 then [Event.close env.open_dbpath] else []) ++
              [.pthread_mutex_unlock]
          else if env.openat ≠ -1 then
            [.openat d env.openat, .mcdb_mmap_init d env.mcdb_mmap_init.isSome,
             .close env.openat, .pthread_mutex_unlock]
          else [.openat d env.openat, .pthread_mutex_unlock])) := by
  unfold _nss_mcdb_db_openshared
  simp only []
  split_ifs <;> simp_all [openshared_file_trace]
  all_goals (simp only [STDERR_FILENO] at *; omega)

theorem openshared_mmap (env : Env) (G : Globals) (d : nss_dbtype) :
    (_nss_mcdb_db_openshared env G d).2.nss_mcdb_mmap
      = if (_nss_mcdb_db_openshared env G d).1 = true ∧ G.nss_mcdb_mmap d = none then
          Function.update G.nss_mcdb_mmap d (some d)
        else G.nss_mcdb_mmap := by
  rw [openshared_fst]
  unfold _nss_mcdb_db_openshared
  simp only []
  split_ifs <;> simp_all [openshared_file_mmap]
  all_goals (simp only [STDERR_FILENO] at *; omega)

theorem openshared_published_noop (env : Env) (G : Globals) (dbtype : nss_dbtype)
    (hlock : env.pthread_mutex_lock = 0) (hpub : (G.nss_mcdb_mmap dbtype).isSome) :
    _nss_mcdb_db_openshared env G dbtype
      = (true, { G with trace := G.trace ++ [.pthread_mutex_lock 0, .pthread_mutex_unlock] }) := by
  simp [_nss_mcdb_db_openshared, hlock, hpub, Globals.emit]


theorem openshared_quiet (env : Env) (G : Globals) (d : nss_dbtype) :
    ∃ evs, (_nss_mcdb_db_openshared env G d).2.trace = G.trace ++ evs ∧
      ∀ e ∈ evs, e.isQuiet = true := by
  refine ⟨_, openshared_trace env G d, ?_⟩
  rw [← List.all_eq_true]
  simp only [List.all_cons, Bool.and_eq_true]
  refine ⟨rfl, ?_⟩
  split_ifs <;> rfl


theorem register_fst (env : Env) (G : Globals) (h : Option nss_dbtype) :
    (mcdb_register env G h).1 = (h.isSome && env.mcdb_register) := by
  cases h with
  | none => simp [mcdb_register]
  | some d => by_cases hr : env.mcdb_register = true <;> simp [mcdb_register, hr]

theorem register_trace (env : Env) (G : Globals) (h : Option nss_dbtype) :
    (mcdb_register env G h).2.trace
      = G.trace ++ [.mcdb_register h (h.isSome && env.mcdb_register)] := by
  cases h with
  | none => simp [mcdb_register]
  | some d => by_cases hr : env.mcdb_register = true <;> simp [mcdb_register, hr]

theorem register_mmap (env : Env) (G : Globals) (h : Option nss_dbtype) :
    (mcdb_register env G h).2.nss_mcdb_mmap = G.nss_mcdb_mmap := by
  cases h with
  | none => simp [mcdb_register]
  | some d => by_cases hr : env.mcdb_register = true <;> simp [mcdb_register, hr]

theorem register_refcnt (env : Env) (G : Globals) (h : Option nss_dbtype) (d' : nss_dbtype) :
    ((mcdb_register env G h).2.nss_mcdb_mmap_st d').refcnt
      = (G.nss_mcdb_mmap_st d').refcnt
        + (if h = some d' ∧ env.mcdb_register = true then 1 else 0) := by
  unfold mcdb_register
  cases h with
  | none => simp
  | some d =>
    by_cases hr : env.mcdb_register = true
    · by_cases hd : d = d'
      · subst hd; simp [hr, setSt_st]
      · have hd' : ¬ d' = d := fun h => hd h.symm
        simp [hr, setSt_st, hd, hd']
    · simp [hr]

theorem unregister_trace (G : Globals) (h : nss_dbtype) :
    (mcdb_unregister G h).2.trace
      = G.trace ++ (.mcdb_unregister h ::
          if (G.nss_mcdb_mmap_st h).refcnt = 1 then [.mcdb_mmap_unmap h] else []) := by
  unfold mcdb_unregister
  simp only [emit_st]
  by_cases h0 : (G.nss_mcdb_mmap_st h).refcnt = 0
  · simp [h0]
  · by_cases h1 : (G.nss_mcdb_mmap_st h).refcnt = 1
    · simp [h1]
    · have h2 : ¬ (G.nss_mcdb_mmap_st h).refcnt - 1 = 0 := by omega
      simp [h0, h1, h2]

theorem unregister_mmap (G : Globals) (h : nss_dbtype) :
    (mcdb_unregister G h).2.nss_mcdb_mmap = G.nss_mcdb_mmap := by
  unfold mcdb_unregister
  simp only [emit_st]
  split_ifs <;> rfl

theorem unregister_refcnt (G : Globals) (h d' : nss_dbtype) :
    ((mcdb_unregister G h).2.nss_mcdb_mmap_st d').refcnt
      = (G.nss_mcdb_mmap_st d').refcnt - (if d' = h then 1 else 0) := by
  unfold mcdb_unregister
  simp only [emit_st]
  by_cases hd : d' = h
  · subst hd
    split_ifs <;> simp_all [setSt_st]
  · split_ifs <;> simp_all [setSt_st]

theorem unregister_ptr (G : Globals) (h : nss_dbtype) :
    ((mcdb_unregister G h).2.nss_mcdb_mmap_st h).ptr
      = if (G.nss_mcdb_mmap_st h).refcnt = 1 then none else (G.nss_mcdb_mmap_st h).ptr := by
  unfold mcdb_unregister
  simp only [emit_st]
  by_cases h0 : (G.nss_mcdb_mmap_st h).refcnt = 0
  · simp [h0]
  · by_cases h1 : (G.nss_mcdb_mmap_st h).refcnt = 1
    · simp [h1, setSt_st]
    · have h2 : ¬ (G.nss_mcdb_mmap_st h).refcnt - 1 = 0 := by omega
      simp [h0, h1, h2, setSt_st]

theorem getshared_eq (env : Env) (G : Globals) (d : nss_dbtype) :
    _nss_mcdb_db_getshared env G d
      = (let r := if (G.nss_mcdb_mmap d).isSome then (true, G)
                  else _nss_mcdb_db_openshared env G d
         if r.1 then
           let q := mcdb_register env r.2 (r.2.nss_mcdb_mmap d)
           if q.1 then (q.2.nss_mcdb_mmap d, q.2.emit (.getshared d (q.2.nss_mcdb_mmap d)))
           else (none, q.2.emit (.getshared d none))
         else (none, r.2.emit (.getshared d none))) := rfl

theorem getshared_spec (env : Env) (G : Globals) (d : nss_dbtype) :
    ∃ pre, (_nss_mcdb_db_getshared env G d).2.trace
        = G.trace ++ (pre ++ [.getshared d (_nss_mcdb_db_getshared env G d).1]) ∧
      (∀ e ∈ pre, e.isQuiet = true) ∧
      (∀ d', ((_nss_mcdb_db_getshared env G d).2.nss_mcdb_mmap_st d').refcnt
        = (G.nss_mcdb_mmap_st d').refcnt
          + (if (_nss_mcdb_db_getshared env G d).1 = some d' then 1 else 0)) := by
  rw [getshared_eq]
  have hq : ∃ evs, (if (G.nss_mcdb_mmap d).isSome then (true, G)
      else _nss_mcdb_db_openshared env G d).2.trace = G.trace ++ evs ∧
      ∀ e ∈ evs, e.isQuiet = true := by
    split_ifs
    · exact ⟨[], by simp, by simp⟩
    · exact openshared_quiet env G d
  have hr : ∀ d', ((if (G.nss_mcdb_mmap d).isSome then (true, G)
      else _nss_mcdb_db_openshared env G d).2.nss_mcdb_mmap_st d').refcnt
        = (G.nss_mcdb_mmap_st d').refcnt := by
    intro d'
    split_ifs
    · rfl
    · exact openshared_refcnt env G d d'
  generalize (if (G.nss_mcdb_mmap d).isSome then (true, G)
      else _nss_mcdb_db_openshared env G d) = r at hq hr ⊢
  obtain ⟨c, G1⟩ := r
  obtain ⟨evs, ht, hq⟩ := hq
  simp only at ht hr
  by_cases hc : c = true
  · subst hc
    simp only [if_true, register_fst, register_mmap]
    by_cases hreg : ((G1.nss_mcdb_mmap d).isSome && env.mcdb_register) = true
    · simp only [hreg, if_true, emit_trace, register_trace, emit_st, register_refcnt, hr]
      refine ⟨evs ++ [.mcdb_register (G1.nss_mcdb_mmap d) true], ?_, ?_, ?_⟩
      · simp [ht]
      · intro e he
        rcases List.mem_append.1 he with h | h
        · exact hq e h
        · rw [List.mem_singleton.1 h]; rfl
      · intro d'
        simp only [Bool.and_eq_true] at hreg
        simp [hreg.2]
    · have hb : ((G1.nss_mcdb_mmap d).isSome && env.mcdb_register) = false := by
        simpa using hreg
      simp only [hb, Bool.false_eq_true, if_false, emit_trace, register_trace, emit_st,
        register_refcnt, hr]
      refine ⟨evs ++ [.mcdb_register (G1.nss_mcdb_mmap d) false], ?_, ?_, ?_⟩
      · simp [ht]
      · intro e he
        rcases List.mem_append.1 he with h | h
        · exact hq e h
        · rw [List.mem_singleton.1 h]; rfl
      · intro d'
        have h2 : ¬ (G1.nss_mcdb_mmap d = some d' ∧ env.mcdb_register = true) := by
          rintro ⟨h1, h3⟩
          simp [h1, h3] at hb
        simp [h2]
  · have hc' : c = false := by simpa using hc
    subst hc'
    simp only [Bool.false_eq_true, if_false, emit_trace, emit_st, hr]
    refine ⟨evs, ?_, hq, ?_⟩
    · simp [ht]
    · intro d'; simp

theorem quiet_countP (l : List Event) (h : ∀ e ∈ l, e.isQuiet = true) :
    l.countP Event.isAcquire = 0 ∧ l.countP Event.isUnregister = 0 ∧
      ∀ e ∈ l, e.isUnregister = false := by
  refine ⟨?_, ?_, ?_⟩
  · rw [List.countP_eq_zero]
    intro e he
    have := h e he
    simp only [Event.isQuiet, Bool.and_eq_true, Bool.not_eq_true'] at this
    simp [this.2]
  · rw [List.countP_eq_zero]
    intro e he
    have := h e he
    simp only [Event.isQuiet, Bool.and_eq_true, Bool.not_eq_true'] at this
    simp [this.1.2]
  · intro e he
    have := h e he
    simp only [Event.isQuiet, Bool.and_eq_true, Bool.not_eq_true'] at this
    exact this.1.2

theorem balanced_unavail (G G1 : Globals) (d : nss_dbtype) (pre : List Event)
    (ht1 : G1.trace = G.trace ++ (pre ++ [.getshared d none]))
    (hq : ∀ e ∈ pre, e.isQuiet = true)
    (hr1 : ∀ d', (G1.nss_mcdb_mmap_st d').refcnt = (G.nss_mcdb_mmap_st d').refcnt) :
    balanced G G1 NSS_STATUS_UNAVAIL := by
  obtain ⟨q1, q2, q3⟩ := quiet_countP pre hq
  refine ⟨pre ++ [.getshared d none], [], by simpa using ht1, ?_, ?_, ?_, ?_, hr1⟩
  · simp [List.countP_append, q1, q2, Event.isUnregister, Event.isAcquire]
  · right
    simp [List.countP_append, q1, Event.isAcquire]
  · intro e he
    rcases List.mem_append.1 he with h | h
    · exact q3 e h
    · rw [List.mem_singleton.1 h]; rfl
  · simp

theorem balanced_release (G G1 G2 : Globals) (d h : nss_dbtype) (pre uses : List Event)
    (s : nss_status)
    (ht1 : G1.trace = G.trace ++ (pre ++ [.getshared d (some h)]))
    (hq : ∀ e ∈ pre, e.isQuiet = true)
    (hr1 : ∀ d', (G1.nss_mcdb_mmap_st d').refcnt
      = (G.nss_mcdb_mmap_st d').refcnt + (if some h = some d' then 1 else 0))
    (ht2 : G2.trace = G1.trace ++ uses)
    (hu : ∀ e ∈ uses, e.isUnregister = false ∧ e.isAcquire = false)
    (hst : G2.nss_mcdb_mmap_st = G1.nss_mcdb_mmap_st) :
    balanced G (mcdb_unregister G2 h).2 s := by
  obtain ⟨q1, q2, q3⟩ := quiet_countP pre hq
  have u1 : uses.countP Event.isUnregister = 0 := by
    rw [List.countP_eq_zero]; intro e he; simp [(hu e he).1]
  have u2 : uses.countP Event.isAcquire = 0 := by
    rw [List.countP_eq_zero]; intro e he; simp [(hu e he).2]
  refine ⟨pre ++ [.getshared d (some h)] ++ uses,
    .mcdb_unregister h :: (if (G2.nss_mcdb_mmap_st h).refcnt = 1 then [.mcdb_mmap_unmap h] else []),
    ?_, ?_, ?_, ?_, ?_, ?_⟩
  · rw [unregister_trace, ht2, ht1]
    simp [List.append_assoc]
  · split_ifs <;>
      simp [List.countP_append, List.countP_cons, q1, q2, u1, u2, Event.isUnregister,
        Event.isAcquire]
  · left
    split_ifs <;>
      simp [List.countP_append, List.countP_cons, q1, u2, Event.isAcquire]
  · intro e he
    rcases List.mem_append.1 he with h' | h'
    · rcases List.mem_append.1 h' with h'' | h''
      · exact q3 e h''
      · rw [List.mem_singleton.1 h'']; rfl
    · exact (hu e h').1
  · intro e he
    split_ifs at he <;> simp at he
    · rcases he with rfl | rfl <;> rfl
    · subst he; rfl
  · intro d'
    rw [unregister_refcnt, hst, hr1]
    by_cases hd : d' = h
    · subst hd; simp
    · have : ¬ h = d' := fun e => hd e.symm
      simp [hd, this]

theorem findtag_spec (L : Lookup) (G : Globals) (h : nss_dbtype) (m : mcdb) (key : Bytes)
    (klen tagc : Nat) (b : Bool) (m' : mcdb) (G2 : Globals)
    (hf : findtag L G h m key klen tagc = some (b, m', G2)) :
    G2.nss_mcdb_mmap_st = G.nss_mcdb_mmap_st ∧
    ∃ uses, G2.trace = G.trace ++ uses ∧
      ∀ e ∈ uses, e.isUse = true ∧ e.isUnregister = false ∧ e.isAcquire = false := by
  unfold findtag at hf
  simp only at hf
  cases h1 : L.mcdb_findtagstart (G.nss_mcdb_mmap_st h).ptr m key klen tagc with
  | none => simp [h1] at hf
  | some r1 =>
    obtain ⟨b1, m1⟩ := r1
    cases b1 with
    | false =>
      simp only [h1, Option.some.injEq, Prod.mk.injEq] at hf
      obtain ⟨-, -, rfl⟩ := hf
      exact ⟨rfl, [.mcdb_findtagstart h], rfl, by simp [Event.isUse, Event.isUnregister, Event.isAcquire]⟩
    | true =>
      simp only [h1] at hf
      cases h2 : L.mcdb_findtagnext (G.nss_mcdb_mmap_st h).ptr m1 key klen tagc with
      | none => simp [h2] at hf
      | some r2 =>
        obtain ⟨b2, m2⟩ := r2
        simp only [h2, Option.some.injEq, Prod.mk.injEq] at hf
        obtain ⟨-, -, rfl⟩ := hf
        exact ⟨rfl, [.mcdb_findtagstart h, .mcdb_findtagnext h], by simp,
          by simp [Event.isUse, Event.isUnregister, Event.isAcquire]⟩

/-! ### The keyed entry points -/

theorem get_generic_balanced (L : Lookup) (env : Env) (G : Globals) (stack : mcdb)
    (d : nss_dbtype) (kinfo : _nss_kinfo) (vinfo : _nss_vinfo)
    (s : nss_status) (w : Writes) (G' : Globals)
    (hret : _nss_files_get_generic L env G stack d kinfo vinfo = some (s, w, G')) :
    balanced G G' s := by
  obtain ⟨pre, ht, hq, hr⟩ := getshared_spec env G d
  unfold _nss_files_get_generic at hret
  generalize _nss_mcdb_db_getshared env G d = r at ht hr hret
  obtain ⟨map, G1⟩ := r
  simp only at ht hr hret
  cases map with
  | none =>
    simp only [Option.some.injEq, Prod.mk.injEq] at hret
    obtain ⟨rfl, -, rfl⟩ := hret
    exact balanced_unavail G G1 d pre ht hq (by intro d'; simpa using hr d')
  | some h =>
    simp only at hret
    cases hf : findtag L G1 h { stack with map := some h } kinfo.key kinfo.klen kinfo.tagc with
    | none => simp [hf] at hret
    | some r2 =>
      obtain ⟨b, m', G2⟩ := r2
      obtain ⟨hst, uses, ht2, hu⟩ := findtag_spec L G1 h _ _ _ _ b m' G2 hf
      cases b with
      | false =>
        simp only [hf, Option.some.injEq, Prod.mk.injEq] at hret
        obtain ⟨rfl, -, rfl⟩ := hret
        exact balanced_release G G1 G2 d h pre uses _ ht hq hr ht2
          (fun e he => (hu e he).2) hst
      | true =>
        simp only [hf] at hret
        cases hd : vinfo.decode (G2.nss_mcdb_mmap_st h).ptr m' (some kinfo) vinfo.buflen with
        | none => simp [hd] at hret
        | some r3 =>
          obtain ⟨st, w'⟩ := r3
          simp only [hd, Option.some.injEq, Prod.mk.injEq] at hret
          obtain ⟨rfl, -, rfl⟩ := hret
          refine balanced_release G G1 (G2.emit (.decode h m'.kpos m'.dpos m'.dlen)) d h pre
            (uses ++ [.decode h m'.kpos m'.dpos m'.dlen]) _ ht hq hr ?_ ?_ ?_
          · simp [ht2]
          · intro e he
            rcases List.mem_append.1 he with h' | h'
            · exact (hu e h').2
            · rw [List.mem_singleton.1 h']; exact ⟨rfl, rfl⟩
          · simpa using hst

theorem keyed_stub_balanced (L : Lookup) (env : Env) (G : Globals) (stack : mcdb)
    (d : nss_dbtype) (key : Bytes) (klen tagc : Nat) (s : nss_status) (G' : Globals)
    (hret : keyed_stub L env G stack d key klen tagc = some (s, G')) :
    balanced G G' s := by
  obtain ⟨pre, ht, hq, hr⟩ := getshared_spec env G d
  unfold keyed_stub at hret
  generalize _nss_mcdb_db_getshared env G d = r at ht hr hret
  obtain ⟨map, G1⟩ := r
  simp only at ht hr hret
  cases map with
  | none =>
    simp only [Option.some.injEq, Prod.mk.injEq] at hret
    obtain ⟨rfl, rfl⟩ := hret
    exact balanced_unavail G G1 d pre ht hq (by intro d'; simpa using hr d')
  | some h =>
    simp only at hret
    cases hf : findtag L G1 h { stack with map := some h } key klen tagc with
    | none => simp [hf] at hret
    | some r2 =>
      obtain ⟨b, m', G2⟩ := r2
      obtain ⟨hst, uses, ht2, hu⟩ := findtag_spec L G1 h _ _ _ _ b m' G2 hf
      cases b with
      | false =>
        simp only [hf, Option.some.injEq, Prod.mk.injEq] at hret
        obtain ⟨rfl, rfl⟩ := hret
        exact balanced_release G G1 G2 d h pre uses _ ht hq hr ht2
          (fun e he => (hu e he).2) hst
      | true =>
        simp only [hf, Option.some.injEq, Prod.mk.injEq] at hret
        obtain ⟨rfl, rfl⟩ := hret
        exact balanced_release G G1 G2 d h pre uses _ ht hq hr ht2
          (fun e he => (hu e he).2) hst

/-- C6: every call of a keyed entry point (`_nss_files_get_generic`,
`_nss_files_gethostbyname2_r`, `_nss_files_gethostbyaddr_r`,
`_nss_files_getservbyname_r`, `_nss_files_getservbyport_r`) that returns,
whatever its status, makes as many `mcdb_unregister` calls as it obtained
handles from `_nss_mcdb_db_getshared` (one and one, or none and none with
`NSS_STATUS_UNAVAIL`), releases after the last access of the lookup and of the
decoder to the mapping, and leaves every reference count as it found it. -/
theorem keyed_entry_points_balanced (L : Lookup) (env : Env) (G : Globals) (stack : mcdb) :
    (∀ d kinfo vinfo s w G',
      _nss_files_get_generic L env G stack d kinfo vinfo = some (s, w, G') → balanced G G' s) ∧
    (∀ name s G',
      _nss_files_gethostbyname2_r L env G stack name = some (s, G') → balanced G G' s) ∧
    (∀ len s G',
      _nss_files_gethostbyaddr_r L env G stack len = some (s, G') → balanced G G' s) ∧
    (∀ name s G',
      _nss_files_getservbyname_r L env G stack name = some (s, G') → balanced G G' s) ∧
    (∀ port s G',
      _nss_files_getservbyport_r L env G stack port = some (s, G') → balanced G G' s) :=
  ⟨fun d kinfo vinfo s w G' h => get_generic_balanced L env G stack d kinfo vinfo s w G' h,
   fun _ s G' h => keyed_stub_balanced L env G stack _ _ _ _ s G' h,
   fun _ s G' h => keyed_stub_balanced L env G stack _ _ _ _ s G' h,
   fun _ s G' h => keyed_stub_balanced L env G stack _ _ _ _ s G' h,
   fun _ s G' h => keyed_stub_balanced L env G stack _ _ _ _ s G' h⟩

/-- The instance of `keyed_entry_points_balanced` for a lookup of `alice` in
the passwd database that finds a 3-byte value and copies it out. -/
theorem keyed_entry_points_balanced_witness :
    balanced Globals.init
      (mcdb_unregister ((((_nss_mcdb_db_getshared (Env.ok [97, 61, 49, 48, 48]) Globals.init
        NSS_DBTYPE_PASSWD).2.emit (.mcdb_findtagstart NSS_DBTYPE_PASSWD)).emit
        (.mcdb_findtagnext NSS_DBTYPE_PASSWD)).emit (.decode NSS_DBTYPE_PASSWD 0 2 3))
        NSS_DBTYPE_PASSWD).2
      NSS_STATUS_SUCCESS :=
  (keyed_entry_points_balanced (Lookup.answer true true 2 3)
      (Env.ok [97, 61, 49, 48, 48]) Globals.init mcdb.zero).1 NSS_DBTYPE_PASSWD
      { key := [97, 108, 105, 99, 101, 0], klen := 5, tagc := 61 }
      { decode := _nss_files_decode_buf, buflen := 16 }
      NSS_STATUS_SUCCESS [(0, 49), (1, 48), (2, 48), (3, 0)] _ rfl

/-- C5 (as stated) fails: with the mapping obtained and the record found, a
decoder that returns `NSS_STATUS_UNAVAIL` makes `_nss_files_get_generic` return
`NSS_STATUS_UNAVAIL`, so that status does not imply that the mapping could not
be obtained. -/
theorem get_generic_unavail_from_decoder :
    (_nss_mcdb_db_getshared (Env.ok [97, 61, 49, 48, 48]) Globals.init NSS_DBTYPE_PASSWD).1
      = some NSS_DBTYPE_PASSWD ∧
    (_nss_files_get_generic (Lookup.answer true true 2 3) (Env.ok [97, 61, 49, 48, 48])
        Globals.init mcdb.zero NSS_DBTYPE_PASSWD
        { key := [97, 108, 105, 99, 101, 0], klen := 5, tagc := 61 }
        { decode := decode_unavail, buflen := 16 }).map (fun r => r.1)
      = some NSS_STATUS_UNAVAIL :=
  ⟨rfl, rfl⟩

/-- C5 (amended): `_nss_files_get_generic` returns `NSS_STATUS_UNAVAIL`, without
lookup or decoder, when `_nss_mcdb_db_getshared` returned `NULL`; with a
mapping it returns `NSS_STATUS_NOTFOUND`, the decoder not being called, when
`mcdb_findtagstart` or `mcdb_findtagnext` reports no match, and otherwise
exactly the status of the decoder, so `NSS_STATUS_TRYAGAIN` for a too small
buffer on a found record; and if the decoder never returns
`NSS_STATUS_UNAVAIL`, the status is `NSS_STATUS_UNAVAIL` if and only if the
mapping could not be obtained. -/
theorem get_generic_status (L : Lookup) (env : Env) (G : Globals) (stack : mcdb)
    (d : nss_dbtype) (kinfo : _nss_kinfo) (vinfo : _nss_vinfo) :
    ((_nss_mcdb_db_getshared env G d).1 = none →
      _nss_files_get_generic L env G stack d kinfo vinfo
        = some (NSS_STATUS_UNAVAIL, [], (_nss_mcdb_db_getshared env G d).2)) ∧
    (∀ h b m' G2, (_nss_mcdb_db_getshared env G d).1 = some h →
      findtag L (_nss_mcdb_db_getshared env G d).2 h { stack with map := some h }
        kinfo.key kinfo.klen kinfo.tagc = some (b, m', G2) →
      (b = false →
        _nss_files_get_generic L env G stack d kinfo vinfo
          = some (NSS_STATUS_NOTFOUND, [], (mcdb_unregister G2 h).2)) ∧
      (b = true → ∀ st w,
        vinfo.decode (G2.nss_mcdb_mmap_st h).ptr m' (some kinfo) vinfo.buflen = some (st, w) →
        _nss_files_get_generic L env G stack d kinfo vinfo
          = some (st, w,
              (mcdb_unregister (G2.emit (.decode h m'.kpos m'.dpos m'.dlen)) h).2)) ∧
      (b = true → vinfo.decode = _nss_files_decode_buf → vinfo.buflen ≤ mcdb_datalen m' →
        ∃ G', _nss_files_get_generic L env G stack d kinfo vinfo
          = some (NSS_STATUS_TRYAGAIN, [], G'))) ∧
    (∀ s w G', _nss_files_get_generic L env G stack d kinfo vinfo = some (s, w, G') →
      (∀ ptr m k n st w', vinfo.decode ptr m k n = some (st, w') → st ≠ NSS_STATUS_UNAVAIL) →
      (s = NSS_STATUS_UNAVAIL ↔ (_nss_mcdb_db_getshared env G d).1 = none)) := by
  unfold _nss_files_get_generic
  generalize _nss_mcdb_db_getshared env G d = r
  obtain ⟨map, G1⟩ := r
  refine ⟨?_, ?_, ?_⟩
  · intro h
    simp only at h
    subst h
    rfl
  · intro h b m' G2 hm hf
    simp only at hm hf
    subst hm
    simp only [hf]
    refine ⟨?_, ?_, ?_⟩
    · intro hb; subst hb; rfl
    · intro hb st w hd; subst hb; simp only [hd]
    · intro hb hdec hlen
      subst hb
      have hd : vinfo.decode (G2.nss_mcdb_mmap_st h).ptr m' (some kinfo) vinfo.buflen
          = some (NSS_STATUS_TRYAGAIN, []) := by
        rw [hdec]
        unfold _nss_files_decode_buf
        have : ¬ vinfo.buflen > mcdb_datalen m' := by omega
        simp [this]
      simp only [hd]
      exact ⟨_, rfl⟩
  · intro s w G' hret hdec
    cases map with
    | none =>
      simp only [Option.some.injEq, Prod.mk.injEq] at hret
      simp [hret.1.symm]
    | some h =>
      simp only at hret
      simp only [reduceCtorEq, iff_false]
      cases hf : findtag L G1 h { stack with map := some h } kinfo.key kinfo.klen kinfo.tagc with
      | none => simp [hf] at hret
      | some r2 =>
        obtain ⟨b, m', G2⟩ := r2
        cases b with
        | false =>
          simp only [hf, Option.some.injEq, Prod.mk.injEq] at hret
          rw [← hret.1]; simp
        | true =>
          simp only [hf] at hret
          cases hd : vinfo.decode (G2.nss_mcdb_mmap_st h).ptr m' (some kinfo) vinfo.buflen with
          | none => simp [hd] at hret
          | some r3 =>
            obtain ⟨st, w'⟩ := r3
            simp only [hd, Option.some.injEq, Prod.mk.injEq] at hret
            rw [← hret.1]
            exact hdec _ _ _ _ _ _ hd

/-- The instance of `get_generic_status` for a found 3-byte value and a 3-byte
buffer: the status is `NSS_STATUS_TRYAGAIN`. -/
theorem get_generic_status_witness :
    ∃ G', _nss_files_get_generic (Lookup.answer true true 2 3) (Env.ok [97, 61, 49, 48, 48])
        Globals.init mcdb.zero NSS_DBTYPE_PASSWD
        { key := [97, 108, 105, 99, 101, 0], klen := 5, tagc := 61 }
        { decode := _nss_files_decode_buf, buflen := 3 }
        = some (NSS_STATUS_TRYAGAIN, [], G') :=
  ((get_generic_status (Lookup.answer true true 2 3) (Env.ok [97, 61, 49, 48, 48])
      Globals.init mcdb.zero NSS_DBTYPE_PASSWD
      { key := [97, 108, 105, 99, 101, 0], klen := 5, tagc := 61 }
      { decode := _nss_files_decode_buf, buflen := 3 }).2.1
    NSS_DBTYPE_PASSWD true _ _ rfl rfl).2.2 rfl rfl (by decide)

/-! ### At most one successful `mcdb_mmap_init` per database type -/

theorem openshared_inits (env : Env) (G : Globals) (d d' : nss_dbtype) :
    (_nss_mcdb_db_openshared env G d).2.trace.count (.mcdb_mmap_init d' true)
      = G.trace.count (.mcdb_mmap_init d' true)
        + (if d' = d ∧ (_nss_mcdb_db_openshared env G d).1 = true ∧ G.nss_mcdb_mmap d = none
            then 1 else 0) := by
  rw [openshared_trace, openshared_fst, List.count_append]
  congr 1
  by_cases hd : d' = d
  · subst hd
    split_ifs <;> simp_all [List.count_cons]
  · have hd' : ¬ d = d' := fun h => hd h.symm
    split_ifs <;> simp_all [List.count_cons]

theorem openshared_mapped_once (env : Env) (G : Globals) (d : nss_dbtype)
    (h : mapped_once G) : mapped_once (_nss_mcdb_db_openshared env G d).2 := by
  intro d'
  rw [openshared_inits, openshared_mmap]
  have h' := h d'
  by_cases hc : (_nss_mcdb_db_openshared env G d).1 = true ∧ G.nss_mcdb_mmap d = none
  · by_cases hd : d' = d
    · subst hd
      simp only [hc, and_self, if_true, Function.update_same, Option.isSome_some]
      simp only [hc.2, Option.isSome_none, Bool.false_eq_true, if_false] at h'
      omega
    · simp only [hd, false_and, if_false, hc, and_self, if_true, Nat.add_zero]
      rw [Function.update_noteq hd]
      exact h'
  · have : ¬ (d' = d ∧ (_nss_mcdb_db_openshared env G d).1 = true ∧ G.nss_mcdb_mmap d = none) :=
      fun x => hc x.2
    rw [if_neg this, if_neg hc]
    exact h'

theorem getshared_mapped_once (env : Env) (G : Globals) (d : nss_dbtype)
    (h : mapped_once G) : mapped_once (_nss_mcdb_db_getshared env G d).2 := by
  rw [getshared_eq]
  have hr : mapped_once (if (G.nss_mcdb_mmap d).isSome then (true, G)
      else _nss_mcdb_db_openshared env G d).2 := by
    split_ifs
    · exact h
    · exact openshared_mapped_once env G d h
  generalize (if (G.nss_mcdb_mmap d).isSome then (true, G)
      else _nss_mcdb_db_openshared env G d) = r at hr ⊢
  obtain ⟨c, G1⟩ := r
  intro d'
  have := hr d'
  simp only at this ⊢
  split_ifs <;>
    simp_all [register_trace, register_mmap, List.count_append, List.count_cons]

theorem unregister_mapped_once (G : Globals) (h : nss_dbtype)
    (hG : mapped_once G) : mapped_once (mcdb_unregister G h).2 := by
  intro d'
  have := hG d'
  rw [unregister_trace, unregister_mmap]
  split_ifs <;> simp_all [List.count_append, List.count_cons]

theorem run_calls_mapped_once (cs : List (Call × Env)) (G : Globals) (h : mapped_once G) :
    mapped_once (run_calls G cs) := by
  induction cs generalizing G with
  | nil => exact h
  | cons c cs ih =>
    simp only [run_calls, List.foldl_cons]
    apply ih
    obtain ⟨c, env⟩ := c
    cases c with
    | openshared d => exact openshared_mapped_once env G d h
    | getshared d => exact getshared_mapped_once env G d h
    | unregister d => exact unregister_mapped_once G d h

/-- C9: when `nss_mcdb_mmap[dbtype]` is already published at the re-check made
under the mutex, `_nss_mcdb_db_openshared` returns true and does nothing but
lock and unlock: no file is opened, `mcdb_mmap_init` is not called, the static
handles, the published pointers and `dfd` are as before; hence over every
sequence of calls of `_nss_mcdb_db_openshared`, `_nss_mcdb_db_getshared` and
`mcdb_unregister` from program start, `mcdb_mmap_init` succeeds at most once
for each database type. -/
theorem openshared_maps_at_most_once :
    (∀ (env : Env) (G : Globals) (dbtype : nss_dbtype),
      env.pthread_mutex_lock = 0 → (G.nss_mcdb_mmap dbtype).isSome = true →
      _nss_mcdb_db_openshared env G dbtype
        = (true,
           { G with trace := G.trace ++ [.pthread_mutex_lock 0, .pthread_mutex_unlock] })) ∧
    (∀ (cs : List (Call × Env)) (dbtype : nss_dbtype),
      (run_calls Globals.init cs).trace.count (.mcdb_mmap_init dbtype true) ≤ 1) := by
  refine ⟨fun env G d hl hp => openshared_published_noop env G d hl hp, ?_⟩
  intro cs d
  have h0 : mapped_once Globals.init := by
    intro d'; simp [Globals.init]
  have := run_calls_mapped_once cs Globals.init h0 d
  split_ifs at this <;> omega

/-- The instance of `openshared_maps_at_most_once` for the state after a first
`_nss_mcdb_db_getshared` of the hosts database: a further
`_nss_mcdb_db_openshared` only locks and unlocks. -/
theorem openshared_maps_at_most_once_witness :
    _nss_mcdb_db_openshared (Env.ok image_one_record)
        (_nss_mcdb_db_getshared (Env.ok image_one_record) Globals.init NSS_DBTYPE_HOSTS).2
        NSS_DBTYPE_HOSTS
      = (true,
         { (_nss_mcdb_db_getshared (Env.ok image_one_record) Globals.init NSS_DBTYPE_HOSTS).2 with
           trace := (_nss_mcdb_db_getshared (Env.ok image_one_record) Globals.init
              NSS_DBTYPE_HOSTS).2.trace ++ [.pthread_mutex_lock 0, .pthread_mutex_unlock] }) :=
  openshared_maps_at_most_once.1 (Env.ok image_one_record)
    (_nss_mcdb_db_getshared (Env.ok image_one_record) Globals.init NSS_DBTYPE_HOSTS).2
    NSS_DBTYPE_HOSTS rfl rfl

/-! ### Failing inputs -/

/-- C8: after the only reference to the hosts mapping has been released (count
back to 0, mapping torn down, `ptr` is `NULL`), the next
`_nss_mcdb_db_getshared` does not go through `_nss_mcdb_db_openshared`: it only
registers and returns the handle published before, whose `ptr` is still `NULL`. -/
theorem getshared_after_release_reuses_handle :
    ((released_once image_one_record NSS_DBTYPE_HOSTS).nss_mcdb_mmap_st NSS_DBTYPE_HOSTS).refcnt = 0 ∧
    ((released_once image_one_record NSS_DBTYPE_HOSTS).nss_mcdb_mmap_st NSS_DBTYPE_HOSTS).ptr = none ∧
    (_nss_mcdb_db_getshared (Env.ok image_one_record)
      (released_once image_one_record NSS_DBTYPE_HOSTS) NSS_DBTYPE_HOSTS).1
        = some NSS_DBTYPE_HOSTS ∧
    (_nss_mcdb_db_getshared (Env.ok image_one_record)
      (released_once image_one_record NSS_DBTYPE_HOSTS) NSS_DBTYPE_HOSTS).2.trace
        = (released_once image_one_record NSS_DBTYPE_HOSTS).trace ++
          [.mcdb_register (some NSS_DBTYPE_HOSTS) true,
           .getshared NSS_DBTYPE_HOSTS (some NSS_DBTYPE_HOSTS)] ∧
    ((_nss_mcdb_db_getshared (Env.ok image_one_record)
      (released_once image_one_record NSS_DBTYPE_HOSTS) NSS_DBTYPE_HOSTS).2.nss_mcdb_mmap_st
        NSS_DBTYPE_HOSTS).ptr = none :=
  ⟨rfl, rfl, rfl, rfl, rfl⟩

set_option maxRecDepth 1000000 in
theorem image_one_record_reads :
    image_one_record.length = 2075 ∧
    mcdb_uint32_unpack_bigendian_macro image_one_record 0 = some 2059 ∧
    mcdb_uint32_unpack_bigendian_macro image_one_record 4 = some 0 ∧
    image_one_record[2067]? = some 0 ∧
    mcdb_uint32_unpack_bigendian_macro image_one_record 2048 = some 1 ∧
    mcdb_uint32_unpack_bigendian_macro image_one_record 2052 = some 2 ∧
    image_one_record[2057]? = some 61 := by
  decide!

theorem setent_fresh (img : Bytes) (d : nss_dbtype) :
    (_nss_mcdb_setent (Env.ok img) Globals.init mcdb.zero d).1 = NSS_STATUS_SUCCESS ∧
    (_nss_mcdb_setent (Env.ok img) Globals.init mcdb.zero d).2.1
      = { mcdb.zero with map := some d } ∧
    ((_nss_mcdb_setent (Env.ok img) Globals.init mcdb.zero d).2.2.nss_mcdb_mmap_st d).ptr
      = some img := by
  cases d <;> exact ⟨rfl, rfl, rfl⟩

/-- C1: on the one-record database `image_one_record`, whose record stream is
the single record `a` with `=` right after the key, `_nss_mcdb_setent` on a
fresh cursor succeeds and leaves `hpos = 0`; the following `_nss_mcdb_getent`
reads the first head-table entry as if it were a record header and returns
`NSS_STATUS_NOTFOUND` without calling the decoder: the record is never
delivered. -/
theorem getent_after_setent_misses_record :
    image_one_record.length = 2075 ∧
    mcdb_uint32_unpack_bigendian_aligned_macro image_one_record 0 = some 2059 ∧
    mcdb_uint32_unpack_bigendian_macro image_one_record 2048 = some 1 ∧
    mcdb_uint32_unpack_bigendian_macro image_one_record 2052 = some 2 ∧
    image_one_record[2048 + 8 + 1]? = some 61 ∧
    2048 + 8 + 1 + 2 = 2059 ∧
    (_nss_mcdb_setent (Env.ok image_one_record) Globals.init mcdb.zero NSS_DBTYPE_PASSWD).1
      = NSS_STATUS_SUCCESS ∧
    (_nss_mcdb_setent (Env.ok image_one_record) Globals.init mcdb.zero NSS_DBTYPE_PASSWD).2.1.hpos
      = 0 ∧
    ∀ fuel,
      _nss_mcdb_getent (fuel + 2) (Env.ok image_one_record)
        (_nss_mcdb_setent (Env.ok image_one_record) Globals.init mcdb.zero NSS_DBTYPE_PASSWD).2.2
        (_nss_mcdb_setent (Env.ok image_one_record) Globals.init mcdb.zero NSS_DBTYPE_PASSWD).2.1
        NSS_DBTYPE_PASSWD { decode := _nss_files_decode_buf, buflen := 16 }
      = .ret { status := NSS_STATUS_NOTFOUND,
               m := { map := some NSS_DBTYPE_PASSWD, loop := 0, hslots := 0, kpos := 8,
                      hpos := 2067, dpos := 2067, dlen := 0, khash := 0 },
               writes := [],
               G := (_nss_mcdb_setent (Env.ok image_one_record) Globals.init mcdb.zero
                      NSS_DBTYPE_PASSWD).2.2 } := by
  obtain ⟨h1, h2, h3, h4, h5, h6, h7⟩ := image_one_record_reads
  obtain ⟨s1, s2, s3⟩ := setent_fresh image_one_record NSS_DBTYPE_PASSWD
  refine ⟨h1, h2, h5, h6, h7, rfl, s1, by rw [s2]; rfl, ?_⟩
  intro fuel
  generalize (_nss_mcdb_setent (Env.ok image_one_record) Globals.init mcdb.zero
    NSS_DBTYPE_PASSWD).2.2 = G1 at s3 ⊢
  rw [s2]
  simp [_nss_mcdb_getent, _nss_mcdb_getent_loop, mcdb.zero, s3,
    mcdb_uint32_unpack_bigendian_aligned_macro, h2, h3, h4, u32]

/-! ## The built file and keyed lookup -/

/-! ### Reading 32-bit words from a serialized file -/

theorem strpack_length (n : Nat) : ( uint32_strpack_bigendian_macro n).length = 4 := rfl

theorem unpack_of_drop (xs rest : Bytes) (p n : Nat) (hn : n < 4294967296)
    (h : xs.drop p = uint32_strpack_bigendian_macro n ++ rest) :
    mcdb_uint32_unpack_bigendian_macro xs p = some n := by
  have h0 : xs[p]? = some (n / 16777216 % 256) := by
    have := List.getElem?_drop xs p 0
    rw [h] at this; simpa [ uint32_strpack_bigendian_macro] using this.symm
  have h1 : xs[p + 1]? = some (n / 65536 % 256) := by
    have := List.getElem?_drop xs p 1
    rw [h] at this; simpa [ uint32_strpack_bigendian_macro] using this.symm
  have h2 : xs[p + 2]? = some (n / 256 % 256) := by
    have := List.getElem?_drop xs p 2
    rw [h] at this; simpa [ uint32_strpack_bigendian_macro] using this.symm
  have h3 : xs[p + 3]? = some (n % 256) := by
    have := List.getElem?_drop xs p 3
    rw [h] at this; simpa [ uint32_strpack_bigendian_macro] using this.symm
  simp only [ mcdb_uint32_unpack_bigendian_macro, h0, h1, h2, h3, Option.some.injEq]
  omega

theorem drop_add_of_drop (xs a rest : Bytes) (p : Nat) (h : xs.drop p = a ++ rest) :
    xs.drop (p + a.length) = rest := by
  rw [← List.drop_drop, h, List.drop_left]

theorem flatMap_drop_prefix {α β : Type} (l : List α) (f : α → List β) (i : Nat) :
    (l.flatMap f).drop ((l.take i).flatMap f).length = (l.drop i).flatMap f := by
  have h : l.flatMap f = (l.take i).flatMap f ++ (l.drop i).flatMap f := by
    rw [← List.flatMap_append, List.take_append_drop]
  rw [h]
  exact List.drop_left _ _

theorem flatMap_length_const {α β : Type} (l : List α) (f : α → List β) (c : Nat)
    (hc : ∀ x, (f x).length = c) : (l.flatMap f).length = c * l.length := by
  induction l with
  | nil => simp
  | cons x l ih => simp [List.flatMap_cons, ih, hc, Nat.mul_succ, Nat.add_comm]

theorem flatMap_drop_const {α β : Type} (l : List α) (f : α → List β) (c i : Nat)
    (hc : ∀ x, (f x).length = c) (hi : i < l.length) :
    (l.flatMap f).drop (c * i) = f (l[i]) ++ (l.drop (i + 1)).flatMap f := by
  have h1 := flatMap_drop_prefix l f i
  rw [flatMap_length_const _ f c hc, List.length_take, Nat.min_eq_left (Nat.le_of_lt hi)] at h1
  rw [h1, List.drop_eq_getElem_cons hi, List.flatMap_cons]

/-! ### The slot tables built by linear probing -/

theorem pow2_above_ge (n fuel p : Nat) (h : n ≤ p * 2 ^ fuel) : n ≤ pow2_above n fuel p := by
  induction fuel generalizing p with
  | zero => simpa [pow2_above] using h
  | succ fuel ih =>
    unfold pow2_above
    split
    · assumption
    · apply ih
      rw [Nat.pow_succ] at h
      calc n ≤ p * (2 ^ fuel * 2) := h
        _ = 2 * p * 2 ^ fuel := by ring

theorem slot_table_size_ge (n : Nat) : n ≤ slot_table_size n ∧ (0 < n → n < slot_table_size n) := by
  unfold slot_table_size
  by_cases h : n = 0
  · simp [h]
  · simp only [h, if_false]
    have h1 : 2 * n ≤ pow2_above (2 * n) (2 * n) 1 := by
      apply pow2_above_ge
      have := @Nat.lt_two_pow (2 * n)
      omega
    omega

theorem probe_insert_length (e : Nat × Nat) (fuel : Nat) (tbl : List (Nat × Nat)) (i : Nat) :
    (probe_insert e fuel tbl i).length = tbl.length := by
  induction fuel generalizing i with
  | zero => rfl
  | succ fuel ih =>
    unfold probe_insert
    split
    · simp
    · exact ih _

theorem probe_insert_cases (e : Nat × Nat) (fuel : Nat) (tbl : List (Nat × Nat)) (i : Nat) :
    probe_insert e fuel tbl i = tbl ∨ ∃ k, probe_insert e fuel tbl i = tbl.set k e := by
  induction fuel generalizing i with
  | zero => left; rfl
  | succ fuel ih =>
    unfold probe_insert
    split
    · right; exact ⟨i, rfl⟩
    · exact ih _

theorem probe_insert_first_empty (e : Nat × Nat) (fuel : Nat) (tbl : List (Nat × Nat))
    (i j : Nat) (hi : i < tbl.length) (hj : j < fuel)
    (hfull : ∀ j' < j, (tbl.getD ((i + j') % tbl.length) (0, 0)).1 ≠ 0)
    (hempty : (tbl.getD ((i + j) % tbl.length) (0, 0)).1 = 0) :
    probe_insert e fuel tbl i = tbl.set ((i + j) % tbl.length) e := by
  induction fuel generalizing i j with
  | zero => omega
  | succ fuel ih =>
    unfold probe_insert
    cases j with
    | zero =>
      simp only [Nat.add_zero, Nat.mod_eq_of_lt hi] at hempty ⊢
      rw [if_pos hempty]
    | succ j =>
      have h0 := hfull 0 (by omega)
      simp only [Nat.add_zero, Nat.mod_eq_of_lt hi] at h0
      rw [if_neg h0]
      have hn : 0 < tbl.length := by omega
      have key : ∀ x, ((i + 1) % tbl.length + x) % tbl.length = (i + (x + 1)) % tbl.length := by
        intro x
        rw [Nat.mod_add_mod]
        congr 1; omega
      rw [ih ((i + 1) % tbl.length) j (Nat.mod_lt _ hn) (by omega)]
      · rw [key]
      · intro j' hj'
        rw [key]
        exact hfull (j' + 1) (by omega)
      · rw [key]; exact hempty

theorem getD_set_slot (tbl : List (Nat × Nat)) (k i : Nat) (e : Nat × Nat) (hk : k < tbl.length) :
    (tbl.set k e).getD i (0, 0) = if i = k then e else tbl.getD i (0, 0) := by
  rw [List.getD_eq_getElem?_getD, List.getD_eq_getElem?_getD, List.getElem?_set]
  by_cases h : k = i
  · subst h; simp [hk]
  · have h' : ¬ i = k := fun x => h x.symm
    simp [h, h']

theorem wrap_offset (n s k : Nat) (hs : s < n) (hk : k < n) :
    (s + (k + n - s) % n) % n = k := by
  by_cases h : s ≤ k
  · have h1 : k + n - s = (k - s) + n := by omega
    rw [h1, Nat.add_mod_right, Nat.mod_eq_of_lt (show k - s < n by omega)]
    have h2 : s + (k - s) = k := by omega
    rw [h2, Nat.mod_eq_of_lt hk]
  · rw [Nat.mod_eq_of_lt (by omega : k + n - s < n)]
    have h2 : s + (k + n - s) = k + n := by omega
    rw [h2, Nat.add_mod_right, Nat.mod_eq_of_lt hk]

theorem exists_first_empty (tbl es : List (Nat × Nat)) (s : Nat) (h : TableInv tbl es)
    (hlt : es.length < tbl.length) (hs : s < tbl.length) :
    ∃ j, j < tbl.length ∧ (tbl.getD ((s + j) % tbl.length) (0, 0)).1 = 0 ∧
      ∀ j', j' < j → (tbl.getD ((s + j') % tbl.length) (0, 0)).1 ≠ 0 := by
  have hpos : 0 < tbl.countP (fun s => s.1 == 0) := by
    have := h.count; omega
  rw [List.countP_pos_iff] at hpos
  obtain ⟨a, ha, hz⟩ := hpos
  obtain ⟨k, hk, rfl⟩ := List.getElem_of_mem ha
  have hk0 : (tbl.getD k (0, 0)).1 = 0 := by
    rw [List.getD_eq_getElem?_getD, List.getElem?_eq_getElem hk]
    simpa using hz
  have hex : ∃ j, (tbl.getD ((s + j) % tbl.length) (0, 0)).1 = 0 :=
    ⟨(k + tbl.length - s) % tbl.length, by rw [wrap_offset _ _ _ hs hk]; exact hk0⟩
  refine ⟨Nat.find hex, ?_, Nat.find_spec hex, fun j' hj' => Nat.find_min hex hj'⟩
  have : Nat.find hex ≤ (k + tbl.length - s) % tbl.length :=
    Nat.find_min' hex (by rw [wrap_offset _ _ _ hs hk]; exact hk0)
  have := Nat.mod_lt (k + tbl.length - s) (by omega : 0 < tbl.length)
  omega

theorem insert_slot_inv (tbl es : List (Nat × Nat)) (e : Nat × Nat) (h : TableInv tbl es)
    (hlt : es.length < tbl.length) (he : e.1 ≠ 0) :
    TableInv (insert_slot tbl e) (es ++ [e]) ∧ (insert_slot tbl e).length = tbl.length := by
  have hn : 0 < tbl.length := by omega
  have hs : e.1 / 256 % tbl.length < tbl.length := Nat.mod_lt _ hn
  obtain ⟨j, hj, hempty, hfull⟩ := exists_first_empty tbl es _ h hlt hs
  have hins : insert_slot tbl e = tbl.set ((e.1 / 256 % tbl.length + j) % tbl.length) e :=
    probe_insert_first_empty e tbl.length tbl _ j hs hj hfull hempty
  have hk : (e.1 / 256 % tbl.length + j) % tbl.length < tbl.length := Nat.mod_lt _ hn
  generalize hkdef : (e.1 / 256 % tbl.length + j) % tbl.length = k at hins hk hempty
  have hlen : (insert_slot tbl e).length = tbl.length := by rw [hins, List.length_set]
  refine ⟨⟨?_, ?_, ?_, ?_⟩, hlen⟩
  · intro e' he'
    rcases List.mem_append.1 he' with h' | h'
    · exact h.nz e' h'
    · rw [List.mem_singleton.1 h']; exact he
  · intro i hi
    rw [hlen] at hi
    rw [hins, getD_set_slot _ _ _ _ hk]
    by_cases hik : i = k
    · simp [hik]
    · rw [if_neg hik]
      rcases h.slots i hi with h' | h'
      · left; exact h'
      · right; exact List.mem_append_left _ h'
  · intro e' he'
    rw [hlen]
    rcases List.mem_append.1 he' with h' | h'
    · obtain ⟨j1, hj1, hfin, hpath⟩ := h.reach e' h'
      refine ⟨j1, hj1, ?_, ?_⟩
      · rw [hins, getD_set_slot _ _ _ _ hk]
        have : ¬ (e'.1 / 256 % tbl.length + j1) % tbl.length = k := by
          intro hx
          rw [hx] at hfin
          rw [hfin] at hempty
          exact h.nz e' h' hempty
        rw [if_neg this]; exact hfin
      · intro j' hj'
        rw [hins, getD_set_slot _ _ _ _ hk]
        have hp := hpath j' hj'
        have : ¬ (e'.1 / 256 % tbl.length + j') % tbl.length = k := by
          intro hx
          rw [hx] at hp
          exact hp hempty
        rw [if_neg this]; exact hp
    · have : e' = e := List.mem_singleton.1 h'
      subst this
      refine ⟨j, hj, ?_, ?_⟩
      · rw [hins, hkdef, getD_set_slot _ _ _ _ hk]
        simp
      · intro j' hj'
        rw [hins, getD_set_slot _ _ _ _ hk]
        have hp := hfull j' hj'
        have : ¬ (e'.1 / 256 % tbl.length + j') % tbl.length = k := by
          intro hx
          rw [hx] at hp
          exact hp hempty
        rw [if_neg this]; exact hp
  · rw [hins, List.countP_set _ _ _ _ hk, List.length_append, List.length_singleton]
    have hc := h.count
    have h1 : (tbl[k].1 == 0) = true := by
      have : tbl.getD k (0, 0) = tbl[k] := by
        rw [List.getD_eq_getElem?_getD, List.getElem?_eq_getElem hk]; rfl
      rw [this] at hempty
      simpa using hempty
    have h2 : (e.1 == 0) = false := by
      simpa using he
    have h3 : 0 < tbl.countP (fun s => s.1 == 0) := by omega
    rw [h1, h2]
    simp only [if_true, Bool.false_eq_true, if_false, List.length_set]
    omega

theorem foldl_insert_inv (es2 : List (Nat × Nat)) :
    ∀ (tbl es1 : List (Nat × Nat)), TableInv tbl es1 → es1.length + es2.length ≤ tbl.length →
      (∀ e ∈ es2, e.1 ≠ 0) →
      TableInv (es2.foldl insert_slot tbl) (es1 ++ es2) ∧
        (es2.foldl insert_slot tbl).length = tbl.length := by
  induction es2 with
  | nil => intro tbl es1 h _ _; simpa using h
  | cons e es2 ih =>
    intro tbl es1 h hlen hnz
    simp only [List.length_cons] at hlen
    obtain ⟨h1, h2⟩ := insert_slot_inv tbl es1 e h (by omega) (hnz e (List.mem_cons_self _ _))
    have := ih (insert_slot tbl e) (es1 ++ [e]) h1
      (by rw [h2, List.length_append, List.length_singleton]; omega)
      (fun e' he' => hnz e' (List.mem_cons_of_mem _ he'))
    simp only [List.foldl_cons]
    rw [List.append_assoc] at this
    exact ⟨this.1, this.2.trans h2⟩

theorem build_table_inv (es : List (Nat × Nat)) (hnz : ∀ e ∈ es, e.1 ≠ 0) :
    TableInv (build_table es) es := by
  have h0 : TableInv (List.replicate (slot_table_size es.length) ((0 : Nat), (0 : Nat))) [] := by
    refine ⟨by simp, ?_, by simp, ?_⟩
    · intro i hi
      left
      rw [List.length_replicate] at hi
      rw [List.getD_eq_getElem?_getD, List.getElem?_replicate]
      simp [hi]
    · rw [List.countP_replicate]; simp
  have := foldl_insert_inv es _ [] h0
    (by simpa using (slot_table_size_ge es.length).1) hnz
  simpa [build_table] using this.1

theorem insert_slot_length (tbl : List (Nat × Nat)) (e : Nat × Nat) :
    (insert_slot tbl e).length = tbl.length := probe_insert_length _ _ _ _

theorem build_table_length (es : List (Nat × Nat)) :
    (build_table es).length = slot_table_size es.length := by
  unfold build_table
  have : ∀ (l tbl : List (Nat × Nat)), (l.foldl insert_slot tbl).length = tbl.length := by
    intro l
    induction l with
    | nil => intro tbl; rfl
    | cons e l ih => intro tbl; rw [List.foldl_cons, ih, insert_slot_length]
  rw [this, List.length_replicate]

theorem build_table_slots (es : List (Nat × Nat)) (i : Nat) :
    (build_table es).getD i (0, 0) = (0, 0) ∨ (build_table es).getD i (0, 0) ∈ es := by
  unfold build_table
  have key : ∀ (l tbl es1 : List (Nat × Nat)),
      (∀ i, tbl.getD i (0, 0) = (0, 0) ∨ tbl.getD i (0, 0) ∈ es1) →
      ∀ i, (l.foldl insert_slot tbl).getD i (0, 0) = (0, 0) ∨
        (l.foldl insert_slot tbl).getD i (0, 0) ∈ es1 ++ l := by
    intro l
    induction l with
    | nil => intro tbl es1 h i; simpa using h i
    | cons e l ih =>
      intro tbl es1 h i
      rw [List.foldl_cons]
      have := ih (insert_slot tbl e) (es1 ++ [e]) (by
        intro i'
        rcases probe_insert_cases e tbl.length tbl (e.1 / 256 % tbl.length) with hc | ⟨k, hc⟩
        · rw [insert_slot, hc]
          rcases h i' with h' | h'
          · left; exact h'
          · right; exact List.mem_append_left _ h'
        · rw [insert_slot, hc]
          by_cases hk : k < tbl.length
          · rw [getD_set_slot _ _ _ _ hk]
            by_cases hik : i' = k
            · right; simp [hik]
            · rw [if_neg hik]
              rcases h i' with h' | h'
              · left; exact h'
              · right; exact List.mem_append_left _ h'
          · rw [List.set_eq_of_length_le (by omega)]
            rcases h i' with h' | h'
            · left; exact h'
            · right; exact List.mem_append_left _ h') i
      rw [List.append_assoc] at this
      exact this
  have := key es (List.replicate (slot_table_size es.length) (0, 0)) [] (by
    intro i; left
    rw [List.getD_eq_getElem?_getD, List.getElem?_replicate]
    split <;> rfl) i
  simpa using this

/-! ### The layout of the built file -/

theorem make_foldl (hash : Bytes → Nat) (rs : List Record) :
    ∀ m0 : mcdb_make,
      (rs.foldl (fun m r => mcdb_make_add hash m r.key r.region) m0).stream
        = m0.stream ++ rs.flatMap (fun r => record_bytes r.key r.region) ∧
      (rs.foldl (fun m r => mcdb_make_add hash m r.key r.region) m0).entries
        = m0.entries ++ (located (2048 + m0.stream.length) rs).map
            (fun pr => (u32 (hash pr.2.key), pr.1)) := by
  induction rs with
  | nil => intro m0; simp [located]
  | cons r rs ih =>
    intro m0
    simp only [List.foldl_cons, List.flatMap_cons, located, List.map_cons]
    obtain ⟨h1, h2⟩ := ih (mcdb_make_add hash m0 r.key r.region)
    rw [h1, h2]
    simp [mcdb_make_add, List.append_assoc, Nat.add_assoc]

theorem make_all_stream (hash : Bytes → Nat) (rs : List Record) :
    (mcdb_make_all hash rs).stream = rs.flatMap (fun r => record_bytes r.key r.region) := by
  simpa [mcdb_make_all, mcdb_make_start] using (make_foldl hash rs mcdb_make_start).1

theorem make_all_entries (hash : Bytes → Nat) (rs : List Record) :
    (mcdb_make_all hash rs).entries
      = (located 2048 rs).map (fun pr => (u32 (hash pr.2.key), pr.1)) := by
  simpa [mcdb_make_all, mcdb_make_start] using (make_foldl hash rs mcdb_make_start).2

theorem located_spec (rs : List Record) :
    ∀ (start : Nat) (pr : Nat × Record), pr ∈ located start rs →
      pr.2 ∈ rs ∧ ∃ pre post,
        rs.flatMap (fun r => record_bytes r.key r.region)
          = pre ++ (record_bytes pr.2.key pr.2.region ++ post) ∧
        pr.1 = start + pre.length := by
  induction rs with
  | nil => intro start pr h; simp [located] at h
  | cons r rs ih =>
    intro start pr h
    simp only [located, List.mem_cons] at h
    rcases h with rfl | h
    · exact ⟨List.mem_cons_self _ _, [], rs.flatMap (fun r => record_bytes r.key r.region),
        by simp, by simp⟩
    · obtain ⟨hm, pre, post, he, hp⟩ := ih _ pr h
      refine ⟨List.mem_cons_of_mem _ hm, record_bytes r.key r.region ++ pre, post, ?_, ?_⟩
      · rw [List.flatMap_cons, he, List.append_assoc]
      · rw [hp, List.length_append]; omega

theorem located_mem (rs : List Record) :
    ∀ (start : Nat) (r : Record), r ∈ rs → ∃ p, (p, r) ∈ located start rs := by
  induction rs with
  | nil => intro start r h; simp at h
  | cons r0 rs ih =>
    intro start r h
    rcases List.mem_cons.1 h with rfl | h
    · exact ⟨start, by simp [located]⟩
    · obtain ⟨p, hp⟩ := ih (start + (record_bytes r0.key r0.region).length) r h
      exact ⟨p, by simp [located, hp]⟩

theorem length_of_drop (xs a rest : Bytes) (p : Nat) (h : xs.drop p = a ++ rest)
    (ha : 0 < a.length) : p + a.length ≤ xs.length := by
  have := congrArg List.length h
  rw [List.length_drop, List.length_append] at this
  omega

theorem head_bytes_length (m : mcdb_make) : (head_bytes m).length = 2048 := by
  unfold head_bytes
  rw [flatMap_length_const _ _ 8 (by intro x; simp [strpack_length]), List.length_range]

theorem head_drop (m : mcdb_make) (b : Nat) (hb : b < 256) :
    ∃ rest, (mcdb_make_finish m).drop (b * 8)
      = uint32_strpack_bigendian_macro (table_pos m b) ++
        ( uint32_strpack_bigendian_macro (build_table (bucket_entries m b)).length ++ rest) := by
  have h1 := flatMap_drop_const (List.range 256)
    (fun b => uint32_strpack_bigendian_macro (table_pos m b) ++
      uint32_strpack_bigendian_macro (build_table (bucket_entries m b)).length) 8 b
    (by intro x; simp [strpack_length]) (by simpa using hb)
  rw [List.getElem_range] at h1
  refine ⟨((List.range 256).drop (b + 1)).flatMap (fun b =>
      uint32_strpack_bigendian_macro (table_pos m b) ++
      uint32_strpack_bigendian_macro (build_table (bucket_entries m b)).length)
      ++ (m.stream ++ tables_upto m 256), ?_⟩
  unfold mcdb_make_finish
  rw [List.append_assoc, List.drop_append_of_le_length
    (by rw [head_bytes_length]; omega), Nat.mul_comm]
  unfold head_bytes
  rw [h1]
  simp [List.append_assoc]

theorem tables_upto_drop (m : mcdb_make) (b : Nat) (hb : b < 256) :
    (tables_upto m 256).drop (tables_upto m b).length
      = table_bytes (build_table (bucket_entries m b)) ++
        ((List.range 256).drop (b + 1)).flatMap
          (fun b' => table_bytes (build_table (bucket_entries m b'))) := by
  have h1 := flatMap_drop_prefix (List.range 256)
    (fun b' => table_bytes (build_table (bucket_entries m b'))) b
  rw [List.take_range, Nat.min_eq_left (by omega)] at h1
  unfold tables_upto
  rw [h1, List.drop_eq_getElem_cons (by simpa using hb), List.flatMap_cons, List.getElem_range]

theorem slot_drop (m : mcdb_make) (b i : Nat) (hb : b < 256)
    (hi : i < (build_table (bucket_entries m b)).length) :
    ∃ rest, (mcdb_make_finish m).drop (table_pos m b + i * 8)
      = uint32_strpack_bigendian_macro ((build_table (bucket_entries m b)).getD i (0, 0)).1 ++
        ( uint32_strpack_bigendian_macro ((build_table (bucket_entries m b)).getD i (0, 0)).2
          ++ rest) := by
  have h1 := flatMap_drop_const (build_table (bucket_entries m b))
    (fun e => uint32_strpack_bigendian_macro e.1 ++ uint32_strpack_bigendian_macro e.2) 8 i
    (by intro x; simp [strpack_length]) hi
  have h2 : (table_bytes (build_table (bucket_entries m b))).length
      = 8 * (build_table (bucket_entries m b)).length :=
    flatMap_length_const _ _ 8 (by intro x; simp [strpack_length])
  refine ⟨((build_table (bucket_entries m b)).drop (i + 1)).flatMap
      (fun e => uint32_strpack_bigendian_macro e.1 ++ uint32_strpack_bigendian_macro e.2) ++
      ((List.range 256).drop (b + 1)).flatMap
          (fun b' => table_bytes (build_table (bucket_entries m b'))), ?_⟩
  have h3 : (head_bytes m ++ m.stream).length = 2048 + m.stream.length := by
    rw [List.length_append, head_bytes_length]
  unfold mcdb_make_finish table_pos
  rw [show 2048 + m.stream.length + (tables_upto m b).length + i * 8
      = (head_bytes m ++ m.stream).length + ((tables_upto m b).length + i * 8) by rw [h3]; omega,
    List.drop_append, ← List.drop_drop, tables_upto_drop m b hb,
    List.drop_append_of_le_length (by rw [h2]; omega), Nat.mul_comm]
  unfold table_bytes
  rw [h1, List.getD_eq_getElem?_getD, List.getElem?_eq_getElem hi]
  simp [List.append_assoc]

theorem record_drop (hash : Bytes → Nat) (rs : List Record) (pr : Nat × Record)
    (h : pr ∈ located 2048 rs) :
    ∃ rest, (mcdb_build hash rs).drop pr.1
      = uint32_strpack_bigendian_macro pr.2.key.length ++
        ( uint32_strpack_bigendian_macro (pr.2.value.length + 1) ++
          (pr.2.key ++ (pr.2.tag :: (pr.2.value ++ rest)))) := by
  obtain ⟨-, pre, post, he, hp⟩ := located_spec rs 2048 pr h
  refine ⟨post ++ tables_upto (mcdb_make_all hash rs) 256, ?_⟩
  unfold mcdb_build mcdb_make_finish
  rw [make_all_stream, he, hp, ← head_bytes_length (mcdb_make_all hash rs)]
  simp only [List.append_assoc]
  rw [List.drop_append, List.drop_left]
  simp [record_bytes, Record.region, List.append_assoc]

/-! ### The probe loop on a built file -/

theorem next_slot (tp n i : Nat) (hi : i < n) :
    (if tp + i * 8 + 8 = tp + n * 8 then tp else tp + i * 8 + 8) = tp + (i + 1) % n * 8 := by
  by_cases h : i + 1 = n
  · have : tp + i * 8 + 8 = tp + n * 8 := by omega
    rw [if_pos this, h, Nat.mod_self]; omega
  · have : ¬ tp + i * 8 + 8 = tp + n * 8 := by omega
    rw [if_neg this, Nat.mod_eq_of_lt (by omega)]; omega

theorem loop_step_match (img : Bytes) (tbl : List (Nat × Nat)) (tp : Nat)
    (L : List (Nat × Record)) (H : Record → Nat) (lay : BucketLayout img tbl tp L H)
    (k : Bytes) (t : Nat) (pr : Nat × Record) (hpr : pr ∈ L) :
    (pr.2.key.length = k.length ∧ (img.drop (pr.1 + 8)).take k.length = k.take k.length ∧
      img[pr.1 + 8 + k.length]? = some t) ↔ (pr.2.key = k ∧ pr.2.tag = t) := by
  obtain ⟨-, -, h3, h4⟩ := lay.record_read pr hpr
  rw [List.take_length]
  constructor
  · rintro ⟨hl, hk, ht⟩
    rw [← hl, h3] at hk
    rw [← hl, h4] at ht
    exact ⟨hk, by simpa using ht⟩
  · rintro ⟨hk, ht⟩
    subst hk
    exact ⟨rfl, h3, by rw [h4, ht]⟩

theorem loop_not_found (img : Bytes) (tbl : List (Nat × Nat)) (tp : Nat)
    (L : List (Nat × Record)) (H : Record → Nat) (lay : BucketLayout img tbl tp L H)
    (k : Bytes) (t : Nat) (habs : ∀ pr ∈ L, ¬ (pr.2.key = k ∧ pr.2.tag = t)) (fuel : Nat) :
    ∀ (c : mcdb) (i : Nat), i < tbl.length → c.kpos = tp + i * 8 → c.hpos = tp →
      c.hslots = tbl.length →
      ∃ c', mcdb_findtagnext_loop img k k.length t fuel c = some (false, c') := by
  induction fuel with
  | zero => intro c i _ _ _ _; exact ⟨c, rfl⟩
  | succ fuel ih =>
    intro c i hi hk hh hs
    obtain ⟨r1, r2⟩ := lay.slot_read i hi
    unfold mcdb_findtagnext_loop
    simp only [ mcdb_uint32_unpack_bigendian_aligned_macro, hk, r1, r2, hh, hs,
      next_slot tp tbl.length i hi]
    by_cases h0 : (tbl.getD i (0, 0)).1 = 0
    · rw [if_pos h0]; exact ⟨_, rfl⟩
    · rw [if_neg h0]
      have hnext : ∀ c1 : mcdb, c1.kpos = tp + (i + 1) % tbl.length * 8 → c1.hpos = tp →
          c1.hslots = tbl.length →
          ∃ c', mcdb_findtagnext_loop img k k.length t fuel c1 = some (false, c') :=
        fun c1 a b d => ih c1 _ (Nat.mod_lt _ (by omega)) a b d
      by_cases h1 : (tbl.getD i (0, 0)).1 = c.khash
      · rw [if_pos h1]
        rcases lay.slot_entry i hi with hz | ⟨pr, hpr, he⟩
        · rw [hz] at h0; exact absurd rfl h0
        · obtain ⟨q1, q2, -, -⟩ := lay.record_read pr hpr
          have hp : (tbl.getD i (0, 0)).2 = pr.1 := by rw [he]
          simp only [hp, q1, q2]
          have hno := habs pr hpr
          rw [← loop_step_match img tbl tp L H lay k t pr hpr] at hno
          rw [if_neg hno]
          exact hnext _ rfl rfl rfl
      · rw [if_neg h1]
        exact hnext _ rfl rfl rfl

theorem loop_found (img : Bytes) (tbl : List (Nat × Nat)) (tp : Nat)
    (L : List (Nat × Record)) (H : Record → Nat) (lay : BucketLayout img tbl tp L H)
    (k : Bytes) (t : Nat) (fuel : Nat) :
    ∀ (c : mcdb) (i j : Nat) (pr : Nat × Record), i < tbl.length → c.kpos = tp + i * 8 →
      c.hpos = tp → c.hslots = tbl.length → j < fuel → pr ∈ L → pr.2.key = k → pr.2.tag = t →
      c.khash ≠ 0 →
      tbl.getD ((i + j) % tbl.length) (0, 0) = (c.khash, pr.1) →
      (∀ j', j' < j → (tbl.getD ((i + j') % tbl.length) (0, 0)).1 ≠ 0) →
      ∃ c' pr', pr' ∈ L ∧ pr'.2.key = k ∧ pr'.2.tag = t ∧
        mcdb_findtagnext_loop img k k.length t fuel c = some (true, c') ∧
        c'.dpos = pr'.1 + 8 + k.length + 1 ∧ c'.dlen = pr'.2.value.length := by
  induction fuel with
  | zero => intro c i j pr _ _ _ _ hj; omega
  | succ fuel ih =>
    intro c i j pr hi hk hh hs hj hpr hkey htag hnz hfin hpath
    obtain ⟨r1, r2⟩ := lay.slot_read i hi
    have hn : 0 < tbl.length := by omega
    unfold mcdb_findtagnext_loop
    simp only [ mcdb_uint32_unpack_bigendian_aligned_macro, hk, r1, r2, hh, hs,
      next_slot tp tbl.length i hi]
    have key : ∀ x, ((i + 1) % tbl.length + x) % tbl.length = (i + (x + 1)) % tbl.length := by
      intro x
      rw [Nat.mod_add_mod]
      congr 1; omega
    have h0 : (tbl.getD i (0, 0)).1 ≠ 0 := by
      cases j with
      | zero =>
        simp only [Nat.add_zero, Nat.mod_eq_of_lt hi] at hfin
        rw [hfin]; exact hnz
      | succ j =>
        have := hpath 0 (by omega)
        simpa only [Nat.add_zero, Nat.mod_eq_of_lt hi] using this
    rw [if_neg h0]
    have hnext : ∀ c1 : mcdb, c1.kpos = tp + (i + 1) % tbl.length * 8 → c1.hpos = tp →
        c1.hslots = tbl.length → c1.khash = c.khash →
        ¬ tbl.getD i (0, 0) = (c.khash, pr.1) →
        ∃ c' pr', pr' ∈ L ∧ pr'.2.key = k ∧ pr'.2.tag = t ∧
          mcdb_findtagnext_loop img k k.length t fuel c1 = some (true, c') ∧
          c'.dpos = pr'.1 + 8 + k.length + 1 ∧ c'.dlen = pr'.2.value.length := by
      intro c1 a b d e hne
      cases j with
      | zero =>
        simp only [Nat.add_zero, Nat.mod_eq_of_lt hi] at hfin
        exact absurd hfin hne
      | succ j =>
        refine ih c1 ((i + 1) % tbl.length) j pr (Nat.mod_lt _ hn) a b d (by omega) hpr hkey
          htag (by rw [e]; exact hnz) ?_ ?_
        · rw [key, e]; exact hfin
        · intro j' hj'
          rw [key]; exact hpath (j' + 1) (by omega)
    by_cases h1 : (tbl.getD i (0, 0)).1 = c.khash
    · rw [if_pos h1]
      rcases lay.slot_entry i hi with hz | ⟨pr1, hpr1, he⟩
      · rw [hz] at h0; exact absurd rfl h0
      · obtain ⟨q1, q2, -, -⟩ := lay.record_read pr1 hpr1
        have hp : (tbl.getD i (0, 0)).2 = pr1.1 := by rw [he]
        simp only [hp, q1, q2]
        by_cases hm : pr1.2.key = k ∧ pr1.2.tag = t
        · have hm' := (loop_step_match img tbl tp L H lay k t pr1 hpr1).2 hm
          rw [if_pos hm']
          exact ⟨_, pr1, hpr1, hm.1, hm.2, rfl, rfl, by simp⟩
        · have hm' : ¬ _ := fun x => hm ((loop_step_match img tbl tp L H lay k t pr1 hpr1).1 x)
          rw [if_neg hm']
          refine hnext _ rfl rfl rfl rfl ?_
          intro hx
          apply hm
          rw [he] at hx
          have hpos : pr1.1 = pr.1 := congrArg Prod.snd hx
          obtain ⟨a1, -, a3, a4⟩ := lay.record_read pr1 hpr1
          obtain ⟨b1, -, b3, b4⟩ := lay.record_read pr hpr
          rw [hpos, b1] at a1
          have hl : pr.2.key.length = pr1.2.key.length := by simpa using a1
          rw [hpos, ← hl, b3] at a3
          rw [hpos, ← hl, b4] at a4
          exact ⟨by rw [← a3, hkey], by rw [← htag]; simpa using a4.symm⟩
    · rw [if_neg h1]
      refine hnext _ rfl rfl rfl rfl ?_
      intro hx
      rw [hx] at h1
      exact h1 rfl

theorem tables_upto_le (m : mcdb_make) (b : Nat) (hb : b < 256) :
    (tables_upto m b).length + (table_bytes (build_table (bucket_entries m b))).length
      ≤ (tables_upto m 256).length := by
  have h := tables_upto_drop m b hb
  have := congrArg List.length h
  rw [List.length_drop, List.length_append] at this
  by_cases h0 : (table_bytes (build_table (bucket_entries m b))).length = 0
  · rw [h0]
    have h1 : (tables_upto m 256)
        = tables_upto m b ++ ((List.range 256).drop b).flatMap
          (fun b' => table_bytes (build_table (bucket_entries m b'))) := by
      unfold tables_upto
      rw [← List.flatMap_append]
      have : List.range b = (List.range 256).take b := by
        rw [List.take_range, Nat.min_eq_left (by omega)]
      rw [this, List.take_append_drop]
    rw [h1, List.length_append]; omega
  · omega

theorem finish_length (m : mcdb_make) :
    (mcdb_make_finish m).length = 2048 + m.stream.length + (tables_upto m 256).length := by
  unfold mcdb_make_finish
  rw [List.length_append, List.length_append, head_bytes_length]

theorem table_bytes_length (tbl : List (Nat × Nat)) : (table_bytes tbl).length = 8 * tbl.length :=
  flatMap_length_const _ _ 8 (by intro x; simp [strpack_length])

theorem head_read (m : mcdb_make) (b : Nat) (hb : b < 256)
    (hsize : (mcdb_make_finish m).length < 4294967296) :
    mcdb_uint32_unpack_bigendian_macro (mcdb_make_finish m) (b * 8) = some (table_pos m b) ∧
    mcdb_uint32_unpack_bigendian_macro (mcdb_make_finish m) (b * 8 + 4)
      = some (build_table (bucket_entries m b)).length := by
  obtain ⟨rest, h⟩ := head_drop m b hb
  have hlen := finish_length m
  have hle := tables_upto_le m b hb
  rw [table_bytes_length] at hle
  constructor
  · apply unpack_of_drop _ _ _ _ _ h
    unfold table_pos; omega
  · have h2 := drop_add_of_drop _ _ _ _ h
    rw [strpack_length] at h2
    apply unpack_of_drop _ _ _ _ _ h2
    omega

theorem record_read_built (hash : Bytes → Nat) (rs : List Record)
    (hsize : (mcdb_build hash rs).length < 4294967296) (pr : Nat × Record)
    (hpr : pr ∈ located 2048 rs) :
    pr.1 < 4294967296 ∧
    mcdb_uint32_unpack_bigendian_macro (mcdb_build hash rs) pr.1 = some pr.2.key.length ∧
    mcdb_uint32_unpack_bigendian_macro (mcdb_build hash rs) (pr.1 + 4)
      = some (pr.2.value.length + 1) ∧
    ((mcdb_build hash rs).drop (pr.1 + 8)).take pr.2.key.length = pr.2.key ∧
    (mcdb_build hash rs)[pr.1 + 8 + pr.2.key.length]? = some pr.2.tag ∧
    ∃ rest, (mcdb_build hash rs).drop (pr.1 + 8 + pr.2.key.length + 1) = pr.2.value ++ rest := by
  obtain ⟨rest, h⟩ := record_drop hash rs pr hpr
  have h1 := drop_add_of_drop _ _ _ _ h
  have h2 := drop_add_of_drop _ _ _ _ h1
  have h3 := drop_add_of_drop _ _ _ _ h2
  simp only [strpack_length] at h1 h2 h3
  have hl := length_of_drop _ _ _ _ h (by simp [strpack_length])
  have hl1 := length_of_drop _ _ _ _ h1 (by simp [strpack_length])
  rw [strpack_length] at hl hl1
  have hl2 : pr.1 + 4 + 4 + pr.2.key.length + (pr.2.value.length + 1)
      ≤ (mcdb_build hash rs).length := by
    have := congrArg List.length h3
    rw [List.length_drop, List.length_cons, List.length_append] at this
    omega
  refine ⟨by omega, unpack_of_drop _ _ _ _ (by omega) h, unpack_of_drop _ _ _ _ (by omega) h1,
    ?_, ?_, ?_⟩
  · rw [show pr.1 + 8 = pr.1 + 4 + 4 by omega, h2, List.take_left]
  · have := List.getElem?_drop (mcdb_build hash rs) (pr.1 + 4 + 4 + pr.2.key.length) 0
    rw [h3] at this
    rw [show pr.1 + 8 + pr.2.key.length = pr.1 + 4 + 4 + pr.2.key.length + 0 by omega, ← this]
    simp
  · refine ⟨rest, ?_⟩
    have := congrArg (List.drop 1) h3
    rw [List.drop_drop] at this
    rw [show pr.1 + 8 + pr.2.key.length + 1 = pr.1 + 4 + 4 + pr.2.key.length + 1 by omega, this]
    rfl

theorem bucket_entry_located (hash : Bytes → Nat) (rs : List Record) (b : Nat) (e : Nat × Nat)
    (he : e ∈ bucket_entries (mcdb_make_all hash rs) b) :
    ∃ pr ∈ located 2048 rs, e = (u32 (hash pr.2.key), pr.1) := by
  unfold bucket_entries at he
  rw [List.mem_filter, make_all_entries, List.mem_map] at he
  obtain ⟨⟨pr, hpr, rfl⟩, -⟩ := he
  exact ⟨pr, hpr, rfl⟩

theorem build_layout (hash : Bytes → Nat) (rs : List Record) (b : Nat) (hb : b < 256)
    (hsize : (mcdb_build hash rs).length < 4294967296) :
    BucketLayout (mcdb_build hash rs)
      (build_table (bucket_entries (mcdb_make_all hash rs) b))
      (table_pos (mcdb_make_all hash rs) b) (located 2048 rs) (fun r => u32 (hash r.key)) := by
  have hslot : ∀ i, (build_table (bucket_entries (mcdb_make_all hash rs) b)).getD i (0, 0)
        = (0, 0) ∨
      ∃ pr ∈ located 2048 rs,
        (build_table (bucket_entries (mcdb_make_all hash rs) b)).getD i (0, 0)
          = (u32 (hash pr.2.key), pr.1) := by
    intro i
    rcases build_table_slots (bucket_entries (mcdb_make_all hash rs) b) i with h | h
    · left; exact h
    · right; exact bucket_entry_located hash rs b _ h
  refine ⟨?_, fun i _ => hslot i, ?_⟩
  · intro i hi
    obtain ⟨rest, h⟩ := slot_drop (mcdb_make_all hash rs) b i hb hi
    have h2 := drop_add_of_drop _ _ _ _ h
    rw [strpack_length] at h2
    have hb1 : ((build_table (bucket_entries (mcdb_make_all hash rs) b)).getD i (0, 0)).1
        < 4294967296 ∧
        ((build_table (bucket_entries (mcdb_make_all hash rs) b)).getD i (0, 0)).2
        < 4294967296 := by
      rcases hslot i with hz | ⟨pr, hpr, he⟩
      · rw [hz]; exact ⟨by decide, by decide⟩
      · rw [he]
        exact ⟨Nat.mod_lt _ (by decide), (record_read_built hash rs hsize pr hpr).1⟩
    exact ⟨unpack_of_drop _ _ _ _ hb1.1 h, unpack_of_drop _ _ _ _ hb1.2 h2⟩
  · intro pr hpr
    obtain ⟨-, a, b', c, d, -⟩ := record_read_built hash rs hsize pr hpr
    exact ⟨a, b', c, d⟩

/-! ### Keyed lookup in a built file -/

theorem findtagstart_built (hash : Bytes → Nat) (rs : List Record) (stack : mcdb) (k : Bytes)
    (t : Nat) (hsize : (mcdb_build hash rs).length < 4294967296) :
    mcdb_findtagstart hash (some (mcdb_build hash rs)) stack k k.length t
      = (let c := { stack with
            khash := u32 (hash k),
            hpos := table_pos (mcdb_make_all hash rs) (u32 (hash k) % 256),
            hslots := (build_table (bucket_entries (mcdb_make_all hash rs)
              (u32 (hash k) % 256))).length,
            loop := 0 }
         if c.hslots = 0 then some (false, c)
         else some (true, { c with kpos := c.hpos + u32 (hash k) / 256 % c.hslots * 8 })) := by
  have hb : u32 (hash k) % 256 < 256 := Nat.mod_lt _ (by decide)
  obtain ⟨h1, h2⟩ := head_read (mcdb_make_all hash rs) _ hb hsize
  unfold mcdb_findtagstart
  simp only [ mcdb_uint32_unpack_bigendian_aligned_macro, List.take_length]
  unfold mcdb_build
  rw [h1, h2]

theorem lookup_not_found (hash : Bytes → Nat) (rs : List Record) (stack : mcdb) (k : Bytes)
    (t : Nat) (hsize : (mcdb_build hash rs).length < 4294967296)
    (habs : ∀ r ∈ rs, ¬ (r.key = k ∧ r.tag = t)) :
    ∃ c1, mcdb_findtagstart hash (some (mcdb_build hash rs)) stack k k.length t
        = some (false, c1) ∨
      (mcdb_findtagstart hash (some (mcdb_build hash rs)) stack k k.length t = some (true, c1) ∧
        ∃ c2, mcdb_findtagnext (some (mcdb_build hash rs)) c1 k k.length t = some (false, c2)) := by
  rw [findtagstart_built hash rs stack k t hsize]
  have hb : u32 (hash k) % 256 < 256 := Nat.mod_lt _ (by decide)
  have lay := build_layout hash rs _ hb hsize
  simp only
  by_cases h0 : (build_table (bucket_entries (mcdb_make_all hash rs)
      (u32 (hash k) % 256))).length = 0
  · rw [if_pos h0]; exact ⟨_, Or.inl rfl⟩
  · rw [if_neg h0]
    refine ⟨_, Or.inr ⟨rfl, ?_⟩⟩
    unfold mcdb_findtagnext
    simp only
    exact loop_not_found _ _ _ _ _ lay k t
      (fun pr hpr => habs pr.2 (located_spec rs 2048 pr hpr).1) _ _ _
      (Nat.mod_lt _ (by omega)) rfl rfl rfl

theorem lookup_found (hash : Bytes → Nat) (rs : List Record) (stack : mcdb) (r : Record)
    (hr : r ∈ rs) (hsize : (mcdb_build hash rs).length < 4294967296)
    (hnz : ∀ r ∈ rs, u32 (hash r.key) ≠ 0) :
    ∃ pr' ∈ located 2048 rs, pr'.2.key = r.key ∧ pr'.2.tag = r.tag ∧ ∃ c1 c2,
      mcdb_findtagstart hash (some (mcdb_build hash rs)) stack r.key r.key.length r.tag
        = some (true, c1) ∧
      mcdb_findtagnext (some (mcdb_build hash rs)) c1 r.key r.key.length r.tag
        = some (true, c2) ∧
      c2.dpos = pr'.1 + 8 + r.key.length + 1 ∧ c2.dlen = pr'.2.value.length := by
  rw [findtagstart_built hash rs stack r.key r.tag hsize]
  have hb : u32 (hash r.key) % 256 < 256 := Nat.mod_lt _ (by decide)
  have lay := build_layout hash rs _ hb hsize
  obtain ⟨p, hp⟩ := located_mem rs 2048 r hr
  have hmem : (u32 (hash r.key), p)
      ∈ bucket_entries (mcdb_make_all hash rs) (u32 (hash r.key) % 256) := by
    unfold bucket_entries
    rw [List.mem_filter, make_all_entries, List.mem_map]
    exact ⟨⟨(p, r), hp, rfl⟩, by simp⟩
  have inv := build_table_inv (bucket_entries (mcdb_make_all hash rs) (u32 (hash r.key) % 256))
    (by
      intro e he
      obtain ⟨pr, hpr, rfl⟩ := bucket_entry_located hash rs _ e he
      exact hnz pr.2 (located_spec rs 2048 pr hpr).1)
  obtain ⟨j, hj, hfin, hpath⟩ := inv.reach _ hmem
  simp only at hfin hpath ⊢
  have h0 : ¬ (build_table (bucket_entries (mcdb_make_all hash rs)
      (u32 (hash r.key) % 256))).length = 0 := by omega
  rw [if_neg h0]
  obtain ⟨c', pr', hpr', hk', ht', hloop, hd1, hd2⟩ :=
    loop_found _ _ _ _ _ lay r.key r.tag _
      { stack with
        khash := u32 (hash r.key),
        hpos := table_pos (mcdb_make_all hash rs) (u32 (hash r.key) % 256),
        hslots := (build_table (bucket_entries (mcdb_make_all hash rs)
          (u32 (hash r.key) % 256))).length,
        loop := 0,
        kpos := table_pos (mcdb_make_all hash rs) (u32 (hash r.key) % 256) +
          u32 (hash r.key) / 256 % (build_table (bucket_entries (mcdb_make_all hash rs)
            (u32 (hash r.key) % 256))).length * 8 }
      _ j (p, r) (Nat.mod_lt _ (by omega)) rfl rfl rfl hj hp rfl rfl (hnz r hr) hfin hpath
  refine ⟨pr', hpr', hk', ht', _, c', rfl, ?_, hd1, hd2⟩
  unfold mcdb_findtagnext
  exact hloop

theorem decode_buf_value (ptr value rest : Bytes) (c : mcdb) (kinfo : Option _nss_kinfo)
    (buflen : Nat) (hdrop : ptr.drop c.dpos = value ++ rest) (hlen : c.dlen = value.length)
    (hbuf : value.length < buflen) :
    _nss_files_decode_buf (some ptr) c kinfo buflen
      = some (NSS_STATUS_SUCCESS, stores_from 0 value ++ [(value.length, 0)]) := by
  unfold _nss_files_decode_buf memcpy mcdb_dataptr mcdb_datalen
  simp only [hlen, hdrop, List.take_left]
  have h1 : buflen > value.length := hbuf
  have h2 : value.length ≤ (value ++ rest).length := by simp
  simp [h1, h2]

theorem stores_from_value (value : Bytes) (buf : Nat → Nat) (i : Nat) (hi : i < value.length) :
    apply_writes buf (stores_from 0 value ++ [(value.length, 0)]) i = value[i] := by
  rw [apply_writes_append, apply_writes_cons]
  have hne : i ≠ value.length := by omega
  simp only [apply_writes, List.foldl_nil, Function.update, hne, dite_false]
  have := apply_writes_stores_from buf 0 value i
  simp only [apply_writes] at this
  rw [this]
  simp [List.getElem?_eq_getElem hi]

theorem decode_buf_small (ptr : Bytes) (c : mcdb) (kinfo : Option _nss_kinfo) (buflen : Nat)
    (h : buflen ≤ c.dlen) :
    _nss_files_decode_buf (some ptr) c kinfo buflen = some (NSS_STATUS_TRYAGAIN, []) := by
  unfold _nss_files_decode_buf mcdb_datalen
  simp only [gt_iff_lt, not_lt.mpr h, if_false]

/-- C2: round trip of keyed lookup, with its provisos. Let the mapped file be
the database built from the records `rs` (smaller than 4 GiB), the handle that
`_nss_mcdb_db_getshared` returns mapping that file. If no stored key hashes to
the empty-slot sentinel 0, then for every record of `rs` there is a stored
record `r'` with the same key and discriminator, which is the record itself
when no other record of `rs` has its key and discriminator, such that
`_nss_files_get_generic`, called with that key and discriminator and
`_nss_files_decode_buf`, returns `NSS_STATUS_SUCCESS` and leaves the value
bytes of `r'`, followed by a NUL, in `buf` when `buflen` is greater than the
length of the value of `r'`, and returns `NSS_STATUS_TRYAGAIN` and stores
nothing when it is not. For a key and discriminator stored nowhere it returns
`NSS_STATUS_NOTFOUND` and stores nothing. -/
theorem keyed_lookup_round_trip (hash : Bytes → Nat) (rs : List Record) (env : Env)
    (G G1 : Globals) (stack : mcdb) (d h : nss_dbtype)
    (hsize : (mcdb_build hash rs).length < 4294967296)
    (hget : _nss_mcdb_db_getshared env G d = (some h, G1))
    (hptr : (G1.nss_mcdb_mmap_st h).ptr = some (mcdb_build hash rs)) :
    ((∀ r ∈ rs, u32 (hash r.key) ≠ 0) →
      ∀ r ∈ rs, ∃ r' ∈ rs, r'.key = r.key ∧ r'.tag = r.tag ∧
        (∀ buflen, r'.value.length < buflen →
          (∃ G', _nss_files_get_generic (mcdb_lookup hash) env G stack d
              { key := r.key, klen := r.key.length, tagc := r.tag }
              { decode := _nss_files_decode_buf, buflen := buflen }
            = some (NSS_STATUS_SUCCESS,
                stores_from 0 r'.value ++ [(r'.value.length, 0)], G')) ∧
          ∀ (buf : Nat → Nat) (i : Nat) (hi : i < r'.value.length),
            apply_writes buf (stores_from 0 r'.value ++ [(r'.value.length, 0)]) i
              = r'.value[i]) ∧
        ((∀ q ∈ rs, q.key = r.key → q.tag = r.tag → q = r) → r' = r) ∧
        (∀ buflen, buflen ≤ r'.value.length →
          ∃ G', _nss_files_get_generic (mcdb_lookup hash) env G stack d
              { key := r.key, klen := r.key.length, tagc := r.tag }
              { decode := _nss_files_decode_buf, buflen := buflen }
            = some (NSS_STATUS_TRYAGAIN, [], G'))) ∧
    (∀ (k : Bytes) (t buflen : Nat), (∀ r ∈ rs, ¬ (r.key = k ∧ r.tag = t)) →
      ∃ G', _nss_files_get_generic (mcdb_lookup hash) env G stack d
          { key := k, klen := k.length, tagc := t }
          { decode := _nss_files_decode_buf, buflen := buflen }
        = some (NSS_STATUS_NOTFOUND, [], G')) := by
  constructor
  · intro hnz r hr
    obtain ⟨pr', hpr', hk', ht', c1, c2, hs, hn, hd1, hd2⟩ :=
      lookup_found hash rs { stack with map := some h } r hr hsize hnz
    obtain ⟨-, -, -, -, -, rest, hrest⟩ := record_read_built hash rs hsize pr' hpr'
    refine ⟨pr'.2, (located_spec rs 2048 pr' hpr').1, hk', ht', ?_, ?_, ?_⟩
    · intro buflen hbuf
      refine ⟨?_, fun buf i hi => stores_from_value _ buf i hi⟩
      have hdec := decode_buf_value (mcdb_build hash rs) pr'.2.value rest c2
        (some { key := r.key, klen := r.key.length, tagc := r.tag }) buflen
        (by rw [hd1, ← hk']; exact hrest) hd2 hbuf
      unfold _nss_files_get_generic
      rw [hget]
      simp only [findtag, mcdb_lookup, hptr, hs, hn, emit_st, hdec]
      exact ⟨_, rfl⟩
    · intro huniq
      exact huniq pr'.2 (located_spec rs 2048 pr' hpr').1 hk' ht'
    · intro buflen hbuf
      have hdec := decode_buf_small (mcdb_build hash rs) c2
        (some { key := r.key, klen := r.key.length, tagc := r.tag }) buflen
        (by rw [hd2]; exact hbuf)
      unfold _nss_files_get_generic
      rw [hget]
      simp only [findtag, mcdb_lookup, hptr, hs, hn, emit_st, hdec]
      exact ⟨_, rfl⟩
  · intro k t buflen habs
    obtain ⟨c1, hs | ⟨hs, c2, hn⟩⟩ :=
      lookup_not_found hash rs { stack with map := some h } k t hsize habs
    · unfold _nss_files_get_generic
      rw [hget]
      simp only [findtag, mcdb_lookup, hptr, hs]
      exact ⟨_, rfl⟩
    · unfold _nss_files_get_generic
      rw [hget]
      simp only [findtag, mcdb_lookup, hptr, hs, hn]
      exact ⟨_, rfl⟩

set_option maxRecDepth 1000000 in
theorem example_build_facts :
    (mcdb_build example_hash example_records).length < 4294967296 ∧
    ∀ r ∈ example_records, u32 (example_hash r.key) ≠ 0 := by
  decide!

/-- The instance of `keyed_lookup_round_trip` for the database built from
`example_records` with `example_hash`, mapped at the first use of the passwd
database: `alice` under `=` gives `100`, `alice` under `x` gives `999`, `carol`
under `=` is not found. -/
theorem keyed_lookup_round_trip_witness :
    (∃ G', _nss_files_get_generic (mcdb_lookup example_hash)
        (Env.ok (mcdb_build example_hash example_records)) Globals.init mcdb.zero
        NSS_DBTYPE_PASSWD { key := [97, 108, 105, 99, 101], klen := 5, tagc := 61 }
        { decode := _nss_files_decode_buf, buflen := 16 }
      = some (NSS_STATUS_SUCCESS, [(0, 49), (1, 48), (2, 48), (3, 0)], G')) ∧
    (∃ G', _nss_files_get_generic (mcdb_lookup example_hash)
        (Env.ok (mcdb_build example_hash example_records)) Globals.init mcdb.zero
        NSS_DBTYPE_PASSWD { key := [97, 108, 105, 99, 101], klen := 5, tagc := 120 }
        { decode := _nss_files_decode_buf, buflen := 16 }
      = some (NSS_STATUS_SUCCESS, [(0, 57), (1, 57), (2, 57), (3, 0)], G')) ∧
    (∃ G', _nss_files_get_generic (mcdb_lookup example_hash)
        (Env.ok (mcdb_build example_hash example_records)) Globals.init mcdb.zero
        NSS_DBTYPE_PASSWD { key := [99, 97, 114, 111, 108], klen := 5, tagc := 61 }
        { decode := _nss_files_decode_buf, buflen := 16 }
      = some (NSS_STATUS_NOTFOUND, [], G')) := by
  have T := keyed_lookup_round_trip example_hash example_records
    (Env.ok (mcdb_build example_hash example_records)) Globals.init
    (_nss_mcdb_db_getshared (Env.ok (mcdb_build example_hash example_records)) Globals.init
      NSS_DBTYPE_PASSWD).2 mcdb.zero NSS_DBTYPE_PASSWD NSS_DBTYPE_PASSWD
    example_build_facts.1 rfl rfl
  refine ⟨?_, ?_, ?_⟩
  · obtain ⟨r', hr', hk, ht, hcall⟩ := T.1 example_build_facts.2
      { key := [97, 108, 105, 99, 101], value := [49, 48, 48], tag := 61 }
      (by simp [example_records])
    simp only [example_records, List.mem_cons, List.mem_singleton, List.not_mem_nil,
      or_false] at hr'
    rcases hr' with rfl | rfl | rfl
    · exact (hcall.1 16 (by decide)).1
    · exact absurd hk (by decide)
    · exact absurd ht (by decide)
  · obtain ⟨r', hr', hk, ht, hcall⟩ := T.1 example_build_facts.2
      { key := [97, 108, 105, 99, 101], value := [57, 57, 57], tag := 120 }
      (by simp [example_records])
    simp only [example_records, List.mem_cons, List.mem_singleton, List.not_mem_nil,
      or_false] at hr'
    rcases hr' with rfl | rfl | rfl
    · exact absurd ht (by decide)
    · exact absurd hk (by decide)
    · exact (hcall.1 16 (by decide)).1
  · exact T.2 [99, 97, 114, 111, 108] 61 16 (by decide)

/-! ## Sequential traversal: the cursor's reference -/

theorem set_then_end_fresh (img : Bytes) :
    (set_then_end (Env.ok img) Globals.init mcdb.zero NSS_DBTYPE_PASSWD).1
      = { mcdb.zero with map := some NSS_DBTYPE_PASSWD } ∧
    ((set_then_end (Env.ok img) Globals.init mcdb.zero NSS_DBTYPE_PASSWD).2.nss_mcdb_mmap_st
      NSS_DBTYPE_PASSWD).ptr = none ∧
    (set_then_end (Env.ok img) Globals.init mcdb.zero NSS_DBTYPE_PASSWD).2.trace
      = [.pthread_mutex_lock 0, .open_dbpath 3, .openat NSS_DBTYPE_PASSWD 4,
         .mcdb_mmap_init NSS_DBTYPE_PASSWD true, .close 4, .pthread_mutex_unlock,
         .mcdb_register (some NSS_DBTYPE_PASSWD) true,
         .getshared NSS_DBTYPE_PASSWD (some NSS_DBTYPE_PASSWD),
         .mcdb_unregister NSS_DBTYPE_PASSWD, .mcdb_mmap_unmap NSS_DBTYPE_PASSWD] :=
  ⟨rfl, rfl, rfl⟩

theorem set_then_end_held (img : Bytes) :
    (set_then_end (Env.ok img) (held_elsewhere img NSS_DBTYPE_PASSWD) mcdb.zero
      NSS_DBTYPE_PASSWD).1 = { mcdb.zero with map := some NSS_DBTYPE_PASSWD } ∧
    ((set_then_end (Env.ok img) (held_elsewhere img NSS_DBTYPE_PASSWD) mcdb.zero
      NSS_DBTYPE_PASSWD).2.nss_mcdb_mmap_st NSS_DBTYPE_PASSWD).ptr = some img ∧
    (set_then_end (Env.ok img) (held_elsewhere img NSS_DBTYPE_PASSWD) mcdb.zero
      NSS_DBTYPE_PASSWD).2.trace
      = (held_elsewhere img NSS_DBTYPE_PASSWD).trace ++
        [.mcdb_register (some NSS_DBTYPE_PASSWD) true,
         .getshared NSS_DBTYPE_PASSWD (some NSS_DBTYPE_PASSWD),
         .mcdb_unregister NSS_DBTYPE_PASSWD] :=
  ⟨rfl, rfl, rfl⟩

theorem getent_mapped (fuel : Nat) (env : Env) (G : Globals) (m : mcdb) (d h : nss_dbtype)
    (vinfo : _nss_vinfo) (map : Bytes) (w0 : Nat) (hm : m.map = some h)
    (hp : (G.nss_mcdb_mmap_st h).ptr = some map)
    (hw : mcdb_uint32_unpack_bigendian_aligned_macro map 0 = some w0) :
    _nss_mcdb_getent fuel env G m d vinfo
      = _nss_mcdb_getent_loop vinfo h map (u32 (w0 + 4294967296 - 7)) fuel m G := by
  simp [_nss_mcdb_getent, hm, hp, hw]

theorem getent_unmapped (fuel : Nat) (env : Env) (G : Globals) (m : mcdb) (d h : nss_dbtype)
    (vinfo : _nss_vinfo) (hm : m.map = some h) (hp : (G.nss_mcdb_mmap_st h).ptr = none) :
    _nss_mcdb_getent fuel env G m d vinfo = .fault := by
  simp [_nss_mcdb_getent, hm, hp]

theorem loop_one_record_head (vinfo : _nss_vinfo) (h : nss_dbtype) (fuel : Nat) (G : Globals)
    (m : mcdb) (hm : m.hpos = 0) :
    _nss_mcdb_getent_loop vinfo h image_one_record (u32 (2059 + 4294967296 - 7)) (fuel + 2) m G
      = .ret { status := NSS_STATUS_NOTFOUND,
               m := { m with dlen := 0, kpos := 8, dpos := 2067, hpos := 2067 },
               writes := [], G := G } := by
  obtain ⟨h1, h2, h3, h4, h5, h6, h7⟩ := image_one_record_reads
  simp [_nss_mcdb_getent_loop, hm, h2, h3, h4, u32]

/-- C11: a get after an end does not re-acquire. After `_nss_mcdb_setent` and
`_nss_mcdb_endent` on a fresh cursor the cursor still has `m->map` set, with one
acquisition and one release made; the following `_nss_mcdb_getent` does not
call `_nss_mcdb_setent` and reads through `m->map->ptr`. From the initial
globals that pointer is `NULL` by then (the only reference was released and the
mapping torn down): an invalid access. While another user holds a reference
the mapping is still there, and the call reads it and returns with no event
added to the trace: the cursor reads with its acquisitions minus its releases
equal to 0. -/
theorem getent_after_endent_reads_without_reference :
    (set_then_end (Env.ok image_one_record) Globals.init mcdb.zero NSS_DBTYPE_PASSWD).1.map
      = some NSS_DBTYPE_PASSWD ∧
    (set_then_end (Env.ok image_one_record) Globals.init mcdb.zero
      NSS_DBTYPE_PASSWD).2.trace.countP Event.isAcquire = 1 ∧
    (set_then_end (Env.ok image_one_record) Globals.init mcdb.zero
      NSS_DBTYPE_PASSWD).2.trace.countP Event.isUnregister = 1 ∧
    (∀ fuel env,
      _nss_mcdb_getent fuel env
        (set_then_end (Env.ok image_one_record) Globals.init mcdb.zero NSS_DBTYPE_PASSWD).2
        (set_then_end (Env.ok image_one_record) Globals.init mcdb.zero NSS_DBTYPE_PASSWD).1
        NSS_DBTYPE_PASSWD { decode := _nss_files_decode_buf, buflen := 16 }
      = .fault) ∧
    (set_then_end (Env.ok image_one_record) (held_elsewhere image_one_record NSS_DBTYPE_PASSWD)
      mcdb.zero NSS_DBTYPE_PASSWD).2.trace
      = (held_elsewhere image_one_record NSS_DBTYPE_PASSWD).trace ++
        [.mcdb_register (some NSS_DBTYPE_PASSWD) true,
         .getshared NSS_DBTYPE_PASSWD (some NSS_DBTYPE_PASSWD),
         .mcdb_unregister NSS_DBTYPE_PASSWD] ∧
    ∀ fuel env,
      _nss_mcdb_getent (fuel + 2) env
        (set_then_end (Env.ok image_one_record)
          (held_elsewhere image_one_record NSS_DBTYPE_PASSWD) mcdb.zero NSS_DBTYPE_PASSWD).2
        (set_then_end (Env.ok image_one_record)
          (held_elsewhere image_one_record NSS_DBTYPE_PASSWD) mcdb.zero NSS_DBTYPE_PASSWD).1
        NSS_DBTYPE_PASSWD { decode := _nss_files_decode_buf, buflen := 16 }
      = .ret { status := NSS_STATUS_NOTFOUND,
               m := { map := some NSS_DBTYPE_PASSWD, loop := 0, hslots := 0, kpos := 8,
                      hpos := 2067, dpos := 2067, dlen := 0, khash := 0 },
               writes := [],
               G := (set_then_end (Env.ok image_one_record)
                 (held_elsewhere image_one_record NSS_DBTYPE_PASSWD) mcdb.zero
                 NSS_DBTYPE_PASSWD).2 } := by
  obtain ⟨h1, h2, h3, h4, h5, h6, h7⟩ := image_one_record_reads
  obtain ⟨a1, a2, a3⟩ := set_then_end_fresh image_one_record
  obtain ⟨b1, b2, b3⟩ := set_then_end_held image_one_record
  refine ⟨by rw [a1], by rw [a3]; rfl, by rw [a3]; rfl, ?_, b3, ?_⟩
  · intro fuel env
    exact getent_unmapped _ _ _ _ _ NSS_DBTYPE_PASSWD _ (by rw [a1]) a2
  · intro fuel env
    rw [getent_mapped _ _ _ _ _ NSS_DBTYPE_PASSWD _ image_one_record 2059 (by rw [b1]) b2 h2,
      loop_one_record_head _ _ _ _ _ (by rw [b1]; rfl), b1]
    rfl

/-- C12: a second `_nss_mcdb_endent` releases again. After `_nss_mcdb_setent`,
`_nss_mcdb_endent` and a second `_nss_mcdb_endent` on a fresh cursor, with no
acquisition in between, `mcdb_unregister` has been called twice for the one
handle that `_nss_mcdb_db_getshared` returned. -/
theorem second_endent_unregisters_again :
    (set_then_end (Env.ok image_one_record) Globals.init mcdb.zero NSS_DBTYPE_PASSWD).1.map
      = some NSS_DBTYPE_PASSWD ∧
    (_nss_mcdb_endent
      (set_then_end (Env.ok image_one_record) Globals.init mcdb.zero NSS_DBTYPE_PASSWD).2
      (set_then_end (Env.ok image_one_record) Globals.init mcdb.zero
        NSS_DBTYPE_PASSWD).1).2.trace
      = [.pthread_mutex_lock 0, .open_dbpath 3, .openat NSS_DBTYPE_PASSWD 4,
         .mcdb_mmap_init NSS_DBTYPE_PASSWD true, .close 4, .pthread_mutex_unlock,
         .mcdb_register (some NSS_DBTYPE_PASSWD) true,
         .getshared NSS_DBTYPE_PASSWD (some NSS_DBTYPE_PASSWD),
         .mcdb_unregister NSS_DBTYPE_PASSWD, .mcdb_mmap_unmap NSS_DBTYPE_PASSWD,
         .mcdb_unregister NSS_DBTYPE_PASSWD] ∧
    (_nss_mcdb_endent
      (set_then_end (Env.ok image_one_record) Globals.init mcdb.zero NSS_DBTYPE_PASSWD).2
      (set_then_end (Env.ok image_one_record) Globals.init mcdb.zero
        NSS_DBTYPE_PASSWD).1).2.trace.countP Event.isAcquire = 1 ∧
    (_nss_mcdb_endent
      (set_then_end (Env.ok image_one_record) Globals.init mcdb.zero NSS_DBTYPE_PASSWD).2
      (set_then_end (Env.ok image_one_record) Globals.init mcdb.zero
        NSS_DBTYPE_PASSWD).1).2.trace.countP Event.isUnregister = 2 :=
  ⟨rfl, rfl, rfl, rfl⟩

/-! ## Sequential traversal of the empty database -/

set_option maxRecDepth 1000000 in
theorem image_empty_reads :
    image_empty.length = 2048 ∧
    mcdb_uint32_unpack_bigendian_macro image_empty 0 = some 2048 ∧
    mcdb_uint32_unpack_bigendian_macro image_empty 4 = some 0 ∧
    image_empty[2056]? = none := by
  decide!

theorem build_empty (hash : Bytes → Nat) : mcdb_build hash [] = image_empty := by
  have ht : ∀ b, tables_upto mcdb_make_start b = [] := by
    intro b
    simp [tables_upto, bucket_entries, mcdb_make_start, build_table, slot_table_size,
      table_bytes]
  have hb : ∀ b, build_table (bucket_entries mcdb_make_start b) = [] := by
    intro b
    simp [bucket_entries, mcdb_make_start, build_table, slot_table_size]
  show mcdb_make_finish mcdb_make_start = image_empty
  simp only [mcdb_make_finish, head_bytes, table_pos, ht, hb, image_empty]
  simp [mcdb_make_start]

/-- If the mapped memory ended with the last byte of the file: on the database
built from zero records, the 2048-byte file `image_empty`, `_nss_mcdb_setent`
on a fresh cursor succeeds and the following `_nss_mcdb_getent`, with
`hpos = 0`, takes the first head-table entry for a record header, `klen = 2048`
and `dlen = 0`, and reads the tag byte at offset `8 + 2048 = 2056`, which is
past the end of the file. A mapping is made of whole pages, and the read falls
into the zero fill of the page: see `getent_on_empty_database_not_found`. -/
theorem getent_on_empty_database_reads_past_end :
    (∀ hash, mcdb_build hash [] = image_empty) ∧
    image_empty.length = 2048 ∧
    (_nss_mcdb_setent (Env.ok image_empty) Globals.init mcdb.zero NSS_DBTYPE_PASSWD).1
      = NSS_STATUS_SUCCESS ∧
    (_nss_mcdb_setent (Env.ok image_empty) Globals.init mcdb.zero NSS_DBTYPE_PASSWD).2.1.hpos
      = 0 ∧
    mcdb_uint32_unpack_bigendian_macro image_empty 0 = some 2048 ∧
    mcdb_uint32_unpack_bigendian_macro image_empty 4 = some 0 ∧
    image_empty[0 + u32 (8 + 2048)]? = none ∧
    ∀ fuel,
      _nss_mcdb_getent (fuel + 1) (Env.ok image_empty)
        (_nss_mcdb_setent (Env.ok image_empty) Globals.init mcdb.zero NSS_DBTYPE_PASSWD).2.2
        (_nss_mcdb_setent (Env.ok image_empty) Globals.init mcdb.zero NSS_DBTYPE_PASSWD).2.1
        NSS_DBTYPE_PASSWD { decode := _nss_files_decode_buf, buflen := 16 }
      = .fault := by
  obtain ⟨h1, h2, h3, h4⟩ := image_empty_reads
  obtain ⟨s1, s2, s3⟩ := setent_fresh image_empty NSS_DBTYPE_PASSWD
  refine ⟨build_empty, h1, s1, by rw [s2]; rfl, h2, h3, h4, ?_⟩
  intro fuel
  generalize (_nss_mcdb_setent (Env.ok image_empty) Globals.init mcdb.zero
    NSS_DBTYPE_PASSWD).2.2 = G1 at s3 ⊢
  rw [s2]
  simp [_nss_mcdb_getent, _nss_mcdb_getent_loop, mcdb.zero, s3,
    mcdb_uint32_unpack_bigendian_aligned_macro, h2, h3, h4, u32]

/-! ## The walk of `_nss_mcdb_getent` over a well-formed file -/

theorem stream_bytes_append (a b : List (Bytes × Bytes)) :
    stream_bytes (a ++ b) = stream_bytes a ++ stream_bytes b := by
  simp [stream_bytes]

theorem stream_bytes_cons (r : Bytes × Bytes) (rs : List (Bytes × Bytes)) :
    stream_bytes (r :: rs) = record_bytes r.1 r.2 ++ stream_bytes rs := by
  simp [stream_bytes]

theorem record_bytes_length (k v : Bytes) : (record_bytes k v).length = 8 + k.length + v.length := by
  simp only [record_bytes, List.length_append, strpack_length]

theorem record_start_succ (recs : List (Bytes × Bytes)) (j : Nat) (hj : j < recs.length) :
    record_start recs (j + 1) = record_start recs j + 8 + rec_klen recs j + rec_dlen recs j := by
  unfold record_start rec_klen rec_dlen
  rw [List.take_succ, stream_bytes_append, List.getElem?_eq_getElem hj, List.getD_eq_getElem _ _ hj]
  simp only [Option.toList, stream_bytes, List.flatMap_cons, List.flatMap_nil, List.append_nil,
    List.length_append, record_bytes_length]
  omega

theorem record_start_le (recs : List (Bytes × Bytes)) (j : Nat) :
    record_start recs j ≤ 2048 + (stream_bytes recs).length := by
  unfold record_start
  have h : stream_bytes recs = stream_bytes (recs.take j) ++ stream_bytes (recs.drop j) := by
    rw [← stream_bytes_append, List.take_append_drop]
  rw [h, List.length_append]
  omega

theorem record_start_end (recs : List (Bytes × Bytes)) :
    record_start recs recs.length = 2048 + (stream_bytes recs).length := by
  unfold record_start
  rw [List.take_length]

theorem wf_drop {img : Bytes} {recs : List (Bytes × Bytes)} (wf : WellFormed img recs) (j : Nat)
    (hj : j < recs.length) :
    ∃ rest, rest ≠ [] ∧ img.drop (record_start recs j)
      = uint32_strpack_bigendian_macro (rec_klen recs j) ++
        ( uint32_strpack_bigendian_macro (rec_dlen recs j) ++
          ((recs.getD j ([], [])).1 ++ ((recs.getD j ([], [])).2 ++ rest))) := by
  obtain ⟨head, tables, hh, himg, ht⟩ := wf.layout
  have hne : recs ≠ [] := by
    intro h
    rw [h] at hj
    exact Nat.not_lt_zero _ hj
  refine ⟨stream_bytes (recs.drop (j + 1)) ++ tables, ?_, ?_⟩
  · intro h
    exact ht hne (List.append_eq_nil.mp h).2
  · have h : stream_bytes recs = stream_bytes (recs.take j) ++ stream_bytes (recs.drop j) := by
      rw [← stream_bytes_append, List.take_append_drop]
    unfold record_start rec_klen rec_dlen
    rw [himg, ← hh, List.append_assoc, List.drop_append, h, List.append_assoc, List.drop_left,
      List.drop_eq_getElem_cons hj, stream_bytes_cons, List.getD_eq_getElem _ _ hj]
    simp only [record_bytes, List.append_assoc]

theorem getElem?_of_drop (xs rest : Bytes) (p c : Nat) (h : xs.drop p = c :: rest) :
    xs[p]? = some c := by
  have := List.getElem?_drop xs p 0
  rw [h] at this
  simpa using this.symm

/-- What a well-formed file holds at record `j`: the two header words, the tag
byte inside the file, and the offsets, none of which wraps in 32 bits. -/
theorem wf_reads {img : Bytes} {recs : List (Bytes × Bytes)} (wf : WellFormed img recs) (j : Nat)
    (hj : j < recs.length) :
    mcdb_uint32_unpack_bigendian_macro img (record_start recs j) = some (rec_klen recs j) ∧
    mcdb_uint32_unpack_bigendian_macro img (record_start recs j + 4) = some (rec_dlen recs j) ∧
    record_start recs j + 8 + rec_klen recs j < img.length ∧
    record_start recs (j + 1) ≤ 2048 + (stream_bytes recs).length ∧
    2048 + (stream_bytes recs).length < img.length ∧
    (1 ≤ rec_dlen recs j → tag_byte img recs j = (recs.getD j ([], [])).2.head?) := by
  obtain ⟨rest, hrest, h⟩ := wf_drop wf j hj
  have hsize := wf.size
  have h1 := drop_add_of_drop _ _ _ _ h
  have h2 := drop_add_of_drop _ _ _ _ h1
  have h3 := drop_add_of_drop _ _ _ _ h2
  simp only [strpack_length] at h1 h2 h3
  have hl3 := congrArg List.length h3
  rw [List.length_drop, List.length_append] at hl3
  have hpos : 0 < rest.length := List.length_pos.mpr hrest
  have hk : (recs.getD j ([], [])).1.length = rec_klen recs j := rfl
  have hd : (recs.getD j ([], [])).2.length = rec_dlen recs j := rfl
  rw [hk] at h3 hl3
  rw [hd] at hl3
  have hle := record_start_le recs (j + 1)
  have hs := record_start_succ recs j hj
  have hend : 2048 + (stream_bytes recs).length < img.length := by
    obtain ⟨head, tables, hh, himg, ht⟩ := wf.layout
    have hne : recs ≠ [] := by
      intro h
      rw [h] at hj
      exact Nat.not_lt_zero _ hj
    have := List.length_pos.mpr (ht hne)
    rw [himg, List.length_append, List.length_append, hh]
    omega
  refine ⟨unpack_of_drop _ _ _ _ (by omega) h, unpack_of_drop _ _ _ _ (by omega) h1,
    by omega, hle, hend, ?_⟩
  intro hd1
  unfold tag_byte
  cases hv : (recs.getD j ([], [])).2 with
  | nil => rw [← hd, hv] at hd1; simp at hd1
  | cons c v =>
    rw [hv] at h3
    exact getElem?_of_drop _ _ _ _ h3

theorem wf_tag_some {img : Bytes} {recs : List (Bytes × Bytes)} (wf : WellFormed img recs)
    (j : Nat) (hj : j < recs.length) : ∃ c, tag_byte img recs j = some c := by
  have h := (wf_reads wf j hj).2.2.1
  unfold tag_byte
  exact ⟨img[record_start recs j + 8 + rec_klen recs j], List.getElem?_eq_getElem h⟩

theorem wf_eod {img : Bytes} {recs : List (Bytes × Bytes)} (wf : WellFormed img recs) :
    u32 (2048 + (stream_bytes recs).length + 4294967296 - 7)
      = 2048 + (stream_bytes recs).length - 7 := by
  have hsize := wf.size
  obtain ⟨head, tables, hh, himg, ht⟩ := wf.layout
  have : 2048 + (stream_bytes recs).length ≤ img.length := by
    rw [himg, List.length_append, List.length_append, hh]
    omega
  unfold u32
  omega

/-- One iteration of the loop with the cursor at the start of record `j` of a
well-formed file. -/
theorem wf_step {img : Bytes} {recs : List (Bytes × Bytes)} (wf : WellFormed img recs)
    (vinfo : _nss_vinfo) (h : nss_dbtype) (G : Globals) (j : Nat) (hj : j < recs.length)
    (m : mcdb) (hm : m.hpos = record_start recs j) (fuel : Nat) :
    _nss_mcdb_getent_loop vinfo h img (u32 (2048 + (stream_bytes recs).length + 4294967296 - 7))
        (fuel + 1) m G
      = if tag_byte img recs j = some 61 then deliver vinfo h img (cursor_past m recs j) G
        else _nss_mcdb_getent_loop vinfo h img
          (u32 (2048 + (stream_bytes recs).length + 4294967296 - 7)) fuel
          (cursor_past m recs j) G := by
  obtain ⟨hk, hd, htag, hle, hend, -⟩ := wf_reads wf j hj
  obtain ⟨c, hc⟩ := wf_tag_some wf j hj
  have hs := record_start_succ recs j hj
  have hsize := wf.size
  have heod := wf_eod wf
  have hlt : m.hpos < u32 (2048 + (stream_bytes recs).length + 4294967296 - 7) := by
    rw [heod, hm]; omega
  have e1 : u32 (record_start recs j + 8) = record_start recs j + 8 := by unfold u32; omega
  have e2 : u32 (record_start recs j + 8 + rec_klen recs j)
      = record_start recs j + 8 + rec_klen recs j := by unfold u32; omega
  have e3 : u32 (record_start recs j + 8 + rec_klen recs j + rec_dlen recs j)
      = record_start recs (j + 1) := by unfold u32; omega
  have e4 : u32 (8 + rec_klen recs j) = 8 + rec_klen recs j := by unfold u32; omega
  have hc2 : img[record_start recs j + (8 + rec_klen recs j)]? = some c := by
    rw [← Nat.add_assoc]; exact hc
  rw [_nss_mcdb_getent_loop, if_pos hlt]
  simp only [hm, hk, hd, e1, e2, e3, e4, hc2, hc, Option.some.injEq]
  by_cases h61 : c = 61
  · simp only [h61, if_true]
    rfl
  · simp only [h61, if_false]
    rfl

/-- The loop with the cursor at the end of the record stream. -/
theorem wf_stop {img : Bytes} {recs : List (Bytes × Bytes)} (wf : WellFormed img recs)
    (vinfo : _nss_vinfo) (h : nss_dbtype) (G : Globals) (m : mcdb)
    (hm : m.hpos = record_start recs recs.length) (fuel : Nat) :
    _nss_mcdb_getent_loop vinfo h img (u32 (2048 + (stream_bytes recs).length + 4294967296 - 7))
        (fuel + 1) m G
      = .ret { status := NSS_STATUS_NOTFOUND, m := m, writes := [], G := G } := by
  have heod := wf_eod wf
  have hge : ¬ m.hpos < u32 (2048 + (stream_bytes recs).length + 4294967296 - 7) := by
    rw [heod, hm, record_start_end]; omega
  rw [_nss_mcdb_getent_loop, if_neg hge]

/-- The walk from the start of record `i` of a well-formed file, with fuel for
the `k` records that remain: either no record from `i` on has `=` at offset
`8 + klen` and the loop returns `NSS_STATUS_NOTFOUND` with `hpos` at the end of
the stream, or the first such record `j` is handed to the decoder. -/
theorem wf_walk {img : Bytes} {recs : List (Bytes × Bytes)} (wf : WellFormed img recs)
    (vinfo : _nss_vinfo) (h : nss_dbtype) (G : Globals) :
    ∀ (k i : Nat) (m : mcdb), i + k = recs.length → m.hpos = record_start recs i → ∀ fuel,
      ((∀ j, i ≤ j → j < recs.length → tag_byte img recs j ≠ some 61) ∧
        ∃ r, _nss_mcdb_getent_loop vinfo h img
            (u32 (2048 + (stream_bytes recs).length + 4294967296 - 7)) (fuel + k + 1) m G = .ret r ∧
          r.status = NSS_STATUS_NOTFOUND ∧ r.m.hpos = record_start recs recs.length ∧
          r.m.map = m.map ∧ r.writes = [] ∧ r.G = G) ∨
      (∃ j, i ≤ j ∧ j < recs.length ∧ tag_byte img recs j = some 61 ∧
        (∀ j', i ≤ j' → j' < j → tag_byte img recs j' ≠ some 61) ∧
        _nss_mcdb_getent_loop vinfo h img
            (u32 (2048 + (stream_bytes recs).length + 4294967296 - 7)) (fuel + k + 1) m G
          = deliver vinfo h img (cursor_past m recs j) G) := by
  intro k
  induction k with
  | zero =>
    intro i m hik hm fuel
    left
    have hi : i = recs.length := by omega
    subst hi
    refine ⟨fun j h1 h2 => absurd h1 (by omega), _, wf_stop wf vinfo h G m hm fuel,
      rfl, hm, rfl, rfl, rfl⟩
  | succ k ih =>
    intro i m hik hm fuel
    have hi : i < recs.length := by omega
    have hstep := wf_step wf vinfo h G i hi m hm (fuel + k + 1)
    by_cases ht : tag_byte img recs i = some 61
    · right
      refine ⟨i, Nat.le_refl _, hi, ht, fun j' h1 h2 => absurd h1 (by omega), ?_⟩
      rw [show fuel + (k + 1) + 1 = fuel + k + 1 + 1 by omega, hstep, if_pos ht]
    · rw [if_neg ht] at hstep
      rcases ih (i + 1) (cursor_past m recs i) (by omega) rfl fuel with ⟨hall, r, hr, h1, h2, h3, h4, h5⟩ | ⟨j, hj1, hj2, hj3, hj4, hj5⟩
      · left
        refine ⟨?_, r, ?_, h1, h2, h3, h4, h5⟩
        · intro j hj1 hj2
          by_cases hji : j = i
          · rw [hji]; exact ht
          · exact hall j (by omega) hj2
        · rw [show fuel + (k + 1) + 1 = fuel + k + 1 + 1 by omega, hstep, hr]
      · right
        refine ⟨j, by omega, hj2, hj3, ?_, ?_⟩
        · intro j' h1 h2
          by_cases hji : j' = i
          · rw [hji]; exact ht
          · exact hj4 j' (by omega) h2
        · rw [show fuel + (k + 1) + 1 = fuel + k + 1 + 1 by omega, hstep, hj5]
          rfl

/-! ### Files made by the builder are well-formed -/

theorem adds_foldl (hash : Bytes → Nat) (kvs : List (Bytes × Bytes)) :
    ∀ m0 : mcdb_make,
      (kvs.foldl (fun m kv => mcdb_make_add hash m kv.1 kv.2) m0).stream
        = m0.stream ++ stream_bytes kvs ∧
      (kvs.foldl (fun m kv => mcdb_make_add hash m kv.1 kv.2) m0).entries.length
        = m0.entries.length + kvs.length := by
  induction kvs with
  | nil => intro m0; simp [stream_bytes]
  | cons r rs ih =>
    intro m0
    obtain ⟨h1, h2⟩ := ih (mcdb_make_add hash m0 r.1 r.2)
    simp only [List.foldl_cons, h1, h2, stream_bytes_cons]
    simp [mcdb_make_add, List.append_assoc]
    omega

theorem tables_nonempty (m : mcdb_make) (h : m.entries ≠ []) : tables_upto m 256 ≠ [] := by
  obtain ⟨e, he⟩ := List.exists_mem_of_ne_nil _ h
  have hb : e.1 % 256 < 256 := Nat.mod_lt _ (by decide)
  have hmem : e ∈ bucket_entries m (e.1 % 256) := by
    unfold bucket_entries
    simp [he]
  have hpos : 0 < (bucket_entries m (e.1 % 256)).length := List.length_pos_of_mem hmem
  have hsz := (slot_table_size_ge (bucket_entries m (e.1 % 256)).length).2 hpos
  have hle := tables_upto_le m (e.1 % 256) hb
  rw [table_bytes_length, build_table_length] at hle
  intro hnil
  rw [hnil] at hle
  simp at hle
  omega

/-- The file the builder makes from the pairs `kvs` is well-formed with the
records `kvs`, when it is shorter than 4 GiB. -/
theorem build_wellformed (hash : Bytes → Nat) (kvs : List (Bytes × Bytes))
    (hsize : (mcdb_make_finish (mcdb_make_adds hash kvs)).length < 4294967296) :
    WellFormed (mcdb_make_finish (mcdb_make_adds hash kvs)) kvs := by
  have hs : (mcdb_make_adds hash kvs).stream = stream_bytes kvs := by
    simpa [mcdb_make_adds, mcdb_make_start] using (adds_foldl hash kvs mcdb_make_start).1
  have he : (mcdb_make_adds hash kvs).entries.length = kvs.length := by
    simpa [mcdb_make_adds, mcdb_make_start] using (adds_foldl hash kvs mcdb_make_start).2
  refine ⟨⟨head_bytes (mcdb_make_adds hash kvs), tables_upto (mcdb_make_adds hash kvs) 256,
    head_bytes_length _, ?_, ?_⟩, ?_, hsize⟩
  · unfold mcdb_make_finish
    rw [hs]
  · intro hne
    apply tables_nonempty
    intro hnil
    rw [hnil] at he
    exact hne (List.length_eq_zero.mp he.symm)
  · have h := (head_read (mcdb_make_adds hash kvs) 0 (by decide) hsize).1
    rw [Nat.zero_mul] at h
    unfold mcdb_uint32_unpack_bigendian_aligned_macro
    rw [h]
    simp [table_pos, tables_upto, hs]

/-! ### The example files -/

/-! ### The file built from a single record -/

theorem build_table_single (e : Nat × Nat) :
    build_table [e] = [(0, 0), (0, 0)].set (e.1 / 256 % 2) e := by
  have h2 : slot_table_size 1 = 2 := by decide
  unfold build_table
  simp only [List.length_singleton, h2, List.foldl_cons, List.foldl_nil]
  have hrep : List.replicate 2 ((0, 0) : Nat × Nat) = [(0, 0), (0, 0)] := rfl
  rw [hrep]
  unfold insert_slot
  simp only [List.length_cons, List.length_nil]
  have hi : e.1 / 256 % 2 = 0 ∨ e.1 / 256 % 2 = 1 := by omega
  rcases hi with hi | hi <;> rw [hi] <;> rfl

theorem bucket_entries_single (stream : Bytes) (e : Nat × Nat) (b : Nat) :
    bucket_entries { stream := stream, entries := [e] } b = if e.1 % 256 = b then [e] else [] := by
  unfold bucket_entries
  by_cases h : e.1 % 256 = b <;> simp [h]

theorem tables_upto_single (stream : Bytes) (e : Nat × Nat) (b : Nat) :
    tables_upto { stream := stream, entries := [e] } b
      = if e.1 % 256 < b then table_bytes ([(0, 0), (0, 0)].set (e.1 / 256 % 2) e) else [] := by
  unfold tables_upto
  induction b with
  | zero => simp
  | succ b ih =>
    rw [List.range_succ, List.flatMap_append, ih]
    simp only [List.flatMap_cons, List.flatMap_nil, List.append_nil, bucket_entries_single]
    by_cases h1 : e.1 % 256 < b
    · have h2 : ¬ e.1 % 256 = b := by omega
      have h3 : e.1 % 256 < b + 1 := by omega
      rw [if_pos h1, if_neg h2, if_pos h3]
      have : build_table ([] : List (Nat × Nat)) = [] := by decide
      rw [this]
      simp [table_bytes]
    · by_cases h2 : e.1 % 256 = b
      · have h3 : e.1 % 256 < b + 1 := by omega
        rw [if_neg h1, if_pos h2, if_pos h3, build_table_single, List.nil_append]
      · have h3 : ¬ e.1 % 256 < b + 1 := by omega
        rw [if_neg h1, if_neg h2, if_neg h3]
        have : build_table ([] : List (Nat × Nat)) = [] := by decide
        rw [this]
        simp [table_bytes]

/-- The file the builder makes from one record: in the head table the bucket of
the hash has 2 slots, the buckets up to it have the position of the end of the
record stream and the buckets after it that position plus 16; then the record;
then the two slots, the pair of the record in slot `(hash >> 8) mod 2`. -/
theorem build_single (hash : Bytes → Nat) (k v : Bytes) :
    mcdb_make_finish (mcdb_make_adds hash [(k, v)])
      = (List.range 256).flatMap (fun b =>
          uint32_strpack_bigendian_macro
            (2048 + (record_bytes k v).length + if u32 (hash k) % 256 < b then 16 else 0) ++
          uint32_strpack_bigendian_macro (if u32 (hash k) % 256 = b then 2 else 0)) ++
        record_bytes k v ++
        table_bytes ([(0, 0), (0, 0)].set (u32 (hash k) / 256 % 2) (u32 (hash k), 2048)) := by
  have hm : mcdb_make_adds hash [(k, v)]
      = { stream := record_bytes k v, entries := [(u32 (hash k), 2048)] } := by
    simp [mcdb_make_adds, mcdb_make_add, mcdb_make_start]
  rw [hm]
  unfold mcdb_make_finish head_bytes table_pos
  rw [tables_upto_single, if_pos (Nat.mod_lt _ (by decide))]
  congr 2
  apply List.flatMap_congr
  intro b _
  rw [tables_upto_single, bucket_entries_single]
  have hlen : (table_bytes ([(0, 0), (0, 0)].set (u32 (hash k) / 256 % 2) (u32 (hash k), 2048))).length
      = 16 := by
    rw [table_bytes_length, List.length_set]
    rfl
  congr 2
  · by_cases h1 : u32 (hash k) % 256 < b
    · simp only [h1, if_true, hlen]
    · simp only [h1, if_false, List.length_nil]
  · by_cases h2 : u32 (hash k) % 256 = b
    · simp only [h2, if_true, build_table_single, List.length_set]
      rfl
    · simp only [h2, if_false]
      rfl

theorem flatMap_range_congr {β : Type} (n : Nat) (f g : Nat → List β)
    (h : ∀ b, b < n → f b = g b) : (List.range n).flatMap f = (List.range n).flatMap g := by
  apply List.flatMap_congr
  intro b hb
  exact h b (List.mem_range.mp hb)

theorem image_one_record_built :
    mcdb_make_finish (mcdb_make_adds example_hash [([97], [61, 49])]) = image_one_record := by
  rw [build_single]
  have hh : u32 (example_hash [97]) = 177604 := by decide
  have e1 : (177604 : Nat) % 256 = 196 := by decide
  have e2 : (record_bytes [97] [61, 49]).length = 11 := rfl
  have hr : record_bytes [97] [61, 49]
      = uint32_strpack_bigendian_macro 1 ++ uint32_strpack_bigendian_macro 2 ++ [97] ++ [61, 49] :=
    rfl
  have ht : table_bytes ([(0, 0), (0, 0)].set (177604 / 256 % 2) (177604, 2048))
      = uint32_strpack_bigendian_macro 0 ++ uint32_strpack_bigendian_macro 0 ++
        uint32_strpack_bigendian_macro 177604 ++ uint32_strpack_bigendian_macro 2048 := by
    decide
  have hhead : (List.range 256).flatMap (fun b =>
        uint32_strpack_bigendian_macro (2048 + 11 + if 196 < b then 16 else 0) ++
        uint32_strpack_bigendian_macro (if 196 = b then 2 else 0))
      = (List.range 256).flatMap (fun b =>
        uint32_strpack_bigendian_macro (if b ≤ 196 then 2059 else 2075) ++
        uint32_strpack_bigendian_macro (if b = 196 then 2 else 0)) := by
    apply flatMap_range_congr
    intro b _
    congr 2
    · by_cases h : b ≤ 196
      · rw [if_pos h, if_neg (by omega)]
      · rw [if_neg h, if_pos (by omega)]
    · by_cases h : b = 196
      · rw [if_pos h, if_pos h.symm]
      · rw [if_neg h, if_neg (fun h2 => h h2.symm)]
  rw [hh, e1, e2, ht, hhead, hr]
  rfl

theorem image_empty_value_built :
    mcdb_make_finish (mcdb_make_adds example_hash [([107, 99, 118, 102, 112, 114, 98], [])])
      = image_empty_value := by
  rw [build_single]
  have hh : u32 (example_hash [107, 99, 118, 102, 112, 114, 98]) = 1025684093 := by decide
  have e1 : (1025684093 : Nat) % 256 = 125 := by decide
  have e2 : (record_bytes [107, 99, 118, 102, 112, 114, 98] []).length = 15 := rfl
  have hr : record_bytes [107, 99, 118, 102, 112, 114, 98] []
      = uint32_strpack_bigendian_macro 7 ++ uint32_strpack_bigendian_macro 0 ++
        [107, 99, 118, 102, 112, 114, 98] ++ [] :=
    rfl
  have ht : table_bytes ([(0, 0), (0, 0)].set (1025684093 / 256 % 2) (1025684093, 2048))
      = uint32_strpack_bigendian_macro 1025684093 ++ uint32_strpack_bigendian_macro 2048 ++
        uint32_strpack_bigendian_macro 0 ++ uint32_strpack_bigendian_macro 0 := by
    decide
  have hhead : (List.range 256).flatMap (fun b =>
        uint32_strpack_bigendian_macro (2048 + 15 + if 125 < b then 16 else 0) ++
        uint32_strpack_bigendian_macro (if 125 = b then 2 else 0))
      = (List.range 256).flatMap (fun b =>
        uint32_strpack_bigendian_macro (if b ≤ 125 then 2063 else 2079) ++
        uint32_strpack_bigendian_macro (if b = 125 then 2 else 0)) := by
    apply flatMap_range_congr
    intro b _
    congr 2
    · by_cases h : b ≤ 125
      · rw [if_pos h, if_neg (by omega)]
      · rw [if_neg h, if_pos (by omega)]
    · by_cases h : b = 125
      · rw [if_pos h, if_pos h.symm]
      · rw [if_neg h, if_neg (fun h2 => h h2.symm)]
  rw [hh, e1, e2, ht, hhead, hr]
  rfl

theorem image_key_header_built :
    mcdb_make_finish (mcdb_make_adds example_hash [([255, 255, 255, 248, 0, 0, 0, 0], [61, 49])])
      = image_key_header := by
  rw [build_single]
  have hh : u32 (example_hash [255, 255, 255, 248, 0, 0, 0, 0]) = 2578988738 := by decide
  have e1 : (2578988738 : Nat) % 256 = 194 := by decide
  have e2 : (record_bytes [255, 255, 255, 248, 0, 0, 0, 0] [61, 49]).length = 18 := rfl
  have hr : record_bytes [255, 255, 255, 248, 0, 0, 0, 0] [61, 49]
      = uint32_strpack_bigendian_macro 8 ++ uint32_strpack_bigendian_macro 2 ++
        [255, 255, 255, 248, 0, 0, 0, 0] ++ [61, 49] :=
    rfl
  have ht : table_bytes ([(0, 0), (0, 0)].set (2578988738 / 256 % 2) (2578988738, 2048))
      = uint32_strpack_bigendian_macro 2578988738 ++ uint32_strpack_bigendian_macro 2048 ++
        uint32_strpack_bigendian_macro 0 ++ uint32_strpack_bigendian_macro 0 := by
    decide
  have hhead : (List.range 256).flatMap (fun b =>
        uint32_strpack_bigendian_macro (2048 + 18 + if 194 < b then 16 else 0) ++
        uint32_strpack_bigendian_macro (if 194 = b then 2 else 0))
      = (List.range 256).flatMap (fun b =>
        uint32_strpack_bigendian_macro (if b ≤ 194 then 2066 else 2082) ++
        uint32_strpack_bigendian_macro (if b = 194 then 2 else 0)) := by
    apply flatMap_range_congr
    intro b _
    congr 2
    · by_cases h : b ≤ 194
      · rw [if_pos h, if_neg (by omega)]
      · rw [if_neg h, if_pos (by omega)]
    · by_cases h : b = 194
      · rw [if_pos h, if_pos h.symm]
      · rw [if_neg h, if_neg (fun h2 => h h2.symm)]
  rw [hh, e1, e2, ht, hhead, hr]
  rfl

set_option maxRecDepth 1000000 in
theorem image_empty_value_reads :
    image_empty_value.length = 2079 ∧
    mcdb_uint32_unpack_bigendian_macro image_empty_value 0 = some 2063 ∧
    mcdb_uint32_unpack_bigendian_macro image_empty_value 2048 = some 7 ∧
    mcdb_uint32_unpack_bigendian_macro image_empty_value 2052 = some 0 ∧
    image_empty_value[2063]? = some 61 := by
  decide!

set_option maxRecDepth 1000000 in
theorem image_key_header_reads :
    image_key_header.length = 2082 ∧
    mcdb_uint32_unpack_bigendian_macro image_key_header 0 = some 2066 ∧
    mcdb_uint32_unpack_bigendian_macro image_key_header 2056 = some 4294967288 ∧
    mcdb_uint32_unpack_bigendian_macro image_key_header 2060 = some 0 ∧
    image_key_header[2056]? = some 255 := by
  decide!

set_option maxRecDepth 1000000 in
theorem image_wrap_head_reads :
    image_wrap_head.length = 2048 ∧
    mcdb_uint32_unpack_bigendian_macro image_wrap_head 0 = some 4294967288 ∧
    mcdb_uint32_unpack_bigendian_macro image_wrap_head 4 = some 0 ∧
    image_wrap_head[0]? = some 255 := by
  decide!

set_option maxRecDepth 1000000 in
theorem image_bad_head_reads :
    image_bad_head.length = 2048 ∧
    mcdb_uint32_unpack_bigendian_macro image_bad_head 0 = some 0 ∧
    mcdb_uint32_unpack_bigendian_macro image_bad_head 4 = some 1 ∧
    image_bad_head[8]? = some 61 ∧
    image_bad_head.drop 8 = [61] ++ List.replicate 2039 0 := by
  decide!

theorem one_record_wellformed : WellFormed image_one_record [([97], [61, 49])] := by
  rw [← image_one_record_built]
  apply build_wellformed
  rw [image_one_record_built, image_one_record_reads.1]
  decide

theorem empty_value_wellformed :
    WellFormed image_empty_value [([107, 99, 118, 102, 112, 114, 98], [])] := by
  rw [← image_empty_value_built]
  apply build_wellformed
  rw [image_empty_value_built, image_empty_value_reads.1]
  decide

theorem key_header_wellformed :
    WellFormed image_key_header [([255, 255, 255, 248, 0, 0, 0, 0], [61, 49])] := by
  rw [← image_key_header_built]
  apply build_wellformed
  rw [image_key_header_built, image_key_header_reads.1]
  decide

theorem after_setent_ptr (img : Bytes) (d : nss_dbtype) :
    ((after_setent img d).nss_mcdb_mmap_st d).ptr = some img :=
  (setent_fresh img d).2.2

/-! ### One iteration of the loop on any file -/

theorem loop_tagged (vinfo : _nss_vinfo) (h : nss_dbtype) (img : Bytes) (eod fuel : Nat)
    (m : mcdb) (G : Globals) (klen dlen : Nat) (hlt : m.hpos < eod)
    (hk : mcdb_uint32_unpack_bigendian_macro img m.hpos = some klen)
    (hd : mcdb_uint32_unpack_bigendian_macro img (m.hpos + 4) = some dlen)
    (htag : img[m.hpos + u32 (8 + klen)]? = some 61) :
    _nss_mcdb_getent_loop vinfo h img eod (fuel + 1) m G
      = deliver vinfo h img
          { m with dlen := dlen, kpos := u32 (m.hpos + 8), dpos := u32 (u32 (m.hpos + 8) + klen),
                   hpos := u32 (u32 (u32 (m.hpos + 8) + klen) + dlen) } G := by
  rw [_nss_mcdb_getent_loop, if_pos hlt]
  simp only [hk, hd, htag, if_true]
  rfl

theorem loop_untagged (vinfo : _nss_vinfo) (h : nss_dbtype) (img : Bytes) (eod fuel : Nat)
    (m : mcdb) (G : Globals) (klen dlen c : Nat) (hlt : m.hpos < eod)
    (hk : mcdb_uint32_unpack_bigendian_macro img m.hpos = some klen)
    (hd : mcdb_uint32_unpack_bigendian_macro img (m.hpos + 4) = some dlen)
    (htag : img[m.hpos + u32 (8 + klen)]? = some c) (hc : c ≠ 61) :
    _nss_mcdb_getent_loop vinfo h img eod (fuel + 1) m G
      = _nss_mcdb_getent_loop vinfo h img eod fuel
          { m with dlen := dlen, kpos := u32 (m.hpos + 8), dpos := u32 (u32 (m.hpos + 8) + klen),
                   hpos := u32 (u32 (u32 (m.hpos + 8) + klen) + dlen) } G := by
  rw [_nss_mcdb_getent_loop, if_pos hlt]
  simp only [hk, hd, htag, hc, if_false]

theorem loop_tag_fault (vinfo : _nss_vinfo) (h : nss_dbtype) (img : Bytes) (eod fuel : Nat)
    (m : mcdb) (G : Globals) (klen dlen : Nat) (hlt : m.hpos < eod)
    (hk : mcdb_uint32_unpack_bigendian_macro img m.hpos = some klen)
    (hd : mcdb_uint32_unpack_bigendian_macro img (m.hpos + 4) = some dlen)
    (htag : img[m.hpos + u32 (8 + klen)]? = none) :
    _nss_mcdb_getent_loop vinfo h img eod (fuel + 1) m G = .fault := by
  rw [_nss_mcdb_getent_loop, if_pos hlt]
  simp only [hk, hd, htag]

theorem loop_header_fault (vinfo : _nss_vinfo) (h : nss_dbtype) (img : Bytes) (eod fuel : Nat)
    (m : mcdb) (G : Globals) (hlt : m.hpos < eod)
    (hk : mcdb_uint32_unpack_bigendian_macro img m.hpos = none ∨
      mcdb_uint32_unpack_bigendian_macro img (m.hpos + 4) = none) :
    _nss_mcdb_getent_loop vinfo h img eod (fuel + 1) m G = .fault := by
  rw [_nss_mcdb_getent_loop, if_pos hlt]
  rcases hk with hk | hk
  · simp only [hk]
  · cases h1 : mcdb_uint32_unpack_bigendian_macro img m.hpos <;> simp only [hk, h1]

/-- A header whose lengths add up to 0 with the 8 in 32 bits and whose first
byte is not `=` is visited again and again. -/
theorem loop_stuck (vinfo : _nss_vinfo) (h : nss_dbtype) (img : Bytes) (eod p c : Nat)
    (G : Globals) (hlt : p < eod) (hp : p + 8 < 4294967296)
    (hk : mcdb_uint32_unpack_bigendian_macro img p = some 4294967288)
    (hd : mcdb_uint32_unpack_bigendian_macro img (p + 4) = some 0)
    (htag : img[p]? = some c) (hc : c ≠ 61) :
    ∀ (fuel : Nat) (m : mcdb), m.hpos = p →
      _nss_mcdb_getent_loop vinfo h img eod fuel m G = .nofuel := by
  intro fuel
  induction fuel with
  | zero => intro m _; rfl
  | succ fuel ih =>
    intro m hm
    have e1 : u32 (8 + 4294967288) = 0 := by decide
    have e2 : u32 (u32 (u32 (p + 8) + 4294967288) + 0) = p := by unfold u32; omega
    rw [loop_untagged vinfo h img eod fuel m G 4294967288 0 c (by rw [hm]; exact hlt)
      (by rw [hm]; exact hk) (by rw [hm]; exact hd) (by rw [hm, e1]; exact htag) hc]
    apply ih
    show u32 (u32 (u32 (m.hpos + 8) + 4294967288) + 0) = p
    rw [hm, e2]

/-! ### `_nss_mcdb_getent` on a well-formed file, cursor at a record start -/

theorem getent_wf {img : Bytes} {recs : List (Bytes × Bytes)} (wf : WellFormed img recs)
    (fuel : Nat) (env : Env) (G : Globals) (m : mcdb) (d h : nss_dbtype) (vinfo : _nss_vinfo)
    (hmap : m.map = some h) (hptr : (G.nss_mcdb_mmap_st h).ptr = some img) :
    _nss_mcdb_getent fuel env G m d vinfo
      = _nss_mcdb_getent_loop vinfo h img
          (u32 (2048 + (stream_bytes recs).length + 4294967296 - 7)) fuel m G :=
  getent_mapped fuel env G m d h vinfo img _ hmap hptr wf.word0

theorem deliver_ne_nofuel (vinfo : _nss_vinfo) (h : nss_dbtype) (map : Bytes) (m : mcdb)
    (G : Globals) : deliver vinfo h map m G ≠ .nofuel := by
  unfold deliver
  cases vinfo.decode (some map) m none vinfo.buflen with
  | none => simp
  | some p => simp

/-- C17: reads of `_nss_mcdb_getent` on a well-formed file stay inside the
file. The four bytes of the first head-table word are inside it; for every
record `j` the 8 header bytes at its start lie inside the record stream, which
lies inside the file, and the tag byte at offset `8 + klen` from its start lies
at an offset below the length of the file; whenever the guard `hpos < eod`
holds, with `eod` the end of the stream minus 7 in 32 bits, the 8 bytes from
`hpos` on lie inside the record stream; and a call with the cursor at the start
of a record, given fuel for the records that remain, does not run out of fuel
and makes no invalid access of its own: it faults only if the decoder, handed a
record, does. -/
theorem getent_reads_in_bounds (img : Bytes) (recs : List (Bytes × Bytes))
    (wf : WellFormed img recs) :
    3 < img.length ∧
    2048 + (stream_bytes recs).length ≤ img.length ∧
    (∀ j, j < recs.length →
      2048 ≤ record_start recs j ∧
      record_start recs j + 8 ≤ 2048 + (stream_bytes recs).length ∧
      record_start recs j + 8 + rec_klen recs j < img.length) ∧
    (∀ hpos, hpos < u32 (2048 + (stream_bytes recs).length + 4294967296 - 7) →
      hpos + 8 ≤ 2048 + (stream_bytes recs).length) ∧
    ∀ (env : Env) (G : Globals) (m : mcdb) (d h : nss_dbtype) (vinfo : _nss_vinfo) (i : Nat),
      i ≤ recs.length → m.map = some h → (G.nss_mcdb_mmap_st h).ptr = some img →
      m.hpos = record_start recs i → ∀ fuel,
        _nss_mcdb_getent (fuel + (recs.length - i) + 1) env G m d vinfo ≠ .nofuel ∧
        (_nss_mcdb_getent (fuel + (recs.length - i) + 1) env G m d vinfo = .fault →
          ∃ j, i ≤ j ∧ j < recs.length ∧
            vinfo.decode (some img) (cursor_past m recs j) none vinfo.buflen = none) := by
  have hsize := wf.size
  have hlen : 2048 + (stream_bytes recs).length ≤ img.length := by
    obtain ⟨head, tables, hh, himg, ht⟩ := wf.layout
    rw [himg, List.length_append, List.length_append, hh]
    omega
  refine ⟨by omega, hlen, ?_, ?_, ?_⟩
  · intro j hj
    obtain ⟨-, -, htag, hle, -, -⟩ := wf_reads wf j hj
    have hs := record_start_succ recs j hj
    refine ⟨by unfold record_start; omega, by omega, htag⟩
  · intro hpos hlt
    rw [wf_eod wf] at hlt
    omega
  · intro env G m d h vinfo i hi hmap hptr hpos fuel
    rw [getent_wf wf _ env G m d h vinfo hmap hptr]
    rcases wf_walk wf vinfo h G (recs.length - i) i m (by omega) hpos fuel with
      ⟨-, r, hr, -⟩ | ⟨j, hj1, hj2, -, -, hj5⟩
    · rw [hr]
      exact ⟨by simp, by simp⟩
    · rw [hj5]
      refine ⟨deliver_ne_nofuel _ _ _ _ _, ?_⟩
      intro hf
      refine ⟨j, hj1, hj2, ?_⟩
      unfold deliver at hf
      cases hdec : vinfo.decode (some img) (cursor_past m recs j) none vinfo.buflen with
      | none => rfl
      | some p => rw [hdec] at hf; simp at hf

/-- C18: one call of `_nss_mcdb_getent` on a well-formed file with the cursor
at the start of record `i`, given fuel for the records that remain. If `j` is
the first record from `i` on whose byte at offset `8 + klen` is `=`, the
decoder is called with `kpos = start(j) + 8`, `dpos = kpos + klen(j)`,
`dlen = dlen(j)` and `hpos` at the start of record `j + 1`, and the call
returns the status of the decoder with that cursor. If there is no such record
the call returns `NSS_STATUS_NOTFOUND` with `hpos` at the end of the record
stream, no store and no event: the decoder is not called. -/
theorem getent_delivers_first_tagged_record (img : Bytes) (recs : List (Bytes × Bytes))
    (wf : WellFormed img recs) (env : Env) (G : Globals) (m : mcdb) (d h : nss_dbtype)
    (vinfo : _nss_vinfo) (i : Nat) (hi : i ≤ recs.length) (hmap : m.map = some h)
    (hptr : (G.nss_mcdb_mmap_st h).ptr = some img) (hpos : m.hpos = record_start recs i) :
    (∀ j, i ≤ j → j < recs.length → tag_byte img recs j = some 61 →
      (∀ j', i ≤ j' → j' < j → tag_byte img recs j' ≠ some 61) →
      ∀ fuel st w,
        vinfo.decode (some img)
          { m with dlen := rec_dlen recs j, kpos := record_start recs j + 8,
                   dpos := record_start recs j + 8 + rec_klen recs j,
                   hpos := record_start recs (j + 1) } none vinfo.buflen = some (st, w) →
        _nss_mcdb_getent (fuel + (recs.length - i) + 1) env G m d vinfo
          = .ret { status := st,
                   m := { m with dlen := rec_dlen recs j, kpos := record_start recs j + 8,
                                 dpos := record_start recs j + 8 + rec_klen recs j,
                                 hpos := record_start recs (j + 1) },
                   writes := w,
                   G := G.emit (.decode h (record_start recs j + 8)
                     (record_start recs j + 8 + rec_klen recs j) (rec_dlen recs j)) }) ∧
    ((∀ j, i ≤ j → j < recs.length → tag_byte img recs j ≠ some 61) →
      ∀ fuel, ∃ r,
        _nss_mcdb_getent (fuel + (recs.length - i) + 1) env G m d vinfo = .ret r ∧
        r.status = NSS_STATUS_NOTFOUND ∧
        r.m.hpos = 2048 + (stream_bytes recs).length ∧
        r.writes = [] ∧ r.G = G) := by
  constructor
  · intro j hj1 hj2 hj3 hj4 fuel st w hdec
    rw [getent_wf wf _ env G m d h vinfo hmap hptr]
    rcases wf_walk wf vinfo h G (recs.length - i) i m (by omega) hpos fuel with
      ⟨hall, -⟩ | ⟨j2, h1, h2, h3, h4, h5⟩
    · exact absurd hj3 (hall j hj1 hj2)
    · have hjj : j2 = j := by
        rcases Nat.lt_trichotomy j2 j with hlt | heq | hgt
        · exact absurd h3 (hj4 j2 h1 hlt)
        · exact heq
        · exact absurd hj3 (h4 j hj1 hgt)
      subst hjj
      rw [h5]
      unfold deliver cursor_past
      rw [hdec]
  · intro hall fuel
    rw [getent_wf wf _ env G m d h vinfo hmap hptr]
    rcases wf_walk wf vinfo h G (recs.length - i) i m (by omega) hpos fuel with
      ⟨-, r, hr, h1, h2, h3, h4, h5⟩ | ⟨j, h1, h2, h3, -, -⟩
    · exact ⟨r, hr, h1, by rw [h2, record_start_end], h4, h5⟩
    · exact absurd h3 (hall j h1 h2)

theorem getent_reads_in_bounds_witness :
    WellFormed image_one_record [([97], [61, 49])] ∧
    record_start [([97], [61, 49])] 0 + 8 + rec_klen [([97], [61, 49])] 0
      < image_one_record.length ∧
    _nss_mcdb_getent (0 + ([(([97] : Bytes), ([61, 49] : Bytes))].length - 0) + 1)
        (Env.ok image_one_record) (after_setent image_one_record NSS_DBTYPE_PASSWD)
        (cursor_at NSS_DBTYPE_PASSWD 2048) NSS_DBTYPE_PASSWD
        { decode := _nss_files_decode_buf, buflen := 16 } ≠ .nofuel :=
  ⟨one_record_wellformed,
    ((getent_reads_in_bounds image_one_record [([97], [61, 49])]
      one_record_wellformed).2.2.1 0 (by decide)).2.2,
    ((getent_reads_in_bounds image_one_record [([97], [61, 49])]
      one_record_wellformed).2.2.2.2 (Env.ok image_one_record)
      (after_setent image_one_record NSS_DBTYPE_PASSWD) (cursor_at NSS_DBTYPE_PASSWD 2048)
      NSS_DBTYPE_PASSWD NSS_DBTYPE_PASSWD { decode := _nss_files_decode_buf, buflen := 16 }
      0 (Nat.zero_le _) rfl (after_setent_ptr _ _) rfl 0).1⟩

/-! ### Inconsistent files -/

/-- C14 (amended): `_nss_mcdb_getent` makes no check of the file.
Whatever the first head-table word `w0` is, `eod` is `w0 - 7` in 32 bits; when
`hpos < eod` and the 8 bytes at `hpos` and the byte at offset `8 + klen` (in 32
bits) from `hpos` are inside the mapping, the decoder is called exactly when
that byte is `=`, with `kpos`, `dpos`, `dlen` and `hpos` computed from the
header in 32 bits, and its status is returned; otherwise the loop goes on with
that `hpos`. The call stops without the decoder and without a status only when
a byte it reads is outside the mapping: an invalid access. -/
theorem getent_makes_no_consistency_check (fuel : Nat) (env : Env) (G : Globals) (m : mcdb)
    (d h : nss_dbtype) (vinfo : _nss_vinfo) (img : Bytes) (w0 : Nat)
    (hmap : m.map = some h) (hptr : (G.nss_mcdb_mmap_st h).ptr = some img)
    (hw : mcdb_uint32_unpack_bigendian_aligned_macro img 0 = some w0)
    (hlt : m.hpos < u32 (w0 + 4294967296 - 7)) :
    (∀ klen dlen, mcdb_uint32_unpack_bigendian_macro img m.hpos = some klen →
      mcdb_uint32_unpack_bigendian_macro img (m.hpos + 4) = some dlen →
      (img[m.hpos + u32 (8 + klen)]? = some 61 →
        ∀ st w, vinfo.decode (some img)
            { m with dlen := dlen, kpos := u32 (m.hpos + 8),
                     dpos := u32 (u32 (m.hpos + 8) + klen),
                     hpos := u32 (u32 (u32 (m.hpos + 8) + klen) + dlen) }
            none vinfo.buflen = some (st, w) →
          _nss_mcdb_getent (fuel + 1) env G m d vinfo
            = .ret { status := st,
                     m := { m with dlen := dlen, kpos := u32 (m.hpos + 8),
                                   dpos := u32 (u32 (m.hpos + 8) + klen),
                                   hpos := u32 (u32 (u32 (m.hpos + 8) + klen) + dlen) },
                     writes := w,
                     G := G.emit (.decode h (u32 (m.hpos + 8)) (u32 (u32 (m.hpos + 8) + klen))
                       dlen) }) ∧
      (∀ c, img[m.hpos + u32 (8 + klen)]? = some c → c ≠ 61 →
        _nss_mcdb_getent (fuel + 1) env G m d vinfo
          = _nss_mcdb_getent_loop vinfo h img (u32 (w0 + 4294967296 - 7)) fuel
              { m with dlen := dlen, kpos := u32 (m.hpos + 8),
                       dpos := u32 (u32 (m.hpos + 8) + klen),
                       hpos := u32 (u32 (u32 (m.hpos + 8) + klen) + dlen) } G) ∧
      (img[m.hpos + u32 (8 + klen)]? = none →
        _nss_mcdb_getent (fuel + 1) env G m d vinfo = .fault)) ∧
    ( mcdb_uint32_unpack_bigendian_macro img m.hpos = none ∨
      mcdb_uint32_unpack_bigendian_macro img (m.hpos + 4) = none →
      _nss_mcdb_getent (fuel + 1) env G m d vinfo = .fault) := by
  rw [getent_mapped (fuel + 1) env G m d h vinfo img w0 hmap hptr hw]
  refine ⟨fun klen dlen hk hd => ⟨?_, ?_, ?_⟩, ?_⟩
  · intro htag st w hdec
    rw [loop_tagged vinfo h img _ fuel m G klen dlen hlt hk hd htag]
    unfold deliver
    rw [hdec]
  · intro c htag hc
    exact loop_untagged vinfo h img _ fuel m G klen dlen c hlt hk hd htag hc
  · intro htag
    exact loop_tag_fault vinfo h img _ fuel m G klen dlen hlt hk hd htag
  · intro hk
    exact loop_header_fault vinfo h img _ fuel m G hlt hk

theorem decode_buf_bad_head :
    _nss_files_decode_buf (some image_bad_head)
      { map := some NSS_DBTYPE_PASSWD, loop := 0, hslots := 0, kpos := 8, hpos := 9, dpos := 8,
        dlen := 1, khash := 0 } none 16
      = some (NSS_STATUS_SUCCESS, [(0, 61), (1, 0)]) := by
  have h := image_bad_head_reads.2.2.2.2
  have := decode_buf_value image_bad_head [61] (List.replicate 2039 0)
    { map := some NSS_DBTYPE_PASSWD, loop := 0, hslots := 0, kpos := 8, hpos := 9, dpos := 8,
      dlen := 1, khash := 0 } none 16 h rfl (by decide)
  rw [this]
  rfl

/-- C14 (as stated) fails, an inconsistent file on which the call succeeds: the
first word of the head table of `image_bad_head` is 0, below 7 and below 2048,
so the record stream it declares is empty and the header at the cursor lies
beyond its end;
after `_nss_mcdb_setent` on a fresh cursor, `_nss_mcdb_getent` takes the first 8
bytes for a record header with `klen = 0` and `dlen = 1`, finds `=` at offset 8,
calls the decoder and returns `NSS_STATUS_SUCCESS`. -/
theorem getent_succeeds_on_inconsistent_file :
    image_bad_head.length = 2048 ∧
    mcdb_uint32_unpack_bigendian_aligned_macro image_bad_head 0 = some 0 ∧
    (_nss_mcdb_setent (Env.ok image_bad_head) Globals.init mcdb.zero NSS_DBTYPE_PASSWD).1
      = NSS_STATUS_SUCCESS ∧
    ∀ fuel,
      _nss_mcdb_getent (fuel + 1) (Env.ok image_bad_head)
        (_nss_mcdb_setent (Env.ok image_bad_head) Globals.init mcdb.zero NSS_DBTYPE_PASSWD).2.2
        (_nss_mcdb_setent (Env.ok image_bad_head) Globals.init mcdb.zero NSS_DBTYPE_PASSWD).2.1
        NSS_DBTYPE_PASSWD { decode := _nss_files_decode_buf, buflen := 16 }
      = .ret { status := NSS_STATUS_SUCCESS,
               m := { map := some NSS_DBTYPE_PASSWD, loop := 0, hslots := 0, kpos := 8,
                      hpos := 9, dpos := 8, dlen := 1, khash := 0 },
               writes := [(0, 61), (1, 0)],
               G := (_nss_mcdb_setent (Env.ok image_bad_head) Globals.init mcdb.zero
                 NSS_DBTYPE_PASSWD).2.2.emit (.decode NSS_DBTYPE_PASSWD 8 8 1) } := by
  obtain ⟨h1, h2, h3, h4, h5⟩ := image_bad_head_reads
  obtain ⟨s1, s2, s3⟩ := setent_fresh image_bad_head NSS_DBTYPE_PASSWD
  refine ⟨h1, h2, s1, ?_⟩
  intro fuel
  generalize (_nss_mcdb_setent (Env.ok image_bad_head) Globals.init mcdb.zero
    NSS_DBTYPE_PASSWD).2.2 = G1 at s3 ⊢
  rw [s2]
  have hdec := decode_buf_bad_head
  clear h1 h5 s1 s2
  simp [_nss_mcdb_getent, _nss_mcdb_getent_loop, mcdb.zero, s3,
    mcdb_uint32_unpack_bigendian_aligned_macro, h2, h3, h4, u32, hdec]

theorem getent_makes_no_consistency_check_witness :
    mcdb_uint32_unpack_bigendian_aligned_macro [0, 0, 0, 0, 0, 0, 0, 1, 61] 0 = some 0 ∧
    _nss_mcdb_getent 1 (Env.ok [0, 0, 0, 0, 0, 0, 0, 1, 61])
        (after_setent [0, 0, 0, 0, 0, 0, 0, 1, 61] NSS_DBTYPE_PASSWD)
        { map := some NSS_DBTYPE_PASSWD, loop := 0, hslots := 0, kpos := 0, hpos := 0, dpos := 0,
          dlen := 0, khash := 0 }
        NSS_DBTYPE_PASSWD { decode := _nss_files_decode_buf, buflen := 16 }
      = .ret { status := NSS_STATUS_SUCCESS,
               m := { map := some NSS_DBTYPE_PASSWD, loop := 0, hslots := 0, kpos := 8,
                      hpos := 9, dpos := 8, dlen := 1, khash := 0 },
               writes := [(0, 61), (1, 0)],
               G := (after_setent [0, 0, 0, 0, 0, 0, 0, 1, 61] NSS_DBTYPE_PASSWD).emit
                 (.decode NSS_DBTYPE_PASSWD 8 8 1) } :=
  ⟨rfl,
    ((getent_makes_no_consistency_check 0 (Env.ok [0, 0, 0, 0, 0, 0, 0, 1, 61])
      (after_setent [0, 0, 0, 0, 0, 0, 0, 1, 61] NSS_DBTYPE_PASSWD)
      { map := some NSS_DBTYPE_PASSWD, loop := 0, hslots := 0, kpos := 0, hpos := 0, dpos := 0,
        dlen := 0, khash := 0 }
      NSS_DBTYPE_PASSWD NSS_DBTYPE_PASSWD { decode := _nss_files_decode_buf, buflen := 16 }
      [0, 0, 0, 0, 0, 0, 0, 1, 61] 0 rfl rfl rfl (by decide)).1 0 1 rfl rfl).1 rfl
      NSS_STATUS_SUCCESS [(0, 61), (1, 0)] rfl⟩

/-! ### Termination of the loop -/

/-- C15 (amended): on a well-formed file with the cursor at the
start of record `i`, the loop of `_nss_mcdb_getent` ends within one iteration
per record that remains: given that much fuel it does not run out of it. Each
iteration, with the cursor at the start of a record `i`, hands that record to
the decoder or goes on with `hpos` increased by `8 + klen + dlen`, which is at
least 8 and does not wrap in 32 bits. -/
theorem getent_loop_terminates_on_wellformed (img : Bytes) (recs : List (Bytes × Bytes))
    (wf : WellFormed img recs) (vinfo : _nss_vinfo) (h : nss_dbtype) (G : Globals) (m : mcdb)
    (i : Nat) (hi : i ≤ recs.length) (hpos : m.hpos = record_start recs i) :
    (∀ fuel, _nss_mcdb_getent_loop vinfo h img
        (u32 (2048 + (stream_bytes recs).length + 4294967296 - 7))
        (fuel + (recs.length - i) + 1) m G ≠ .nofuel) ∧
    (i < recs.length →
      (∀ fuel, _nss_mcdb_getent_loop vinfo h img
          (u32 (2048 + (stream_bytes recs).length + 4294967296 - 7)) (fuel + 1) m G
        = if img[m.hpos + 8 + rec_klen recs i]? = some 61 then
            deliver vinfo h img (cursor_past m recs i) G
          else _nss_mcdb_getent_loop vinfo h img
            (u32 (2048 + (stream_bytes recs).length + 4294967296 - 7)) fuel
            (cursor_past m recs i) G) ∧
      (cursor_past m recs i).hpos = m.hpos + (8 + rec_klen recs i + rec_dlen recs i) ∧
      m.hpos + 8 ≤ (cursor_past m recs i).hpos ∧
      (cursor_past m recs i).hpos < 4294967296) := by
  constructor
  · intro fuel
    rcases wf_walk wf vinfo h G (recs.length - i) i m (by omega) hpos fuel with
      ⟨-, r, hr, -⟩ | ⟨j, -, -, -, -, hj5⟩
    · rw [hr]; simp
    · rw [hj5]; exact deliver_ne_nofuel _ _ _ _ _
  · intro hlt
    have hs := record_start_succ recs i hlt
    have hle := record_start_le recs (i + 1)
    have hend := (wf_reads wf i hlt).2.2.2.2.1
    have hsize := wf.size
    refine ⟨?_, ?_, ?_, ?_⟩
    · intro fuel
      rw [wf_step wf vinfo h G i hlt m hpos fuel, hpos]
      rfl
    · show record_start recs (i + 1) = _
      rw [hpos, hs]; omega
    · show _ ≤ record_start recs (i + 1)
      rw [hpos, hs]; omega
    · show record_start recs (i + 1) < _
      omega

set_option maxRecDepth 1000000 in
theorem getent_loop_terminates_on_wellformed_witness :
    WellFormed image_one_record [([97], [61, 49])] ∧
    ∀ fuel, _nss_mcdb_getent_loop { decode := _nss_files_decode_buf, buflen := 16 }
      NSS_DBTYPE_PASSWD image_one_record
      (u32 (2048 + (stream_bytes [([97], [61, 49])]).length + 4294967296 - 7)) (fuel + 1 + 1)
      { map := some NSS_DBTYPE_PASSWD, loop := 0, hslots := 0, kpos := 0, hpos := 2048, dpos := 0,
        dlen := 0, khash := 0 }
      (after_setent image_one_record NSS_DBTYPE_PASSWD) ≠ .nofuel :=
  ⟨one_record_wellformed,
    (getent_loop_terminates_on_wellformed image_one_record [([97], [61, 49])]
      one_record_wellformed { decode := _nss_files_decode_buf, buflen := 16 } NSS_DBTYPE_PASSWD
      (after_setent image_one_record NSS_DBTYPE_PASSWD)
      { map := some NSS_DBTYPE_PASSWD, loop := 0, hslots := 0, kpos := 0, hpos := 2048, dpos := 0,
        dlen := 0, khash := 0 } 0 (by decide) rfl).1⟩

/-- C15 (as stated) fails, two runs that do not end. On the inconsistent file
`image_wrap_head`, after `_nss_mcdb_setent` on a fresh cursor, the header at `hpos = 0` has
`klen = 0xFFFFFFF8` and `dlen = 0`, so `8 + klen + dlen` is 0 in 32 bits, the
byte tested is the one at `hpos`, which is not `=`, and `hpos` stays 0: the
loop of `_nss_mcdb_getent` uses up every amount of fuel. On the well-formed
file `image_key_header` the same happens with the cursor at offset 2056, where
the key of its record starts. -/
theorem getent_loop_need_not_terminate :
    (∀ fuel,
      _nss_mcdb_getent fuel (Env.ok image_wrap_head)
        (_nss_mcdb_setent (Env.ok image_wrap_head) Globals.init mcdb.zero NSS_DBTYPE_PASSWD).2.2
        (_nss_mcdb_setent (Env.ok image_wrap_head) Globals.init mcdb.zero NSS_DBTYPE_PASSWD).2.1
        NSS_DBTYPE_PASSWD { decode := _nss_files_decode_buf, buflen := 16 }
      = .nofuel) ∧
    WellFormed image_key_header [([255, 255, 255, 248, 0, 0, 0, 0], [61, 49])] ∧
    ∀ fuel,
      _nss_mcdb_getent fuel (Env.ok image_key_header)
        (after_setent image_key_header NSS_DBTYPE_PASSWD)
        { map := some NSS_DBTYPE_PASSWD, loop := 0, hslots := 0, kpos := 0, hpos := 2056,
          dpos := 0, dlen := 0, khash := 0 }
        NSS_DBTYPE_PASSWD { decode := _nss_files_decode_buf, buflen := 16 }
      = .nofuel := by
  obtain ⟨a1, a2, a3, a4⟩ := image_wrap_head_reads
  obtain ⟨b1, b2, b3, b4, b5⟩ := image_key_header_reads
  obtain ⟨s1, s2, s3⟩ := setent_fresh image_wrap_head NSS_DBTYPE_PASSWD
  refine ⟨?_, key_header_wellformed, ?_⟩
  · intro fuel
    rw [s2, getent_mapped _ _ _ _ _ NSS_DBTYPE_PASSWD _ image_wrap_head 4294967288 rfl s3 a2]
    exact loop_stuck _ _ _ _ 0 255 _ (by unfold u32; omega) (by omega) a2 a3 a4 (by decide)
      fuel _ rfl
  · intro fuel
    rw [getent_mapped _ _ _ _ _ NSS_DBTYPE_PASSWD _ image_key_header 2066 rfl
      (after_setent_ptr _ _) b2]
    exact loop_stuck _ _ _ _ 2056 255 _ (by unfold u32; omega) (by omega) b3 b4 b5 (by decide)
      fuel _ rfl

set_option maxRecDepth 1000000 in
theorem image_one_record_value :
    image_one_record.drop 2057 = [61, 49] ++ image_one_record.drop 2059 := by
  decide!

theorem decode_buf_one_record :
    _nss_files_decode_buf (some image_one_record)
      { map := some NSS_DBTYPE_PASSWD, loop := 0, hslots := 0, kpos := 2056, hpos := 2059,
        dpos := 2057, dlen := 2, khash := 0 } none 16
      = some (NSS_STATUS_SUCCESS, [(0, 61), (1, 49), (2, 0)]) := by
  have := decode_buf_value image_one_record [61, 49] (image_one_record.drop 2059)
    { map := some NSS_DBTYPE_PASSWD, loop := 0, hslots := 0, kpos := 2056, hpos := 2059,
      dpos := 2057, dlen := 2, khash := 0 } none 16 image_one_record_value rfl (by decide)
  rw [this]
  rfl


theorem getent_delivers_first_tagged_record_witness :
    WellFormed image_one_record [([97], [61, 49])] ∧
    tag_byte image_one_record [([97], [61, 49])] 0 = some 61 ∧
    _nss_mcdb_getent 2 (Env.ok image_one_record)
        (after_setent image_one_record NSS_DBTYPE_PASSWD) (cursor_at NSS_DBTYPE_PASSWD 2048)
        NSS_DBTYPE_PASSWD { decode := _nss_files_decode_buf, buflen := 16 }
      = .ret { status := NSS_STATUS_SUCCESS,
               m := { map := some NSS_DBTYPE_PASSWD, loop := 0, hslots := 0, kpos := 2056,
                      hpos := 2059, dpos := 2057, dlen := 2, khash := 0 },
               writes := [(0, 61), (1, 49), (2, 0)],
               G := (after_setent image_one_record NSS_DBTYPE_PASSWD).emit
                 (.decode NSS_DBTYPE_PASSWD 2056 2057 2) } := by
  have htag : tag_byte image_one_record [([97], [61, 49])] 0 = some 61 :=
    image_one_record_reads.2.2.2.2.2.2
  have k := (getent_delivers_first_tagged_record image_one_record [([97], [61, 49])]
      one_record_wellformed (Env.ok image_one_record)
      (after_setent image_one_record NSS_DBTYPE_PASSWD) (cursor_at NSS_DBTYPE_PASSWD 2048)
      NSS_DBTYPE_PASSWD NSS_DBTYPE_PASSWD { decode := _nss_files_decode_buf, buflen := 16 }
      0 (Nat.zero_le _) rfl (after_setent_ptr _ _) rfl).1 0 (Nat.le_refl _) (by decide)
      htag (fun j' h1 h2 => absurd h1 (by omega)) 0 NSS_STATUS_SUCCESS [(0, 61), (1, 49), (2, 0)]
  have e1 : record_start [(([97] : Bytes), ([61, 49] : Bytes))] 0 = 2048 := rfl
  have e2 : record_start [(([97] : Bytes), ([61, 49] : Bytes))] (0 + 1) = 2059 := rfl
  have e3 : rec_klen [(([97] : Bytes), ([61, 49] : Bytes))] 0 = 1 := rfl
  have e4 : rec_dlen [(([97] : Bytes), ([61, 49] : Bytes))] 0 = 2 := rfl
  rw [e1, e2, e3, e4] at k
  dsimp only [cursor_at, Nat.reduceAdd, Nat.reduceSub, List.length] at k
  exact ⟨one_record_wellformed, htag, k decode_buf_one_record⟩

/-! ### The record handed to the decoder -/

/-- What holds of the record that is handed over: on a well-formed file with
the cursor at the start of record `i`, whatever `_nss_mcdb_getent` returns,
given fuel for the records that remain, either it is `NSS_STATUS_NOTFOUND` without any event, or
the decoder was called for a record `j` at or after `i` that has `=` at offset
`8 + klen` from its start. That byte is the first byte of the value region of
the record when `dlen >= 1`; nothing is asserted of `dlen`, and a record with
`dlen = 0` is handed over when the byte that follows it is `=`. -/
theorem delivered_record_has_tag_after_key (img : Bytes) (recs : List (Bytes × Bytes))
    (wf : WellFormed img recs) (env : Env) (G : Globals) (m : mcdb) (d h : nss_dbtype)
    (vinfo : _nss_vinfo) (i : Nat) (hi : i ≤ recs.length) (hmap : m.map = some h)
    (hptr : (G.nss_mcdb_mmap_st h).ptr = some img) (hpos : m.hpos = record_start recs i)
    (fuel : Nat) (r : GetentResult)
    (hr : _nss_mcdb_getent (fuel + (recs.length - i) + 1) env G m d vinfo = .ret r) :
    (r.status = NSS_STATUS_NOTFOUND ∧ r.G = G) ∨
    ∃ j, i ≤ j ∧ j < recs.length ∧
      r.G = G.emit (.decode h (record_start recs j + 8)
        (record_start recs j + 8 + rec_klen recs j) (rec_dlen recs j)) ∧
      r.m.dlen = rec_dlen recs j ∧
      img[record_start recs j + 8 + rec_klen recs j]? = some 61 ∧
      (1 ≤ rec_dlen recs j → (recs.getD j ([], [])).2.head? = some 61) := by
  rw [getent_wf wf _ env G m d h vinfo hmap hptr] at hr
  rcases wf_walk wf vinfo h G (recs.length - i) i m (by omega) hpos fuel with
    ⟨-, r2, hr2, h1, -, -, -, h5⟩ | ⟨j, hj1, hj2, hj3, -, hj5⟩
  · left
    rw [hr2] at hr
    cases hr
    exact ⟨h1, h5⟩
  · right
    rw [hj5] at hr
    unfold deliver at hr
    cases hdec : vinfo.decode (some img) (cursor_past m recs j) none vinfo.buflen with
    | none => rw [hdec] at hr; simp at hr
    | some p =>
      rw [hdec] at hr
      cases hr
      refine ⟨j, hj1, hj2, rfl, rfl, hj3, ?_⟩
      intro hd1
      rw [← (wf_reads wf j hj2).2.2.2.2.2 hd1]
      exact hj3

theorem getent_one_record_delivers :
    _nss_mcdb_getent 2 (Env.ok image_one_record)
        (after_setent image_one_record NSS_DBTYPE_PASSWD) (cursor_at NSS_DBTYPE_PASSWD 2048)
        NSS_DBTYPE_PASSWD { decode := _nss_files_decode_buf, buflen := 16 }
      = .ret (one_record_result (after_setent image_one_record NSS_DBTYPE_PASSWD)) := by
  obtain ⟨h1, h2, h3, h4, h5, h6, h7⟩ := image_one_record_reads
  have hptr := after_setent_ptr image_one_record NSS_DBTYPE_PASSWD
  generalize after_setent image_one_record NSS_DBTYPE_PASSWD = G1 at hptr ⊢
  have hdec := decode_buf_one_record
  clear h1 h3 h4
  simp [_nss_mcdb_getent, _nss_mcdb_getent_loop, cursor_at, one_record_result, hptr,
    mcdb_uint32_unpack_bigendian_aligned_macro, h2, h5, h6, h7, u32, hdec]

theorem delivered_record_has_tag_after_key_witness :
    WellFormed image_one_record [([97], [61, 49])] ∧
    _nss_mcdb_getent 2 (Env.ok image_one_record)
        (after_setent image_one_record NSS_DBTYPE_PASSWD) (cursor_at NSS_DBTYPE_PASSWD 2048)
        NSS_DBTYPE_PASSWD { decode := _nss_files_decode_buf, buflen := 16 }
      = .ret (one_record_result (after_setent image_one_record NSS_DBTYPE_PASSWD)) ∧
    (((one_record_result (after_setent image_one_record NSS_DBTYPE_PASSWD)).status
        = NSS_STATUS_NOTFOUND ∧
      (one_record_result (after_setent image_one_record NSS_DBTYPE_PASSWD)).G
        = after_setent image_one_record NSS_DBTYPE_PASSWD) ∨
      ∃ j, 0 ≤ j ∧ j < [(([97] : Bytes), ([61, 49] : Bytes))].length ∧
        (one_record_result (after_setent image_one_record NSS_DBTYPE_PASSWD)).G
          = (after_setent image_one_record NSS_DBTYPE_PASSWD).emit
            (.decode NSS_DBTYPE_PASSWD (record_start [([97], [61, 49])] j + 8)
              (record_start [([97], [61, 49])] j + 8 + rec_klen [([97], [61, 49])] j)
              (rec_dlen [([97], [61, 49])] j)) ∧
        (one_record_result (after_setent image_one_record NSS_DBTYPE_PASSWD)).m.dlen
          = rec_dlen [([97], [61, 49])] j ∧
        image_one_record[record_start [([97], [61, 49])] j + 8
          + rec_klen [([97], [61, 49])] j]? = some 61 ∧
        (1 ≤ rec_dlen [([97], [61, 49])] j →
          (([(([97] : Bytes), ([61, 49] : Bytes))].getD j ([], [])).2).head? = some 61)) :=
  ⟨one_record_wellformed, getent_one_record_delivers,
    delivered_record_has_tag_after_key image_one_record [([97], [61, 49])]
      one_record_wellformed (Env.ok image_one_record)
      (after_setent image_one_record NSS_DBTYPE_PASSWD) (cursor_at NSS_DBTYPE_PASSWD 2048)
      NSS_DBTYPE_PASSWD NSS_DBTYPE_PASSWD { decode := _nss_files_decode_buf, buflen := 16 }
      0 (Nat.zero_le _) rfl (after_setent_ptr _ _) rfl 0 _ getent_one_record_delivers⟩

/-- With the cursor at the start of a record whose value is empty, a state
that a traversal started at the record stream would reach: the file
`image_empty_value` is well-formed and holds one record, key `kcvfprb` and no
value bytes (`dlen = 0`); the byte at offset `8 + klen` from its start is the
first byte of the slot tables, the top byte `0x3D` of the hash stored in the
first slot, which is `=`, and `_nss_mcdb_getent` calls the decoder with
`dlen = 0` and returns its `NSS_STATUS_SUCCESS`. -/
theorem getent_delivers_record_with_empty_value :
    WellFormed image_empty_value [([107, 99, 118, 102, 112, 114, 98], [])] ∧
    mcdb_make_finish (mcdb_make_adds example_hash [([107, 99, 118, 102, 112, 114, 98], [])])
      = image_empty_value ∧
    rec_dlen [([107, 99, 118, 102, 112, 114, 98], [])] 0 = 0 ∧
    record_start [([107, 99, 118, 102, 112, 114, 98], [])] 0 = 2048 ∧
    record_start [([107, 99, 118, 102, 112, 114, 98], [])] 1 = 2063 ∧
    image_empty_value[2048 + 8 + 7]? = some 61 ∧
    ∀ fuel,
      _nss_mcdb_getent (fuel + 1) (Env.ok image_empty_value)
        (after_setent image_empty_value NSS_DBTYPE_PASSWD)
        { map := some NSS_DBTYPE_PASSWD, loop := 0, hslots := 0, kpos := 0, hpos := 2048,
          dpos := 0, dlen := 0, khash := 0 }
        NSS_DBTYPE_PASSWD { decode := _nss_files_decode_buf, buflen := 16 }
      = .ret { status := NSS_STATUS_SUCCESS,
               m := { map := some NSS_DBTYPE_PASSWD, loop := 0, hslots := 0, kpos := 2056,
                      hpos := 2063, dpos := 2063, dlen := 0, khash := 0 },
               writes := [(0, 0)],
               G := (after_setent image_empty_value NSS_DBTYPE_PASSWD).emit
                 (.decode NSS_DBTYPE_PASSWD 2056 2063 0) } := by
  obtain ⟨h1, h2, h3, h4, h5⟩ := image_empty_value_reads
  have hptr := after_setent_ptr image_empty_value NSS_DBTYPE_PASSWD
  refine ⟨empty_value_wellformed, image_empty_value_built, rfl, rfl, rfl, h5, ?_⟩
  intro fuel
  generalize after_setent image_empty_value NSS_DBTYPE_PASSWD = G1 at hptr ⊢
  have hdec : _nss_files_decode_buf (some image_empty_value)
      { map := some NSS_DBTYPE_PASSWD, loop := 0, hslots := 0, kpos := 2056, hpos := 2063,
        dpos := 2063, dlen := 0, khash := 0 } none 16 = some (NSS_STATUS_SUCCESS, [(0, 0)]) := by
    simp [_nss_files_decode_buf, mcdb_datalen, memcpy, stores_from]
  clear h1
  simp [_nss_mcdb_getent, _nss_mcdb_getent_loop, hptr,
    mcdb_uint32_unpack_bigendian_aligned_macro, h2, h3, h4, h5, u32, hdec]

/-! ## The test program `testzero` -/

theorem testzero_calls_succ (data : Bytes) (n : Nat) :
    testzero_calls data (n + 1)
      = ( uint32_strpack_bigendian_macro n, data) :: testzero_calls data n := by
  unfold testzero_calls
  rw [List.range_succ_eq_map, List.map_cons, List.map_map]
  congr 1
  apply List.map_congr_left
  intro i _
  simp only [Function.comp, Nat.add_sub_cancel]
  congr 2
  omega

theorem testzero_loop_spec (data : Bytes) (add_ok : Nat → Bool) :
    ∀ (loop : Nat) (calls : List (Bytes × Bytes)), loop < 4294967296 →
      (testzero_loop data add_ok loop calls).2 <+: calls ++ testzero_calls data loop ∧
      calls <+: (testzero_loop data add_ok loop calls).2 ∧
      ((∀ k, k < calls.length + loop → add_ok k = true) →
        testzero_loop data add_ok loop calls = (true, calls ++ testzero_calls data loop)) := by
  intro loop
  induction loop with
  | zero =>
    intro calls _
    simp [testzero_loop, testzero_calls]
  | succ loop ih =>
    intro calls hlt
    have hkey : ( uint32_strpack_bigendian_aligned_macro loop).take 4
        = uint32_strpack_bigendian_macro loop := by
      unfold uint32_strpack_bigendian_aligned_macro u32
      rw [Nat.mod_eq_of_lt (by omega)]
      rfl
    have hcons : calls ++ testzero_calls data (loop + 1)
        = (calls ++ [( uint32_strpack_bigendian_macro loop, data)]) ++ testzero_calls data loop := by
      rw [testzero_calls_succ, List.append_assoc]
      rfl
    obtain ⟨h1, h2, h3⟩ := ih (calls ++ [( uint32_strpack_bigendian_macro loop, data)]) (by omega)
    unfold testzero_loop
    simp only [hkey, List.take_length]
    by_cases hk : add_ok calls.length = true
    · simp only [hk, if_true]
      refine ⟨by rw [hcons]; exact h1, ?_, ?_⟩
      · exact (List.prefix_append _ _).trans h2
      · intro hall
        rw [hcons]
        apply h3
        intro k hk2
        apply hall
        simp only [List.length_append, List.length_singleton] at hk2
        omega
    · simp only [hk]
      refine ⟨?_, List.prefix_append _ _, ?_⟩
      · rw [hcons]
        exact List.prefix_append _ _
      · intro hall
        exact absurd (hall calls.length (by omega)) hk

theorem strpack_injective (a b : Nat) (ha : a < 4294967296) (hb : b < 4294967296)
    (h : uint32_strpack_bigendian_macro a = uint32_strpack_bigendian_macro b) : a = b := by
  have h1 := unpack_of_drop ( uint32_strpack_bigendian_macro a) [] 0 a ha (by simp)
  have h2 := unpack_of_drop ( uint32_strpack_bigendian_macro b) [] 0 b hb (by simp)
  rw [h, h2] at h1
  exact (Option.some.inj h1).symm

theorem testzero_calls_get (data : Bytes) (n j : Nat) :
    (testzero_calls data n)[j]?
      = if j < n then some ( uint32_strpack_bigendian_macro (n - 1 - j), data) else none := by
  unfold testzero_calls
  rw [List.getElem?_map]
  by_cases hj : j < n
  · rw [List.getElem?_range hj, if_pos hj]
    rfl
  · rw [List.getElem?_eq_none (by rw [List.length_range]; omega), if_neg hj]
    rfl

theorem testzero_calls_keys (data : Bytes) (n : Nat) (hn : n < 4294967296) :
    (testzero_calls data n).length = n ∧
    ((testzero_calls data n).map Prod.fst).Nodup ∧
    (∀ i, i < n → ∃ j, (testzero_calls data n)[j]? = some ( uint32_strpack_bigendian_macro i, data) ∧
      ∀ (j' : Nat), (∃ v : Bytes,
          (testzero_calls data n)[j']? = some ( uint32_strpack_bigendian_macro i, v)) →
        j' = j) ∧
    (∀ c ∈ testzero_calls data n, ∃ i, i < n ∧ c = ( uint32_strpack_bigendian_macro i, data)) := by
  have hmap : (testzero_calls data n).map Prod.fst
      = (List.range n).map fun i => uint32_strpack_bigendian_macro (n - 1 - i) := by
    unfold testzero_calls
    rw [List.map_map]
    rfl
  have hnd : ((testzero_calls data n).map Prod.fst).Nodup := by
    rw [hmap]
    apply List.Nodup.map_on _ (List.nodup_range n)
    intro a ha b hb hab
    rw [List.mem_range] at ha hb
    have := strpack_injective _ _ (by omega) (by omega) hab
    omega
  refine ⟨by unfold testzero_calls; rw [List.length_map, List.length_range], hnd, ?_, ?_⟩
  · intro i hi
    refine ⟨n - 1 - i, ?_, ?_⟩
    · rw [testzero_calls_get, if_pos (by omega)]
      congr 3
      omega
    · rintro j' ⟨v, hv⟩
      rw [testzero_calls_get] at hv
      by_cases hj : j' < n
      · rw [if_pos hj] at hv
        have h1 := congrArg Prod.fst (Option.some.inj hv)
        have := strpack_injective _ _ (by omega) (by omega) h1
        omega
      · rw [if_neg hj] at hv
        exact absurd hv (by simp)
  · intro c hc
    unfold testzero_calls at hc
    rw [List.mem_map] at hc
    obtain ⟨a, ha, rfl⟩ := hc
    rw [List.mem_range] at ha
    exact ⟨n - 1 - a, by omega, rfl⟩

theorem t_testzero_main_calls (env : TestzeroEnv) (argc n : Nat) (hargc : argc > 1)
    (hn : n < 4294967296) (hstart : env.mcdb_make_start = true) :
    (t_testzero_main env argc n).2 = (testzero_loop t_testzero_data env.mcdb_make_add n []).2 := by
  have hu : u32 n = n := by unfold u32; omega
  unfold t_testzero_main
  simp only [hargc, if_true, hu, hstart]
  simp only [Bool.not_true, Bool.false_eq_true, if_false]
  split_ifs <;> rfl

theorem t_testzero_data_eq : t_testzero_data = List.replicate 65524 0 := rfl

theorem testzero_calls_spec (data : Bytes) (add_ok : Nat → Bool) (n : Nat)
    (hn : n < 4294967296) :
    (testzero_loop data add_ok n []).2 <+: testzero_calls data n ∧
    ((∀ k, k < n → add_ok k = true) →
      (testzero_loop data add_ok n []).2 = testzero_calls data n) ∧
    (testzero_calls data n).length = n ∧
    (∀ i, i < n → (testzero_calls data n)[i]?
      = some ( uint32_strpack_bigendian_macro (n - 1 - i), data)) ∧
    ((testzero_calls data n).map Prod.fst).Nodup ∧
    (∀ i, i < n → ∃ j, (testzero_calls data n)[j]?
        = some ( uint32_strpack_bigendian_macro i, data) ∧
      ∀ (j' : Nat), (∃ v : Bytes, (testzero_calls data n)[j']?
        = some ( uint32_strpack_bigendian_macro i, v)) → j' = j) ∧
    (∀ c ∈ testzero_calls data n,
      (∃ i, i < n ∧ c = ( uint32_strpack_bigendian_macro i, data)) ∧
      (record_bytes c.1 c.2).length = 4 + 4 + 4 + data.length) := by
  obtain ⟨k1, k2, k3, k4⟩ := testzero_calls_keys data n hn
  obtain ⟨l1, l2, l3⟩ := testzero_loop_spec data add_ok n [] hn
  rw [List.nil_append] at l1 l3
  refine ⟨l1, ?_, k1, ?_, k2, k3, ?_⟩
  · intro hall
    rw [l3 (by intro k hk; exact hall k (by simpa using hk))]
  · intro i hi
    rw [testzero_calls_get, if_pos hi]
  · intro c hc
    obtain ⟨i, hi, rfl⟩ := k4 c hc
    refine ⟨⟨i, hi, rfl⟩, ?_⟩
    rw [record_bytes_length, strpack_length]

theorem testzero_main_calls (env : TestzeroEnv) (argc n : Nat) (hargc : argc > 1)
    (hn : n < 4294967296) (hstart : env.mcdb_make_start = true) :
    (testzero_main env argc n).2 = (testzero_loop testzero_data env.mcdb_make_add n []).2 := by
  have hu : n % 18446744073709551616 = n := Nat.mod_eq_of_lt (by omega)
  unfold testzero_main
  simp only [hargc, if_true, hu, hstart]
  simp only [Bool.not_true, Bool.false_eq_true, if_false]
  split_ifs <;> rfl

theorem testzero_data_eq : testzero_data = List.replicate 65536 0 := rfl

/-- C16: the build loop of `testzero`, in its two copies. For a record count
`n < 2^32` given as `argv[1]`, when `mcdb_make_start` succeeds, in both copies:
the calls of `mcdb_make_add` made are always the first ones of the `n` calls
`testzero_calls`, and when no call fails they are exactly those `n` calls, after
which the loop stops. Call `i` (from 0) passes the 4-byte big-endian encoding
of `n - 1 - i` as the key; the keys are distinct, every index in `0 .. n-1` is
the key of exactly one call and no other key occurs. In `t/testzero.c` the
value is 65524 zero bytes and each record takes `4 + 4 + 4 + 65524 = 65536`
bytes in the record format; in the older `testzero.c` the value is 65536 zero
bytes and each record takes `4 + 4 + 4 + 65536 = 65548` bytes. -/
theorem testzero_adds_every_index_once (env : TestzeroEnv) (argc n : Nat) (hargc : argc > 1)
    (hn : n < 4294967296) (hstart : env.mcdb_make_start = true) :
    ((t_testzero_main env argc n).2 <+: testzero_calls (List.replicate 65524 0) n ∧
    ((∀ k, k < n → env.mcdb_make_add k = true) →
      (t_testzero_main env argc n).2 = testzero_calls (List.replicate 65524 0) n) ∧
    (testzero_calls (List.replicate 65524 0) n).length = n ∧
    (∀ i, i < n → (testzero_calls (List.replicate 65524 0) n)[i]?
      = some ( uint32_strpack_bigendian_macro (n - 1 - i), List.replicate 65524 0)) ∧
    ((testzero_calls (List.replicate 65524 0) n).map Prod.fst).Nodup ∧
    (∀ i, i < n → ∃ j, (testzero_calls (List.replicate 65524 0) n)[j]?
        = some ( uint32_strpack_bigendian_macro i, List.replicate 65524 0) ∧
      ∀ (j' : Nat), (∃ v : Bytes, (testzero_calls (List.replicate 65524 0) n)[j']?
        = some ( uint32_strpack_bigendian_macro i, v)) → j' = j) ∧
    (∀ c ∈ testzero_calls (List.replicate 65524 0) n,
      (∃ i, i < n ∧ c = ( uint32_strpack_bigendian_macro i, List.replicate 65524 0)) ∧
      (record_bytes c.1 c.2).length = 65536)) ∧
    ((testzero_main env argc n).2 <+: testzero_calls (List.replicate 65536 0) n ∧
    ((∀ k, k < n → env.mcdb_make_add k = true) →
      (testzero_main env argc n).2 = testzero_calls (List.replicate 65536 0) n) ∧
    (testzero_calls (List.replicate 65536 0) n).length = n ∧
    (∀ i, i < n → (testzero_calls (List.replicate 65536 0) n)[i]?
      = some ( uint32_strpack_bigendian_macro (n - 1 - i), List.replicate 65536 0)) ∧
    ((testzero_calls (List.replicate 65536 0) n).map Prod.fst).Nodup ∧
    (∀ i, i < n → ∃ j, (testzero_calls (List.replicate 65536 0) n)[j]?
        = some ( uint32_strpack_bigendian_macro i, List.replicate 65536 0) ∧
      ∀ (j' : Nat), (∃ v : Bytes, (testzero_calls (List.replicate 65536 0) n)[j']?
        = some ( uint32_strpack_bigendian_macro i, v)) → j' = j) ∧
    (∀ c ∈ testzero_calls (List.replicate 65536 0) n,
      (∃ i, i < n ∧ c = ( uint32_strpack_bigendian_macro i, List.replicate 65536 0)) ∧
      (record_bytes c.1 c.2).length = 65548)) := by
  constructor
  · have hmain := t_testzero_main_calls env argc n hargc hn hstart
    rw [t_testzero_data_eq] at hmain
    have hlen : (List.replicate 65524 0 : Bytes).length = 65524 := List.length_replicate _ _
    generalize (List.replicate 65524 0 : Bytes) = data at hmain hlen ⊢
    have S := testzero_calls_spec data env.mcdb_make_add n hn
    rw [← hmain, hlen] at S
    exact S
  · have hmain := testzero_main_calls env argc n hargc hn hstart
    rw [testzero_data_eq] at hmain
    have hlen : (List.replicate 65536 0 : Bytes).length = 65536 := List.length_replicate _ _
    generalize (List.replicate 65536 0 : Bytes) = data at hmain hlen ⊢
    have S := testzero_calls_spec data env.mcdb_make_add n hn
    rw [← hmain, hlen] at S
    exact S

theorem testzero_adds_every_index_once_witness :
    (t_testzero_main TestzeroEnv.ok 3 1000).2 = testzero_calls (List.replicate 65524 0) 1000 ∧
    (testzero_calls (List.replicate 65524 0) 1000).length = 1000 ∧
    (testzero_calls (List.replicate 65524 0) 1000)[0]?
      = some ( uint32_strpack_bigendian_macro (1000 - 1 - 0), List.replicate 65524 0) ∧
    (testzero_main TestzeroEnv.ok 3 1000).2 = testzero_calls (List.replicate 65536 0) 1000 :=
  ⟨(testzero_adds_every_index_once TestzeroEnv.ok 3 1000 (by decide) (by decide) rfl).1.2.1
      (fun _ _ => rfl),
    (testzero_adds_every_index_once TestzeroEnv.ok 3 1000 (by decide) (by decide)
      rfl).1.2.2.1,
    (testzero_adds_every_index_once TestzeroEnv.ok 3 1000 (by decide) (by decide)
      rfl).1.2.2.2.1 0 (by decide),
    (testzero_adds_every_index_once TestzeroEnv.ok 3 1000 (by decide) (by decide) rfl).2.2.1
      (fun _ _ => rfl)⟩

/-- The sizes of `t/testzero.c` are not those of the older `testzero.c`: with
the record count 1000 and every call succeeding, its 1000 calls of
`mcdb_make_add` all pass a value of 65536 bytes, not 65524, and each record
takes 65548 bytes in the record format, not 65536. -/
theorem testzero_older_copy_adds_65536_bytes :
    (testzero_main TestzeroEnv.ok 3 1000).2.length = 1000 ∧
    (∀ c ∈ (testzero_main TestzeroEnv.ok 3 1000).2,
      c.2.length = 65536 ∧ c.2.length ≠ 65524 ∧
      (record_bytes c.1 c.2).length = 65548 ∧ (record_bytes c.1 c.2).length ≠ 65536) := by
  have hmain := testzero_main_calls TestzeroEnv.ok 3 1000 (by decide) (by decide) rfl
  rw [testzero_data_eq] at hmain
  have hlen : (List.replicate 65536 0 : Bytes).length = 65536 := List.length_replicate _ _
  generalize (List.replicate 65536 0 : Bytes) = data at hmain hlen ⊢
  obtain ⟨-, S2, S3, -, -, -, S7⟩ := testzero_calls_spec data (fun _ => true) 1000 (by decide)
  have e : (testzero_main TestzeroEnv.ok 3 1000).2 = testzero_calls data 1000 := by
    rw [hmain]
    exact S2 (fun _ _ => rfl)
  rw [e]
  refine ⟨S3, ?_⟩
  intro c hc
  obtain ⟨⟨i, -, rfl⟩, hr⟩ := S7 c hc
  rw [hr]
  simp only [hlen]
  decide

/-- The older `testzero.c` makes the same calls with the same keys, but its
`data` has 65536 bytes: each value is 65536 zero bytes and each record takes
65548 bytes. -/
theorem testzero_older_file_calls (env : TestzeroEnv) (argc n : Nat) (hargc : argc > 1)
    (hn : n < 4294967296) (hstart : env.mcdb_make_start = true)
    (hall : ∀ k, k < n → env.mcdb_make_add k = true) :
    (testzero_main env argc n).2 = testzero_calls (List.replicate 65536 0) n ∧
    ∀ c ∈ testzero_calls (List.replicate 65536 0) n, (record_bytes c.1 c.2).length = 65548 := by
  have hdata : testzero_data = List.replicate 65536 0 := rfl
  have hlen : (List.replicate 65536 0 : Bytes).length = 65536 := List.length_replicate _ _
  have hu : n % 18446744073709551616 = n := Nat.mod_eq_of_lt (by omega)
  have hmain : (testzero_main env argc n).2
      = (testzero_loop testzero_data env.mcdb_make_add n []).2 := by
    unfold testzero_main
    simp only [hargc, if_true, hu, hstart]
    simp only [Bool.not_true, Bool.false_eq_true, if_false]
    split_ifs <;> rfl
  rw [hdata] at hmain
  generalize (List.replicate 65536 0 : Bytes) = data at hmain hlen ⊢
  obtain ⟨-, -, -, k4⟩ := testzero_calls_keys data n hn
  obtain ⟨-, -, l3⟩ := testzero_loop_spec data env.mcdb_make_add n [] hn
  rw [List.nil_append] at l3
  refine ⟨by rw [hmain, l3 (by intro k hk; exact hall k (by simpa using hk))], ?_⟩
  intro c hc
  obtain ⟨i, hi, rfl⟩ := k4 c hc
  rw [record_bytes_length, strpack_length, hlen]

/-! ## Keys of the entry points by name and by number -/

theorem take_strlen (name : Bytes) :
    name.take (strlen name) = name.takeWhile (fun c => c ≠ 0) ∧
    (∀ c ∈ name.take (strlen name), c ≠ 0) ∧
    (strlen name < name.length → name[strlen name]? = some 0) := by
  unfold strlen
  induction name with
  | nil => simp
  | cons c cs ih =>
    obtain ⟨h1, h2, h3⟩ := ih
    by_cases hc : c = 0
    · subst hc
      simp [List.takeWhile]
    · have e : List.takeWhile (fun c => decide (c ≠ 0)) (c :: cs)
          = c :: List.takeWhile (fun c => decide (c ≠ 0)) cs := by
        simp [List.takeWhile, hc]
      rw [e]
      refine ⟨?_, ?_, ?_⟩
      · simp only [List.length_cons, List.take_succ_cons, h1]
      · intro x hx
        simp only [List.length_cons, List.take_succ_cons, List.mem_cons] at hx
        rcases hx with rfl | hx
        · exact hc
        · exact h2 x hx
      · intro hlt
        simp only [List.length_cons] at hlt ⊢
        rw [List.getElem?_cons_succ]
        exact h3 (by omega)

theorem ascii8uphex_length (n : Nat) : (uint32_to_ascii8uphex n).length = 8 := rfl

theorem cast_uint32_lt (i : Int) : cast_uint32 i < 4294967296 := by
  unfold cast_uint32
  omega

theorem getshared_ok_fst (img : Bytes) (d : nss_dbtype) :
    (_nss_mcdb_db_getshared (Env.ok img) Globals.init d).1 = some d := by
  cases d <;> rfl

theorem get_generic_expects (img : Bytes) (stack : mcdb) (d : nss_dbtype) (kinfo : _nss_kinfo)
    (vinfo : _nss_vinfo) (key : Bytes) (klen tagc : Nat) :
    (_nss_files_get_generic (Lookup.expects key klen tagc) (Env.ok img) Globals.init stack d
      kinfo vinfo).isSome = true
      ↔ (kinfo.key.take kinfo.klen = key ∧ kinfo.klen = klen ∧ kinfo.tagc = tagc) := by
  have h := getshared_ok_fst img d
  unfold _nss_files_get_generic
  generalize _nss_mcdb_db_getshared (Env.ok img) Globals.init d = r at h ⊢
  obtain ⟨r1, G1⟩ := r
  simp only at h
  subst h
  simp only [findtag, Lookup.expects]
  by_cases hk : kinfo.key.take kinfo.klen = key ∧ kinfo.klen = klen ∧ kinfo.tagc = tagc
  · rw [if_pos hk]
    simp only [Option.isSome_some, true_iff]
    exact hk
  · rw [if_neg hk]
    simp only [Option.isSome_none, Bool.false_eq_true, false_iff]
    exact hk

/-- C20: the keys of the keyed entry points. Each of the nine entry points by
name is `_nss_files_get_generic` for its database with the key memory `name`,
`klen = strlen(name)` and the tag `=` (61); the key bytes so designated are the
bytes of `name` before its terminating NUL. Each of the five entry points by
number is `_nss_files_get_generic` for its database with the key `hexstr`,
which `uint32_to_ascii8uphex` fills from the number converted to `uint32_t`,
`klen = sizeof(hexstr) = 8`, which is the length of that output, and the tag
`x` (120). And `_nss_files_get_generic` hands the lookup exactly the key, the
length and the tag of its `kinfo`: run with a lookup that faults on any other
key, it returns if and only if that lookup expects them. -/
theorem keyed_entry_points_keys (L : Lookup) (env : Env) (G : Globals) (stack : mcdb)
    (D : Decoders) (name : Bytes) (buflen : Nat) (uid gid : Nat) (net type proto number : Int) :
    (_nss_files_getpwnam_r L env G stack D name buflen
      = _nss_files_get_generic L env G stack NSS_DBTYPE_PASSWD
          { key := name, klen := strlen name, tagc := 61 }
          { decode := D._nss_files_decode_passwd, buflen := buflen } ∧
     _nss_files_getgrnam_r L env G stack D name buflen
      = _nss_files_get_generic L env G stack NSS_DBTYPE_GROUP
          { key := name, klen := strlen name, tagc := 61 }
          { decode := D._nss_files_decode_group, buflen := buflen } ∧
     _nss_files_getnetbyname_r L env G stack D name buflen
      = _nss_files_get_generic L env G stack NSS_DBTYPE_NETWORKS
          { key := name, klen := strlen name, tagc := 61 }
          { decode := D._nss_files_decode_netent, buflen := buflen } ∧
     _nss_files_getprotobyname_r L env G stack D name buflen
      = _nss_files_get_generic L env G stack NSS_DBTYPE_PROTOCOLS
          { key := name, klen := strlen name, tagc := 61 }
          { decode := D._nss_files_decode_protoent, buflen := buflen } ∧
     _nss_files_getrpcbyname_r L env G stack D name buflen
      = _nss_files_get_generic L env G stack NSS_DBTYPE_RPC
          { key := name, klen := strlen name, tagc := 61 }
          { decode := D._nss_files_decode_rpcent, buflen := buflen } ∧
     _nss_files_getaliasbyname_r L env G stack D name buflen
      = _nss_files_get_generic L env G stack NSS_DBTYPE_ALIASES
          { key := name, klen := strlen name, tagc := 61 }
          { decode := D._nss_files_decode_aliasent, buflen := buflen } ∧
     _nss_files_getspnam_r L env G stack D name buflen
      = _nss_files_get_generic L env G stack NSS_DBTYPE_SHADOW
          { key := name, klen := strlen name, tagc := 61 }
          { decode := D._nss_files_decode_spwd, buflen := buflen } ∧
     _nss_files_getpublickey L env G stack name buflen
      = _nss_files_get_generic L env G stack NSS_DBTYPE_PUBLICKEY
          { key := name, klen := strlen name, tagc := 61 }
          { decode := _nss_files_decode_buf, buflen := buflen } ∧
     _nss_files_gethostton_r L env G stack D name
      = _nss_files_get_generic L env G stack NSS_DBTYPE_ETHERS
          { key := name, klen := strlen name, tagc := 61 }
          { decode := D._nss_files_decode_ether_addr, buflen := 0 }) ∧
    (name.take (strlen name) = name.takeWhile (fun c => c ≠ 0) ∧
     (∀ c ∈ name.take (strlen name), c ≠ 0) ∧
     (strlen name < name.length → name[strlen name]? = some 0) ∧
     (61 : Nat) = '='.toNat) ∧
    (_nss_files_getpwuid_r L env G stack D uid buflen
      = _nss_files_get_generic L env G stack NSS_DBTYPE_PASSWD
          { key := uint32_to_ascii8uphex (uid % 4294967296), klen := 8, tagc := 120 }
          { decode := D._nss_files_decode_passwd, buflen := buflen } ∧
     _nss_files_getgrgid_r L env G stack D gid buflen
      = _nss_files_get_generic L env G stack NSS_DBTYPE_GROUP
          { key := uint32_to_ascii8uphex (gid % 4294967296), klen := 8, tagc := 120 }
          { decode := D._nss_files_decode_group, buflen := buflen } ∧
     _nss_files_getnetbyaddr_r L env G stack D net type buflen
      = _nss_files_get_generic L env G stack NSS_DBTYPE_NETWORKS
          { key := uint32_to_ascii8uphex (net % 4294967296).toNat, klen := 8, tagc := 120 }
          { decode := D._nss_files_decode_netent, buflen := buflen } ∧
     _nss_files_getprotobynumber_r L env G stack D proto buflen
      = _nss_files_get_generic L env G stack NSS_DBTYPE_PROTOCOLS
          { key := uint32_to_ascii8uphex (proto % 4294967296).toNat, klen := 8, tagc := 120 }
          { decode := D._nss_files_decode_protoent, buflen := buflen } ∧
     _nss_files_getrpcbynumber_r L env G stack D number buflen
      = _nss_files_get_generic L env G stack NSS_DBTYPE_RPC
          { key := uint32_to_ascii8uphex (number % 4294967296).toNat, klen := 8, tagc := 120 }
          { decode := D._nss_files_decode_rpcent, buflen := buflen }) ∧
    ((∀ n, (uint32_to_ascii8uphex n).length = 8) ∧
     (∀ i : Int, (i % 4294967296).toNat < 4294967296) ∧
     (120 : Nat) = 'x'.toNat) ∧
    ∀ (img : Bytes) (d : nss_dbtype) (kinfo : _nss_kinfo) (vinfo : _nss_vinfo) (key : Bytes)
      (klen tagc : Nat),
      (_nss_files_get_generic (Lookup.expects key klen tagc) (Env.ok img) Globals.init stack d
        kinfo vinfo).isSome = true
        ↔ (kinfo.key.take kinfo.klen = key ∧ kinfo.klen = klen ∧ kinfo.tagc = tagc) := by
  obtain ⟨h1, h2, h3⟩ := take_strlen name
  exact ⟨⟨rfl, rfl, rfl, rfl, rfl, rfl, rfl, rfl, rfl⟩, ⟨h1, h2, h3, rfl⟩,
    ⟨rfl, rfl, rfl, rfl, rfl⟩, ⟨ascii8uphex_length, cast_uint32_lt, rfl⟩,
    fun img d kinfo vinfo key klen tagc => get_generic_expects img stack d kinfo vinfo key klen tagc⟩

/-! ## The frame of `_nss_mcdb_setent` -/

theorem getshared_acquires (env : Env) (G : Globals) (d : nss_dbtype) :
    ∃ evs, (_nss_mcdb_db_getshared env G d).2.trace = G.trace ++ evs ∧
      evs.countP Event.isAcquire = (if (_nss_mcdb_db_getshared env G d).1.isSome then 1 else 0) ∧
      evs.countP Event.isUnregister = 0 := by
  obtain ⟨pre, ht, hq, -⟩ := getshared_spec env G d
  obtain ⟨q1, q2, -⟩ := quiet_countP pre hq
  refine ⟨pre ++ [.getshared d (_nss_mcdb_db_getshared env G d).1], ht, ?_, ?_⟩
  · rw [List.countP_append, q1]
    cases (_nss_mcdb_db_getshared env G d).1 <;> rfl
  · rw [List.countP_append, q2]
    cases (_nss_mcdb_db_getshared env G d).1 <;> rfl

/-- C22: the frame of `_nss_mcdb_setent`. It returns `NSS_STATUS_UNAVAIL` if and
only if the cursor holds no map and `_nss_mcdb_db_getshared` returns `NULL`,
and the cursor is then as it was; otherwise it returns `NSS_STATUS_SUCCESS`.
When the cursor holds a map the globals are untouched (no call, no event, no
reference) and the cursor changes in `hpos` only, which becomes 0. When it
holds none, the globals are those `_nss_mcdb_db_getshared` leaves, `map` is
what it returned, and on success `hpos` is 0. So of two calls in a row, the
first one on a cursor without map and successful, the second one changes
neither cursor nor globals, and the two together make exactly one acquisition
and raise the reference count of the handle by exactly one. -/
theorem setent_frame (env env2 : Env) (G : Globals) (m : mcdb) (d : nss_dbtype) :
    ((_nss_mcdb_setent env G m d).1 = NSS_STATUS_UNAVAIL
      ↔ (m.map = none ∧ (_nss_mcdb_db_getshared env G d).1 = none)) ∧
    ((_nss_mcdb_setent env G m d).1 = NSS_STATUS_UNAVAIL → (_nss_mcdb_setent env G m d).2.1 = m) ∧
    ((_nss_mcdb_setent env G m d).1 ≠ NSS_STATUS_UNAVAIL →
      (_nss_mcdb_setent env G m d).1 = NSS_STATUS_SUCCESS) ∧
    (m.map ≠ none → _nss_mcdb_setent env G m d = (NSS_STATUS_SUCCESS, { m with hpos := 0 }, G)) ∧
    (m.map = none →
      (_nss_mcdb_setent env G m d).2.2 = (_nss_mcdb_db_getshared env G d).2 ∧
      (_nss_mcdb_setent env G m d).2.1.map = (_nss_mcdb_db_getshared env G d).1 ∧
      ((_nss_mcdb_setent env G m d).1 = NSS_STATUS_SUCCESS →
        (_nss_mcdb_setent env G m d).2.1
          = { m with map := (_nss_mcdb_db_getshared env G d).1, hpos := 0 })) ∧
    (m.map = none → (_nss_mcdb_setent env G m d).1 = NSS_STATUS_SUCCESS →
      _nss_mcdb_setent env2 (_nss_mcdb_setent env G m d).2.2 (_nss_mcdb_setent env G m d).2.1 d
        = (NSS_STATUS_SUCCESS, (_nss_mcdb_setent env G m d).2.1,
            (_nss_mcdb_setent env G m d).2.2) ∧
      ∃ evs h, (_nss_mcdb_setent env G m d).2.2.trace = G.trace ++ evs ∧
        evs.countP Event.isAcquire = 1 ∧
        (_nss_mcdb_setent env G m d).2.1.map = some h ∧
        ((_nss_mcdb_setent env G m d).2.2.nss_mcdb_mmap_st h).refcnt
          = (G.nss_mcdb_mmap_st h).refcnt + 1) := by
  obtain ⟨evs, ht, hc, -⟩ := getshared_acquires env G d
  obtain ⟨-, -, -, hr⟩ := getshared_spec env G d
  unfold _nss_mcdb_setent
  generalize _nss_mcdb_db_getshared env G d = r at ht hc hr
  obtain ⟨r1, G1⟩ := r
  simp only at ht hc hr ⊢
  cases hm : m.map with
  | some h0 =>
    simp [hm]
  | none =>
    cases r1 with
    | none =>
      simp [hm]
      cases m
      simp_all
    | some h =>
      simp [hm]
      refine ⟨evs, ht, by simpa using hc, ?_⟩
      have := hr h
      simpa using this

/-- The instance of `setent_frame` at program start with the empty file mapped
for the passwd database: the first call succeeds, the second changes nothing,
the two make one acquisition. -/
theorem setent_frame_witness :
    mcdb.zero.map = none ∧
    (_nss_mcdb_setent (Env.ok []) Globals.init mcdb.zero NSS_DBTYPE_PASSWD).1
      = NSS_STATUS_SUCCESS ∧
    (_nss_mcdb_setent (Env.ok [])
        (_nss_mcdb_setent (Env.ok []) Globals.init mcdb.zero NSS_DBTYPE_PASSWD).2.2
        (_nss_mcdb_setent (Env.ok []) Globals.init mcdb.zero NSS_DBTYPE_PASSWD).2.1
        NSS_DBTYPE_PASSWD
      = (NSS_STATUS_SUCCESS,
          (_nss_mcdb_setent (Env.ok []) Globals.init mcdb.zero NSS_DBTYPE_PASSWD).2.1,
          (_nss_mcdb_setent (Env.ok []) Globals.init mcdb.zero NSS_DBTYPE_PASSWD).2.2) ∧
      ∃ evs h,
        (_nss_mcdb_setent (Env.ok []) Globals.init mcdb.zero NSS_DBTYPE_PASSWD).2.2.trace
          = Globals.init.trace ++ evs ∧
        evs.countP Event.isAcquire = 1 ∧
        (_nss_mcdb_setent (Env.ok []) Globals.init mcdb.zero NSS_DBTYPE_PASSWD).2.1.map
          = some h ∧
        ((_nss_mcdb_setent (Env.ok []) Globals.init mcdb.zero
            NSS_DBTYPE_PASSWD).2.2.nss_mcdb_mmap_st h).refcnt
          = (Globals.init.nss_mcdb_mmap_st h).refcnt + 1) :=
  ⟨rfl, rfl,
    (setent_frame (Env.ok []) (Env.ok []) Globals.init mcdb.zero NSS_DBTYPE_PASSWD).2.2.2.2.2
      rfl rfl⟩

/-! ## The mutex of `_nss_mcdb_db_openshared` -/

theorem openshared_file_unlock_last (env : Env) (G : Globals) (d : nss_dbtype) :
    ∃ (G1 : Globals) (pre : List Event),
      (_nss_mcdb_db_openshared_file env G d).2 = G1.emit .pthread_mutex_unlock ∧
      G1.trace = G.trace ++ pre ∧ ∀ e ∈ pre, e.isMutex = false := by
  unfold _nss_mcdb_db_openshared_file
  by_cases hfd : env.openat ≠ -1
  · simp only [hfd, if_true, ne_eq, not_false_eq_true]
    cases hi : env.mcdb_mmap_init with
    | none =>
      simp only [mcdb_mmap_init, hi, Bool.false_eq_true, if_false]
      refine ⟨_, [.openat d env.openat, .mcdb_mmap_init d false, .close env.openat], rfl, ?_, ?_⟩
      · simp [Globals.emit, Globals.setSt]
      · simp [Event.isMutex]
    | some b =>
      simp only [mcdb_mmap_init, hi, if_true]
      refine ⟨_, [.openat d env.openat, .mcdb_mmap_init d true, .close env.openat], rfl, ?_, ?_⟩
      · simp [Globals.emit, Globals.setSt]
      · simp [Event.isMutex]
  · simp only [hfd, if_false]
    refine ⟨_, [.openat d env.openat], rfl, ?_, ?_⟩
    · simp [Globals.emit, Globals.setSt]
    · simp [Event.isMutex]

/-- C23: the mutex in `_nss_mcdb_db_openshared`. When `pthread_mutex_lock`
succeeds, the globals the call leaves are those of a state `G1` to which nothing
is done but the call of `pthread_mutex_unlock`: every write to
`nss_mcdb_mmap`, to the static handle and to the shared directory descriptor
is made before it; the events of the call are the lock, then events that are
neither lock nor unlock, then that one unlock. When `pthread_mutex_lock` fails
the call returns `false`, its only event is the failed lock, and
`nss_mcdb_mmap`, the static handles and the directory descriptor are as
before. -/
theorem openshared_unlocks_once (env : Env) (G : Globals) (d : nss_dbtype) :
    (env.pthread_mutex_lock = 0 →
      ∃ (G1 : Globals) (pre : List Event), (_nss_mcdb_db_openshared env G d).2 = G1.emit .pthread_mutex_unlock ∧
        G1.trace = G.trace ++ (.pthread_mutex_lock 0 :: pre) ∧
        (∀ e ∈ pre, e.isMutex = false) ∧
        (_nss_mcdb_db_openshared env G d).2.trace
          = G.trace ++ (.pthread_mutex_lock 0 :: pre ++ [.pthread_mutex_unlock]) ∧
        (Event.pthread_mutex_lock 0 :: pre ++ [Event.pthread_mutex_unlock]).count
          Event.pthread_mutex_unlock = 1 ∧
        (_nss_mcdb_db_openshared env G d).2.nss_mcdb_mmap = G1.nss_mcdb_mmap ∧
        (_nss_mcdb_db_openshared env G d).2.nss_mcdb_mmap_st = G1.nss_mcdb_mmap_st ∧
        (_nss_mcdb_db_openshared env G d).2.dfd = G1.dfd) ∧
    (env.pthread_mutex_lock ≠ 0 →
      (_nss_mcdb_db_openshared env G d).1 = false ∧
      (_nss_mcdb_db_openshared env G d).2.trace
        = G.trace ++ [.pthread_mutex_lock env.pthread_mutex_lock] ∧
      (_nss_mcdb_db_openshared env G d).2.nss_mcdb_mmap = G.nss_mcdb_mmap ∧
      (_nss_mcdb_db_openshared env G d).2.nss_mcdb_mmap_st = G.nss_mcdb_mmap_st ∧
      (_nss_mcdb_db_openshared env G d).2.dfd = G.dfd) := by
  have key : env.pthread_mutex_lock = 0 →
      ∃ (G1 : Globals) (pre : List Event), (_nss_mcdb_db_openshared env G d).2 = G1.emit .pthread_mutex_unlock ∧
        G1.trace = G.trace ++ (.pthread_mutex_lock 0 :: pre) ∧
        (∀ e ∈ pre, e.isMutex = false) := by
    intro hl
    unfold _nss_mcdb_db_openshared
    simp only [hl, ne_eq, not_true_eq_false, if_false]
    by_cases hp : (G.nss_mcdb_mmap d).isSome = true
    · simp only [emit_mmap, hp, if_true]
      refine ⟨G.emit (.pthread_mutex_lock 0), [], rfl, ?_, ?_⟩
      · simp [Globals.emit]
      · simp
    · simp only [emit_mmap, hp, if_false, Bool.false_eq_true]
      by_cases hd : G.dfd ≤ STDERR_FILENO
      · by_cases ho : env.open_dbpath > STDERR_FILENO
        · obtain ⟨G1, pre, h1, h2, h3⟩ := openshared_file_unlock_last env
            ({ (G.emit (.pthread_mutex_lock 0)).setSt d fun map =>
                { map with fn_malloc := true, fn_free := true } with
              dfd := env.open_dbpath }.emit (.open_dbpath env.open_dbpath)) d
          refine ⟨G1, .open_dbpath env.open_dbpath :: pre, ?_, ?_, ?_⟩
          · simp only [setSt_dfd, emit_dfd, hd, if_true, ho]
            exact h1
          · rw [h2]
            simp [Globals.emit, Globals.setSt]
          · intro e he
            rcases List.mem_cons.mp he with rfl | he
            · rfl
            · exact h3 e he
        · simp only [setSt_dfd, emit_dfd, hd, if_true, ho, if_false]
          by_cases hm : env.open_dbpath ≠ -1
          · simp only [hm, if_true, ne_eq, not_false_eq_true]
            refine ⟨_, [.open_dbpath env.open_dbpath, .close env.open_dbpath], rfl, ?_, ?_⟩
            · simp [Globals.emit, Globals.setSt]
            · simp [Event.isMutex]
          · simp only [hm, if_false]
            refine ⟨_, [.open_dbpath env.open_dbpath], rfl, ?_, ?_⟩
            · simp [Globals.emit, Globals.setSt]
            · simp [Event.isMutex]
      · obtain ⟨G1, pre, h1, h2, h3⟩ := openshared_file_unlock_last env
          ((G.emit (.pthread_mutex_lock 0)).setSt d fun map =>
              { map with fn_malloc := true, fn_free := true }) d
        refine ⟨G1, pre, ?_, ?_, h3⟩
        · simp only [setSt_dfd, emit_dfd, hd, if_false]
          exact h1
        · rw [h2]
          simp [Globals.emit, Globals.setSt]
  constructor
  · intro hl
    obtain ⟨G1, pre, h1, h2, h3⟩ := key hl
    refine ⟨G1, pre, h1, h2, h3, ?_, ?_, ?_, ?_, ?_⟩
    · rw [h1, emit_trace, h2]
      simp
    · rw [List.count_eq_countP, List.countP_append, List.countP_cons]
      have : pre.countP (fun e => e == Event.pthread_mutex_unlock) = 0 := by
        rw [List.countP_eq_zero]
        intro e he heq
        have := h3 e he
        rw [beq_iff_eq] at heq
        rw [heq] at this
        exact absurd this (by decide)
      rw [this]
      rfl
    · rw [h1]; rfl
    · rw [h1]; rfl
    · rw [h1]; rfl
  · intro hl
    unfold _nss_mcdb_db_openshared
    rw [if_pos hl]
    exact ⟨rfl, rfl, rfl, rfl, rfl⟩

/-- The instance of `openshared_unlocks_once` at program start for the passwd
database, every call of the environment succeeding. -/
theorem openshared_unlocks_once_witness :
    (Env.ok []).pthread_mutex_lock = 0 ∧
    ∃ (G1 : Globals) (pre : List Event),
      (_nss_mcdb_db_openshared (Env.ok []) Globals.init NSS_DBTYPE_PASSWD).2
        = G1.emit .pthread_mutex_unlock ∧
      G1.trace = Globals.init.trace ++ (.pthread_mutex_lock 0 :: pre) ∧
      (∀ e ∈ pre, e.isMutex = false) ∧
      (_nss_mcdb_db_openshared (Env.ok []) Globals.init NSS_DBTYPE_PASSWD).2.trace
        = Globals.init.trace ++ (.pthread_mutex_lock 0 :: pre ++ [.pthread_mutex_unlock]) ∧
      (Event.pthread_mutex_lock 0 :: pre ++ [Event.pthread_mutex_unlock]).count
        Event.pthread_mutex_unlock = 1 ∧
      (_nss_mcdb_db_openshared (Env.ok []) Globals.init NSS_DBTYPE_PASSWD).2.nss_mcdb_mmap
        = G1.nss_mcdb_mmap ∧
      (_nss_mcdb_db_openshared (Env.ok []) Globals.init NSS_DBTYPE_PASSWD).2.nss_mcdb_mmap_st
        = G1.nss_mcdb_mmap_st ∧
      (_nss_mcdb_db_openshared (Env.ok []) Globals.init NSS_DBTYPE_PASSWD).2.dfd = G1.dfd :=
  ⟨rfl, (openshared_unlocks_once (Env.ok []) Globals.init NSS_DBTYPE_PASSWD).1 rfl⟩

/-! ### What `_nss_mcdb_db_openshared` publishes -/

theorem openshared_true_init (env : Env) (G : Globals) (d : nss_dbtype)
    (h : (_nss_mcdb_db_openshared env G d).1 = true) (hn : G.nss_mcdb_mmap d = none) :
    Event.mcdb_mmap_init d true ∈ (_nss_mcdb_db_openshared env G d).2.trace := by
  have hc := openshared_inits env G d d
  rw [if_pos ⟨rfl, h, hn⟩] at hc
  apply List.count_pos_iff.mp
  omega

theorem openshared_trace_mono (env : Env) (G : Globals) (d : nss_dbtype) (e : Event)
    (he : e ∈ G.trace) : e ∈ (_nss_mcdb_db_openshared env G d).2.trace := by
  obtain ⟨evs, h, -⟩ := openshared_quiet env G d
  rw [h]
  exact List.mem_append_left _ he

theorem openshared_published_own (env : Env) (G : Globals) (d : nss_dbtype)
    (h : published_own G) : published_own (_nss_mcdb_db_openshared env G d).2 := by
  intro d'
  rw [openshared_mmap]
  by_cases hc : (_nss_mcdb_db_openshared env G d).1 = true ∧ G.nss_mcdb_mmap d = none
  · rw [if_pos hc]
    by_cases hd : d' = d
    · subst hd
      right
      exact ⟨by simp, openshared_true_init env G d' hc.1 hc.2⟩
    · rw [Function.update_noteq hd]
      rcases h d' with h1 | ⟨h1, h2⟩
      · left; exact h1
      · right; exact ⟨h1, openshared_trace_mono env G d _ h2⟩
  · rw [if_neg hc]
    rcases h d' with h1 | ⟨h1, h2⟩
    · left; exact h1
    · right; exact ⟨h1, openshared_trace_mono env G d _ h2⟩

theorem register_published_own (env : Env) (G : Globals) (h : Option nss_dbtype)
    (hG : published_own G) : published_own (mcdb_register env G h).2 := by
  intro d'
  rw [register_mmap, register_trace]
  rcases hG d' with h1 | ⟨h1, h2⟩
  · left; exact h1
  · right; exact ⟨h1, List.mem_append_left _ h2⟩

theorem getshared_published_own (env : Env) (G : Globals) (d : nss_dbtype)
    (h : published_own G) : published_own (_nss_mcdb_db_getshared env G d).2 := by
  have hemit : ∀ (G0 : Globals) (e : Event), published_own G0 → published_own (G0.emit e) := by
    intro G0 e h0 d'
    rw [emit_mmap, emit_trace]
    rcases h0 d' with h1 | ⟨h1, h2⟩
    · left; exact h1
    · right; exact ⟨h1, List.mem_append_left _ h2⟩
  rw [getshared_eq]
  simp only
  have hr : published_own
      (if (G.nss_mcdb_mmap d).isSome then (true, G) else _nss_mcdb_db_openshared env G d).2 := by
    split_ifs
    · exact h
    · exact openshared_published_own env G d h
  generalize (if (G.nss_mcdb_mmap d).isSome then (true, G)
    else _nss_mcdb_db_openshared env G d) = r at hr
  split_ifs
  · exact hemit _ _ (register_published_own env _ _ hr)
  · exact hemit _ _ (register_published_own env _ _ hr)
  · exact hemit _ _ hr

theorem unregister_published_own (G : Globals) (h : nss_dbtype)
    (hG : published_own G) : published_own (mcdb_unregister G h).2 := by
  intro d'
  rw [unregister_mmap, unregister_trace]
  rcases hG d' with h1 | ⟨h1, h2⟩
  · left; exact h1
  · right; exact ⟨h1, List.mem_append_left _ h2⟩

theorem run_calls_published_own (cs : List (Call × Env)) (G : Globals) (h : published_own G) :
    published_own (run_calls G cs) := by
  unfold run_calls
  induction cs generalizing G with
  | nil => exact h
  | cons c cs ih =>
    rw [List.foldl_cons]
    apply ih
    unfold Call.run
    cases c.1 with
    | openshared d => exact openshared_published_own c.2 G d h
    | getshared d => exact getshared_published_own c.2 G d h
    | unregister d => exact unregister_published_own G d h

theorem init_published_own : published_own Globals.init := fun _ => Or.inl rfl

theorem openshared_no_register (env : Env) (G : Globals) (d : nss_dbtype) :
    ∃ evs, (_nss_mcdb_db_openshared env G d).2.trace = G.trace ++ evs ∧
      ∀ e ∈ evs, ∀ h ok, e ≠ Event.mcdb_register h ok := by
  refine ⟨_, openshared_trace env G d, ?_⟩
  intro e he h ok heq
  subst heq
  split_ifs at he <;> simp at he

theorem openshared_true_published (env : Env) (G : Globals) (d : nss_dbtype)
    (h : (_nss_mcdb_db_openshared env G d).1 = true) :
    ((_nss_mcdb_db_openshared env G d).2.nss_mcdb_mmap d).isSome = true := by
  rw [openshared_mmap]
  by_cases hn : G.nss_mcdb_mmap d = none
  · rw [if_pos ⟨h, hn⟩]
    simp
  · rw [if_neg (fun hc => hn hc.2)]
    exact Option.isSome_iff_ne_none.mpr hn

/-- What `_nss_mcdb_db_getshared` hands to `mcdb_register`: the events of a
call hold at most one call of `mcdb_register`, made on a handle that is not
`NULL`, and a handle is returned only after that call succeeded. -/
theorem getshared_registers (env : Env) (G : Globals) (d : nss_dbtype) :
    ∃ evs, (_nss_mcdb_db_getshared env G d).2.trace = G.trace ++ evs ∧
      (∀ h ok, Event.mcdb_register h ok ∈ evs → h ≠ none) ∧
      (∀ r, (_nss_mcdb_db_getshared env G d).1 = some r →
        Event.mcdb_register (some r) true ∈ evs ∧ env.mcdb_register = true ∧
        (_nss_mcdb_db_getshared env G d).2.nss_mcdb_mmap d = some r) := by
  rw [getshared_eq]
  simp only
  by_cases hp : (G.nss_mcdb_mmap d).isSome = true
  · obtain ⟨h0, hh⟩ := Option.isSome_iff_exists.mp hp
    simp only [hp, if_true, register_fst, hh, Option.isSome_some, Bool.true_and]
    by_cases hr : env.mcdb_register = true
    · simp only [hr, if_true, emit_trace, register_trace, register_mmap, emit_mmap, hh,
        Option.isSome_some, Bool.true_and, List.append_assoc]
      refine ⟨_, rfl, ?_, ?_⟩
      · intro h ok hmem
        simp at hmem
        rw [hmem.1]; simp
      · intro r hr2
        simp at hr2
        subst hr2
        simp
    · simp only [hr, if_false, emit_trace, register_trace, register_mmap, emit_mmap, hh,
        Option.isSome_some, Bool.true_and, List.append_assoc, Bool.false_eq_true]
      refine ⟨_, rfl, ?_, ?_⟩
      · intro h ok hmem
        simp at hmem
        rw [hmem.1]; simp
      · intro r hr2
        simp at hr2
  · simp only [hp, if_false, Bool.false_eq_true]
    obtain ⟨evs, ht, hno⟩ := openshared_no_register env G d
    by_cases ho : (_nss_mcdb_db_openshared env G d).1 = true
    · have hpub := openshared_true_published env G d ho
      obtain ⟨h0, hh⟩ := Option.isSome_iff_exists.mp hpub
      simp only [ho, if_true, register_fst, hh, Option.isSome_some, Bool.true_and]
      by_cases hr : env.mcdb_register = true
      · simp only [hr, if_true, emit_trace, register_trace, register_mmap, emit_mmap, hh,
          Option.isSome_some, Bool.true_and, ht, List.append_assoc]
        refine ⟨_, rfl, ?_, ?_⟩
        · intro h ok hmem
          rcases List.mem_append.mp hmem with h1 | h1
          · exact absurd rfl (hno _ h1 h ok)
          · simp at h1
            rw [h1.1]; simp
        · intro r hr2
          simp at hr2
          subst hr2
          simp
      · simp only [hr, if_false, emit_trace, register_trace, register_mmap, emit_mmap, hh,
          Option.isSome_some, Bool.true_and, ht, List.append_assoc, Bool.false_eq_true]
        refine ⟨_, rfl, ?_, ?_⟩
        · intro h ok hmem
          rcases List.mem_append.mp hmem with h1 | h1
          · exact absurd rfl (hno _ h1 h ok)
          · simp at h1
            rw [h1.1]; simp
        · intro r hr2
          simp at hr2
    · simp only [ho, if_false, emit_trace, ht, List.append_assoc, Bool.false_eq_true]
      refine ⟨_, rfl, ?_, ?_⟩
      · intro h ok hmem
        rcases List.mem_append.mp hmem with h1 | h1
        · exact absurd rfl (hno _ h1 h ok)
        · simp at h1
      · intro r hr2
        simp at hr2

theorem openshared_failed_attempt (env : Env) (G : Globals) (d : nss_dbtype) (evs : List Event)
    (hevs : (_nss_mcdb_db_openshared env G d).2.trace = G.trace ++ evs)
    (hfail : (∃ fd, Event.open_dbpath fd ∈ evs ∧ ¬ fd > STDERR_FILENO) ∨
      Event.openat d (-1) ∈ evs ∨ Event.mcdb_mmap_init d false ∈ evs) :
    (_nss_mcdb_db_openshared env G d).1 = false ∧
    G.nss_mcdb_mmap d = none ∧
    (_nss_mcdb_db_openshared env G d).2.nss_mcdb_mmap d = none := by
  rw [openshared_trace] at hevs
  have he := List.append_cancel_left hevs
  subst he
  have hnone : G.nss_mcdb_mmap d = none := by
    by_contra hne
    have hs : (G.nss_mcdb_mmap d).isSome = true := by
      cases h : G.nss_mcdb_mmap d with
      | none => exact absurd h hne
      | some _ => rfl
    split_ifs at hfail <;> simp_all
  have hf : (_nss_mcdb_db_openshared env G d).1 = false := by
    rw [openshared_fst]
    split_ifs at hfail ⊢ <;> simp_all
    · rcases hfail with h | h | h
      · exfalso; omega
      · exact absurd h.symm ‹¬env.openat = -1›
      · exact h
    · rcases hfail with h | h
      · exact absurd h.symm ‹¬env.openat = -1›
      · exact h
  refine ⟨hf, hnone, ?_⟩
  rw [openshared_mmap, if_neg (by rw [hf]; simp)]
  exact hnone

/-- C24: what `_nss_mcdb_db_openshared` publishes, in every state `G` reached
from program start by calls of `_nss_mcdb_db_openshared`,
`_nss_mcdb_db_getshared` and `mcdb_unregister`. If it returns `true` then
`nss_mcdb_mmap[dbtype]` is the address of `nss_mcdb_mmap_st[dbtype]` (so not
`NULL`) and `mcdb_mmap_init` has succeeded on that handle. If
`nss_mcdb_mmap[dbtype]` is `NULL` and the directory cannot be opened (when it
has to be), or the file cannot be opened, or `mcdb_mmap_init` fails, it returns
`false`; and whenever it returns `false` from a state in which
`nss_mcdb_mmap[dbtype]` is `NULL`, that stays `NULL`. In terms of what the call
does: if among its events there is a failed `open` of the directory, a failed
`openat` of the file or a failed `mcdb_mmap_init`, it returns `false` and
`nss_mcdb_mmap[dbtype]` is `NULL` afterwards. Consequently
`_nss_mcdb_db_getshared` calls `mcdb_register` on no `NULL` handle, and what it
returns, if not `NULL`, is the address of `nss_mcdb_mmap_st[dbtype]`, returned
after `mcdb_register` has succeeded on it. -/
theorem openshared_publishes_own_handle (cs : List (Call × Env)) (env : Env) (d : nss_dbtype) :
    ((_nss_mcdb_db_openshared env (run_calls Globals.init cs) d).1 = true →
      (_nss_mcdb_db_openshared env (run_calls Globals.init cs) d).2.nss_mcdb_mmap d = some d ∧
      Event.mcdb_mmap_init d true
        ∈ (_nss_mcdb_db_openshared env (run_calls Globals.init cs) d).2.trace) ∧
    ((run_calls Globals.init cs).nss_mcdb_mmap d = none →
      (((run_calls Globals.init cs).dfd ≤ STDERR_FILENO ∧ ¬ env.open_dbpath > STDERR_FILENO) ∨
        env.openat = -1 ∨ env.mcdb_mmap_init = none) →
      (_nss_mcdb_db_openshared env (run_calls Globals.init cs) d).1 = false) ∧
    ((run_calls Globals.init cs).nss_mcdb_mmap d = none →
      (_nss_mcdb_db_openshared env (run_calls Globals.init cs) d).1 = false →
      (_nss_mcdb_db_openshared env (run_calls Globals.init cs) d).2.nss_mcdb_mmap d = none) ∧
    (∀ evs, (_nss_mcdb_db_openshared env (run_calls Globals.init cs) d).2.trace
        = (run_calls Globals.init cs).trace ++ evs →
      ((∃ fd, Event.open_dbpath fd ∈ evs ∧ ¬ fd > STDERR_FILENO) ∨
        Event.openat d (-1) ∈ evs ∨ Event.mcdb_mmap_init d false ∈ evs) →
      (_nss_mcdb_db_openshared env (run_calls Globals.init cs) d).1 = false ∧
      (_nss_mcdb_db_openshared env (run_calls Globals.init cs) d).2.nss_mcdb_mmap d = none) ∧
    ∃ evs, (_nss_mcdb_db_getshared env (run_calls Globals.init cs) d).2.trace
        = (run_calls Globals.init cs).trace ++ evs ∧
      (∀ h ok, Event.mcdb_register h ok ∈ evs → h ≠ none) ∧
      (∀ r, (_nss_mcdb_db_getshared env (run_calls Globals.init cs) d).1 = some r →
        r = d ∧ Event.mcdb_register (some r) true ∈ evs ∧ env.mcdb_register = true) := by
  have hinv := run_calls_published_own cs Globals.init init_published_own
  generalize run_calls Globals.init cs = G at hinv ⊢
  refine ⟨?_, ?_, ?_, ?_, ?_⟩
  · intro ht
    have hpub := openshared_published_own env G d hinv d
    have hsome := openshared_true_published env G d ht
    rcases hpub with h1 | ⟨h1, h2⟩
    · rw [h1] at hsome
      exact absurd hsome (by simp)
    · exact ⟨h1, h2⟩
  · intro hn hfail
    rw [openshared_fst]
    by_cases hl : env.pthread_mutex_lock ≠ 0
    · rw [if_pos hl]
    · rw [if_neg hl, hn]
      simp only [Option.isSome_none, Bool.false_eq_true, if_false]
      by_cases hdir : G.dfd ≤ STDERR_FILENO ∧ ¬ env.open_dbpath > STDERR_FILENO
      · rw [if_pos hdir]
      · rw [if_neg hdir]
        rcases hfail with h1 | h1 | h1
        · exact absurd h1 hdir
        · simp [h1]
        · simp [h1]
  · intro hn hf
    rw [openshared_mmap, if_neg (by rw [hf]; simp)]
    exact hn
  · intro evs hevs hfail
    obtain ⟨a, -, c⟩ := openshared_failed_attempt env G d evs hevs hfail
    exact ⟨a, c⟩
  · obtain ⟨evs, h1, h2, h3⟩ := getshared_registers env G d
    refine ⟨evs, h1, h2, ?_⟩
    intro r hr
    obtain ⟨a, b, c⟩ := h3 r hr
    refine ⟨?_, a, b⟩
    rcases getshared_published_own env G d hinv d with h4 | ⟨h4, -⟩
    · rw [h4] at c
      exact absurd c (by simp)
    · rw [h4] at c
      exact (Option.some.inj c).symm

/-- The instance of `openshared_publishes_own_handle` at program start for the
passwd database, every call of the environment succeeding. -/
theorem openshared_publishes_own_handle_witness :
    (_nss_mcdb_db_openshared (Env.ok []) (run_calls Globals.init []) NSS_DBTYPE_PASSWD).1
      = true ∧
    (_nss_mcdb_db_openshared (Env.ok []) (run_calls Globals.init [])
      NSS_DBTYPE_PASSWD).2.nss_mcdb_mmap NSS_DBTYPE_PASSWD = some NSS_DBTYPE_PASSWD ∧
    Event.mcdb_mmap_init NSS_DBTYPE_PASSWD true
      ∈ (_nss_mcdb_db_openshared (Env.ok []) (run_calls Globals.init [])
          NSS_DBTYPE_PASSWD).2.trace :=
  ⟨rfl, (openshared_publishes_own_handle [] (Env.ok []) NSS_DBTYPE_PASSWD).1 rfl⟩

/-! ## `_nss_files_getnetgrent_r` -/

theorem image_slot_tag_built :
    mcdb_make_finish (mcdb_make_adds example_hash [([109, 98, 99, 115, 112, 119, 108], [61, 97])])
      = image_slot_tag := by
  rw [build_single]
  have hh : u32 (example_hash [109, 98, 99, 115, 112, 119, 108]) = 1027348753 := by decide
  have e1 : (1027348753 : Nat) % 256 = 17 := by decide
  have e2 : (record_bytes [109, 98, 99, 115, 112, 119, 108] [61, 97]).length = 17 := rfl
  have hr : record_bytes [109, 98, 99, 115, 112, 119, 108] [61, 97]
      = uint32_strpack_bigendian_macro 7 ++ uint32_strpack_bigendian_macro 2 ++
        [109, 98, 99, 115, 112, 119, 108] ++ [61, 97] :=
    rfl
  have ht : table_bytes ([(0, 0), (0, 0)].set (1027348753 / 256 % 2) (1027348753, 2048))
      = uint32_strpack_bigendian_macro 0 ++ uint32_strpack_bigendian_macro 0 ++
        uint32_strpack_bigendian_macro 1027348753 ++ uint32_strpack_bigendian_macro 2048 := by
    decide
  have hhead : (List.range 256).flatMap (fun b =>
        uint32_strpack_bigendian_macro (2048 + 17 + if 17 < b then 16 else 0) ++
        uint32_strpack_bigendian_macro (if 17 = b then 2 else 0))
      = (List.range 256).flatMap (fun b =>
        uint32_strpack_bigendian_macro (if b ≤ 17 then 2065 else 2081) ++
        uint32_strpack_bigendian_macro (if b = 17 then 2 else 0)) := by
    apply flatMap_range_congr
    intro b _
    congr 2
    · by_cases h : b ≤ 17
      · rw [if_pos h, if_neg (by omega)]
      · rw [if_neg h, if_pos (by omega)]
    · by_cases h : b = 17
      · rw [if_pos h, if_pos h.symm]
      · rw [if_neg h, if_neg (fun h2 => h h2.symm)]
  rw [hh, e1, e2, ht, hhead, hr]
  rfl

set_option maxRecDepth 1000000 in
theorem image_slot_tag_reads :
    image_slot_tag.length = 2081 ∧
    mcdb_uint32_unpack_bigendian_macro image_slot_tag 0 = some 2065 ∧
    mcdb_uint32_unpack_bigendian_macro image_slot_tag 4 = some 0 ∧
    image_slot_tag[2073]? = some 61 := by
  decide!

theorem slot_tag_wellformed :
    WellFormed image_slot_tag [([109, 98, 99, 115, 112, 119, 108], [61, 97])] := by
  rw [← image_slot_tag_built]
  apply build_wellformed
  rw [image_slot_tag_built, image_slot_tag_reads.1]
  decide

theorem getnetgrent_other_status (fuel : Nat) (env : Env) (G : Globals) (st : mcdb)
    (buf : Nat → Nat) (buflen : Nat) (r : NetgrentResult)
    (h : _nss_files_getnetgrent_r fuel env G st buf buflen = .ret r)
    (hs : r.status ≠ NSS_STATUS_SUCCESS) :
    r.host = none ∧ r.user = none ∧ r.domain = none := by
  unfold _nss_files_getnetgrent_r at h
  dsimp only at h
  cases hg : _nss_mcdb_getent fuel env G st NSS_DBTYPE_NETGROUP
      { decode := _nss_files_decode_buf, buflen := buflen } with
  | fault => rw [hg] at h; cases h
  | nofuel => rw [hg] at h; cases h
  | ret q =>
    rw [hg] at h
    dsimp only at h
    by_cases hq : q.status = NSS_STATUS_SUCCESS
    · rw [if_pos hq] at h
      cases hm : memchr (apply_writes buf q.writes) 0 0 buflen with
      | none => rw [hm] at h; cases h
      | some i =>
        rw [hm] at h
        cases h
        exact absurd hq hs
    · rw [if_neg hq] at h
      cases h
      exact ⟨rfl, rfl, rfl⟩

theorem getent_fresh (fuel : Nat) (img : Bytes) (d : nss_dbtype) (vinfo : _nss_vinfo) :
    _nss_mcdb_getent fuel (Env.ok img) Globals.init mcdb.zero d vinfo
      = _nss_mcdb_getent fuel (Env.ok img) (after_setent img d) (cursor_at d 0) d vinfo := by
  cases d <;> rfl

/-- C21: `_nss_files_getnetgrent_r` stores pointers outside the buffer. The file
`image_slot_tag` is the database built from the single record `mbcspwl` with the
value `=a`. From the start of the program, with a fresh cursor and `buflen = 1`,
the call returns `NSS_STATUS_SUCCESS` having stored only a NUL at `buf[0]`; it
stores `buf` in `*host`, `buf + 1`, which is `buf + buflen`, in `*user`, and,
the second `memchr` over 0 bytes returning `NULL`, `NULL + 1` in `*domain`. On
the file `image_one_record` with the cursor at the record at 2048 and
`buflen = 3` the value `=1` and a NUL are stored, `*user` is `buf + 3`, which is
`buf + buflen`, and `*domain` is `NULL + 1`. In both calls neither `*user` nor
`*domain` designates a string inside `buf[0..buflen)`. The other half of the
sentence holds: a call that returns any other status writes none of the three. -/
theorem getnetgrent_pointers_leave_buffer :
    mcdb_make_finish (mcdb_make_adds example_hash [([109, 98, 99, 115, 112, 119, 108], [61, 97])])
      = image_slot_tag ∧
    WellFormed image_slot_tag [([109, 98, 99, 115, 112, 119, 108], [61, 97])] ∧
    (∀ (fuel : Nat) (buf : Nat → Nat),
      _nss_files_getnetgrent_r (fuel + 1) (Env.ok image_slot_tag) Globals.init mcdb.zero buf 1
        = .ret { status := NSS_STATUS_SUCCESS,
                 m := { map := some NSS_DBTYPE_NETGROUP, loop := 0, hslots := 0, kpos := 8,
                        hpos := 2073, dpos := 2073, dlen := 0, khash := 0 },
                 writes := [(0, 0)],
                 host := some (.buf 0), user := some (.buf 1), domain := some (.null 1),
                 G := (after_setent image_slot_tag NSS_DBTYPE_NETGROUP).emit
                   (.decode NSS_DBTYPE_NETGROUP 8 2073 0) } ∧
      ¬ CharPtr.string_in (apply_writes buf [(0, 0)]) 1 (.buf 1) ∧
      ¬ CharPtr.string_in (apply_writes buf [(0, 0)]) 1 (.null 1)) ∧
    (∀ (fuel : Nat) (buf : Nat → Nat),
      _nss_files_getnetgrent_r (fuel + 1) (Env.ok image_one_record)
          (after_setent image_one_record NSS_DBTYPE_NETGROUP) (cursor_at NSS_DBTYPE_NETGROUP 2048)
          buf 3
        = .ret { status := NSS_STATUS_SUCCESS,
                 m := { map := some NSS_DBTYPE_NETGROUP, loop := 0, hslots := 0, kpos := 2056,
                        hpos := 2059, dpos := 2057, dlen := 2, khash := 0 },
                 writes := [(0, 61), (1, 49), (2, 0)],
                 host := some (.buf 0), user := some (.buf 3), domain := some (.null 1),
                 G := (after_setent image_one_record NSS_DBTYPE_NETGROUP).emit
                   (.decode NSS_DBTYPE_NETGROUP 2056 2057 2) } ∧
      ¬ CharPtr.string_in (apply_writes buf [(0, 61), (1, 49), (2, 0)]) 3 (.buf 3) ∧
      ¬ CharPtr.string_in (apply_writes buf [(0, 61), (1, 49), (2, 0)]) 3 (.null 1)) ∧
    (∀ (fuel : Nat) (env : Env) (G : Globals) (st : mcdb) (buf : Nat → Nat) (buflen : Nat)
        (r : NetgrentResult),
      _nss_files_getnetgrent_r fuel env G st buf buflen = .ret r →
      r.status ≠ NSS_STATUS_SUCCESS → r.host = none ∧ r.user = none ∧ r.domain = none) := by
  refine ⟨image_slot_tag_built, slot_tag_wellformed, ?_, ?_, getnetgrent_other_status⟩
  · intro fuel buf
    refine ⟨?_, by simp [CharPtr.string_in], by simp [CharPtr.string_in]⟩
    obtain ⟨h1, h2, h3, h4⟩ := image_slot_tag_reads
    have hptr := after_setent_ptr image_slot_tag NSS_DBTYPE_NETGROUP
    unfold _nss_files_getnetgrent_r
    dsimp only
    rw [getent_fresh]
    generalize after_setent image_slot_tag NSS_DBTYPE_NETGROUP = G1 at hptr ⊢
    have hdec : _nss_files_decode_buf (some image_slot_tag)
        { map := some NSS_DBTYPE_NETGROUP, loop := 0, hslots := 0, kpos := 8, hpos := 2073,
          dpos := 2073, dlen := 0, khash := 0 } none 1 = some (NSS_STATUS_SUCCESS, [(0, 0)]) := by
      simp [_nss_files_decode_buf, mcdb_datalen, memcpy, stores_from]
    have hg : _nss_mcdb_getent (fuel + 1) (Env.ok image_slot_tag) G1
        (cursor_at NSS_DBTYPE_NETGROUP 0) NSS_DBTYPE_NETGROUP
        { decode := _nss_files_decode_buf, buflen := 1 }
        = .ret { status := NSS_STATUS_SUCCESS,
                 m := { map := some NSS_DBTYPE_NETGROUP, loop := 0, hslots := 0, kpos := 8,
                        hpos := 2073, dpos := 2073, dlen := 0, khash := 0 },
                 writes := [(0, 0)],
                 G := G1.emit (.decode NSS_DBTYPE_NETGROUP 8 2073 0) } := by
      clear h1
      simp [_nss_mcdb_getent, _nss_mcdb_getent_loop, cursor_at, hptr,
        mcdb_uint32_unpack_bigendian_aligned_macro, h2, h3, h4, u32, hdec]
    rw [hg]
    simp [memchr, apply_writes, List.range_succ, List.find?]
  · intro fuel buf
    refine ⟨?_, by simp [CharPtr.string_in], by simp [CharPtr.string_in]⟩
    obtain ⟨h1, h2, h3, h4, h5, h6, h7⟩ := image_one_record_reads
    have hptr := after_setent_ptr image_one_record NSS_DBTYPE_NETGROUP
    unfold _nss_files_getnetgrent_r
    dsimp only
    generalize after_setent image_one_record NSS_DBTYPE_NETGROUP = G1 at hptr ⊢
    have hdec : _nss_files_decode_buf (some image_one_record)
        { map := some NSS_DBTYPE_NETGROUP, loop := 0, hslots := 0, kpos := 2056, hpos := 2059,
          dpos := 2057, dlen := 2, khash := 0 } none 3
        = some (NSS_STATUS_SUCCESS, [(0, 61), (1, 49), (2, 0)]) := by
      have hv := decode_buf_one_record
      simp [_nss_files_decode_buf, mcdb_datalen, memcpy, mcdb_dataptr] at hv ⊢
      exact hv
    have hg : _nss_mcdb_getent (fuel + 1) (Env.ok image_one_record) G1
        (cursor_at NSS_DBTYPE_NETGROUP 2048) NSS_DBTYPE_NETGROUP
        { decode := _nss_files_decode_buf, buflen := 3 }
        = .ret { status := NSS_STATUS_SUCCESS,
                 m := { map := some NSS_DBTYPE_NETGROUP, loop := 0, hslots := 0, kpos := 2056,
                        hpos := 2059, dpos := 2057, dlen := 2, khash := 0 },
                 writes := [(0, 61), (1, 49), (2, 0)],
                 G := G1.emit (.decode NSS_DBTYPE_NETGROUP 2056 2057 2) } := by
      clear h1 h3 h4
      simp [_nss_mcdb_getent, _nss_mcdb_getent_loop, cursor_at, hptr,
        mcdb_uint32_unpack_bigendian_aligned_macro, h2, h5, h6, h7, u32, hdec]
    rw [hg]
    simp [memchr, apply_writes, List.range_succ, List.find?]

theorem memchr_some (mem : Nat → Nat) (start c n j : Nat) (h : memchr mem start c n = some j) :
    start ≤ j ∧ j < start + n ∧ mem j = c := by
  unfold memchr at h
  cases hf : (List.range n).find? (fun i => decide (mem (start + i) = c)) with
  | none => rw [hf] at h; cases h
  | some i =>
    rw [hf] at h
    cases h
    have h1 := List.find?_some hf
    have h2 := List.mem_of_find?_eq_some hf
    rw [List.mem_range] at h2
    dsimp only [Option.map] at *
    exact ⟨by omega, by omega, of_decide_eq_true h1⟩

/-- What `_nss_files_getnetgrent_r` stores when it returns `NSS_STATUS_SUCCESS`:
`*host` is `buf` and its string ends inside the buffer; `*user` is `buf + u`
with `u ≤ buflen`, one past the first NUL; `*domain` is `NULL + 1` or `buf + v`
with `u < v ≤ buflen`, one past the first NUL from `*user` on. -/
theorem getnetgrent_success_shape (fuel : Nat) (env : Env) (G : Globals) (st : mcdb)
    (buf : Nat → Nat) (buflen : Nat) (r : NetgrentResult)
    (h : _nss_files_getnetgrent_r fuel env G st buf buflen = .ret r)
    (hs : r.status = NSS_STATUS_SUCCESS) :
    r.host = some (.buf 0) ∧
    CharPtr.string_in (apply_writes buf r.writes) buflen (.buf 0) ∧
    ∃ u, r.user = some (.buf u) ∧ 0 < u ∧ u ≤ buflen ∧ apply_writes buf r.writes (u - 1) = 0 ∧
      (r.domain = some (.null 1) ∨
        ∃ v, r.domain = some (.buf v) ∧ u < v ∧ v ≤ buflen ∧
          apply_writes buf r.writes (v - 1) = 0) := by
  unfold _nss_files_getnetgrent_r at h
  dsimp only at h
  cases hg : _nss_mcdb_getent fuel env G st NSS_DBTYPE_NETGROUP
      { decode := _nss_files_decode_buf, buflen := buflen } with
  | fault => rw [hg] at h; cases h
  | nofuel => rw [hg] at h; cases h
  | ret q =>
    rw [hg] at h
    dsimp only at h
    by_cases hq : q.status = NSS_STATUS_SUCCESS
    · rw [if_pos hq] at h
      cases hm : memchr (apply_writes buf q.writes) 0 0 buflen with
      | none => rw [hm] at h; cases h
      | some i =>
        rw [hm] at h
        dsimp only at h
        obtain ⟨i1, i2, i3⟩ := memchr_some _ _ _ _ _ hm
        cases hm2 : memchr (apply_writes buf q.writes) (i + 1) 0 (buflen - (i + 1)) with
        | none =>
          rw [hm2] at h
          cases h
          exact ⟨rfl, ⟨by omega, i, by omega, by omega, i3⟩, i + 1, rfl, by omega, by omega, i3,
            Or.inl rfl⟩
        | some j =>
          rw [hm2] at h
          obtain ⟨j1, j2, j3⟩ := memchr_some _ _ _ _ _ hm2
          cases h
          exact ⟨rfl, ⟨by omega, i, by omega, by omega, i3⟩, i + 1, rfl, by omega, by omega, i3,
            Or.inr ⟨j + 1, rfl, by omega, by omega, j3⟩⟩
    · rw [if_neg hq] at h
      cases h
      exact absurd hs hq

/-! ## `_nss_files_getntohost_r` -/

theorem get_generic_found (hash : Bytes → Nat) (rs : List Record) (env : Env)
    (G G1 : Globals) (stack : mcdb) (d h : nss_dbtype)
    (hsize : (mcdb_build hash rs).length < 4294967296)
    (hget : _nss_mcdb_db_getshared env G d = (some h, G1))
    (hptr : (G1.nss_mcdb_mmap_st h).ptr = some (mcdb_build hash rs))
    (hnz : ∀ r ∈ rs, u32 (hash r.key) ≠ 0) (r : Record) (hr : r ∈ rs) :
    ∃ r' ∈ rs, r'.key = r.key ∧ r'.tag = r.tag ∧
      ∀ buflen, r'.value.length < buflen →
        ∃ G', _nss_files_get_generic (mcdb_lookup hash) env G stack d
            { key := r.key, klen := r.key.length, tagc := r.tag }
            { decode := _nss_files_decode_buf, buflen := buflen }
          = some (NSS_STATUS_SUCCESS, stores_from 0 r'.value ++ [(r'.value.length, 0)], G') := by
  obtain ⟨pr', hpr', hk', ht', c1, c2, hs, hn, hd1, hd2⟩ :=
    lookup_found hash rs { stack with map := some h } r hr hsize hnz
  obtain ⟨-, -, -, -, -, rest, hrest⟩ := record_read_built hash rs hsize pr' hpr'
  refine ⟨pr'.2, (located_spec rs 2048 pr' hpr').1, hk', ht', ?_⟩
  intro buflen hbuf
  have hdec := decode_buf_value (mcdb_build hash rs) pr'.2.value rest c2
    (some { key := r.key, klen := r.key.length, tagc := r.tag }) buflen
    (by rw [hd1, ← hk']; exact hrest) hd2 hbuf
  unfold _nss_files_get_generic
  rw [hget]
  simp only [findtag, mcdb_lookup, hptr, hs, hn, emit_st, hdec]
  exact ⟨_, rfl⟩

theorem get_generic_absent (hash : Bytes → Nat) (rs : List Record) (env : Env)
    (G G1 : Globals) (stack : mcdb) (d h : nss_dbtype)
    (hsize : (mcdb_build hash rs).length < 4294967296)
    (hget : _nss_mcdb_db_getshared env G d = (some h, G1))
    (hptr : (G1.nss_mcdb_mmap_st h).ptr = some (mcdb_build hash rs))
    (k : Bytes) (t buflen : Nat) (habs : ∀ r ∈ rs, ¬ (r.key = k ∧ r.tag = t)) :
    ∃ G', _nss_files_get_generic (mcdb_lookup hash) env G stack d
        { key := k, klen := k.length, tagc := t }
        { decode := _nss_files_decode_buf, buflen := buflen }
      = some (NSS_STATUS_NOTFOUND, [], G') := by
  obtain ⟨c1, hs | ⟨hs, c2, hn⟩⟩ :=
    lookup_not_found hash rs { stack with map := some h } k t hsize habs
  · unfold _nss_files_get_generic
    rw [hget]
    simp only [findtag, mcdb_lookup, hptr, hs]
    exact ⟨_, rfl⟩
  · unfold _nss_files_get_generic
    rw [hget]
    simp only [findtag, mcdb_lookup, hptr, hs, hn]
    exact ⟨_, rfl⟩

set_option maxRecDepth 1000000 in
theorem ether_build_facts :
    (mcdb_build example_hash ether_records).length < 4294967296 ∧
    ∀ r ∈ ether_records, u32 (example_hash r.key) ≠ 0 := by
  decide!

/-- C25: the key of `_nss_files_getntohost_r` is the pointer, not the address.
The call builds its key from `(uint32_t)ether`, so for every pointer the bytes
it points to have no influence on the call, and the key of the pointer 4096 is
`00001000` while the key of the pointer 8192 is `00002000`. On the database
built from the single record `00001000` with value `h` under the tag `x`, mapped
at the first use of the ethers database, the call with the pointer 4096 to the
address `00:11:22:33:44:55` returns `NSS_STATUS_SUCCESS` and stores `h` and a
NUL in `buf`; the call with the pointer 8192 to the same six bytes returns
`NSS_STATUS_NOTFOUND` and stores nothing. -/
theorem getntohost_keyed_by_pointer :
    (∀ (L : Lookup) (env : Env) (G : Globals) (stack : mcdb) (ether : Nat) (a b : Bytes)
        (buflen : Nat),
      _nss_files_getntohost_r L env G stack ether a buflen
        = _nss_files_getntohost_r L env G stack ether b buflen) ∧
    (∀ (L : Lookup) (env : Env) (G : Globals) (stack : mcdb) (a : Bytes) (buflen : Nat),
      _nss_files_getntohost_r L env G stack 4096 a buflen
        = _nss_files_get_generic L env G stack NSS_DBTYPE_ETHERS
            { key := [48, 48, 48, 48, 49, 48, 48, 48], klen := 8, tagc := 120 }
            { decode := _nss_files_decode_buf, buflen := buflen } ∧
      _nss_files_getntohost_r L env G stack 8192 a buflen
        = _nss_files_get_generic L env G stack NSS_DBTYPE_ETHERS
            { key := [48, 48, 48, 48, 50, 48, 48, 48], klen := 8, tagc := 120 }
            { decode := _nss_files_decode_buf, buflen := buflen }) ∧
    (∃ G', _nss_files_getntohost_r (mcdb_lookup example_hash)
        (Env.ok (mcdb_build example_hash ether_records)) Globals.init mcdb.zero
        4096 [0, 17, 34, 51, 68, 85] 16
      = some (NSS_STATUS_SUCCESS, [(0, 104), (1, 0)], G')) ∧
    (∃ G', _nss_files_getntohost_r (mcdb_lookup example_hash)
        (Env.ok (mcdb_build example_hash ether_records)) Globals.init mcdb.zero
        8192 [0, 17, 34, 51, 68, 85] 16
      = some (NSS_STATUS_NOTFOUND, [], G')) := by
  refine ⟨fun _ _ _ _ _ _ _ _ => rfl, fun _ _ _ _ _ _ => ⟨rfl, rfl⟩, ?_, ?_⟩
  · obtain ⟨r', hr', -, -, hcall⟩ := get_generic_found example_hash ether_records
      (Env.ok (mcdb_build example_hash ether_records)) Globals.init
      (_nss_mcdb_db_getshared (Env.ok (mcdb_build example_hash ether_records)) Globals.init
        NSS_DBTYPE_ETHERS).2 mcdb.zero NSS_DBTYPE_ETHERS NSS_DBTYPE_ETHERS
      ether_build_facts.1 rfl rfl ether_build_facts.2
      { key := [48, 48, 48, 48, 49, 48, 48, 48], value := [104], tag := 120 }
      (by simp [ether_records])
    simp only [ether_records, List.mem_singleton] at hr'
    subst hr'
    exact hcall 16 (by decide)
  · exact get_generic_absent example_hash ether_records
      (Env.ok (mcdb_build example_hash ether_records)) Globals.init
      (_nss_mcdb_db_getshared (Env.ok (mcdb_build example_hash ether_records)) Globals.init
        NSS_DBTYPE_ETHERS).2 mcdb.zero NSS_DBTYPE_ETHERS NSS_DBTYPE_ETHERS
      ether_build_facts.1 rfl rfl [48, 48, 48, 48, 50, 48, 48, 48] 120 16 (by decide)

/-! ## The provisos of the round trip of keyed lookup -/

theorem get_generic_of_lookup (hash : Bytes → Nat) (img : Bytes) (env : Env)
    (G G1 : Globals) (stack : mcdb) (d h : nss_dbtype) (kinfo : _nss_kinfo) (buflen : Nat)
    (c1 : mcdb) (hget : _nss_mcdb_db_getshared env G d = (some h, G1))
    (hptr : (G1.nss_mcdb_mmap_st h).ptr = some img)
    (hs : mcdb_findtagstart hash (some img) { stack with map := some h } kinfo.key kinfo.klen
      kinfo.tagc = some (true, c1)) :
    (∀ c2, mcdb_findtagnext (some img) c1 kinfo.key kinfo.klen kinfo.tagc = some (true, c2) →
      buflen ≤ c2.dlen →
      ∃ G', _nss_files_get_generic (mcdb_lookup hash) env G stack d kinfo
          { decode := _nss_files_decode_buf, buflen := buflen }
        = some (NSS_STATUS_TRYAGAIN, [], G')) ∧
    (∀ c2, mcdb_findtagnext (some img) c1 kinfo.key kinfo.klen kinfo.tagc = some (false, c2) →
      ∃ G', _nss_files_get_generic (mcdb_lookup hash) env G stack d kinfo
          { decode := _nss_files_decode_buf, buflen := buflen }
        = some (NSS_STATUS_NOTFOUND, [], G')) := by
  constructor
  · intro c2 hn hb
    have hdec := decode_buf_small img c2 (some kinfo) buflen hb
    unfold _nss_files_get_generic
    rw [hget]
    simp only [findtag, mcdb_lookup, hptr, hs, hn, emit_st, hdec]
    exact ⟨_, rfl⟩
  · intro c2 hn
    unfold _nss_files_get_generic
    rw [hget]
    simp only [findtag, mcdb_lookup, hptr, hs, hn]
    exact ⟨_, rfl⟩

theorem getshared_fresh (img : Bytes) (d : nss_dbtype) :
    _nss_mcdb_db_getshared (Env.ok img) Globals.init d
      = (some d, (_nss_mcdb_db_getshared (Env.ok img) Globals.init d).2) ∧
    (((_nss_mcdb_db_getshared (Env.ok img) Globals.init d).2).nss_mcdb_mmap_st d).ptr
      = some img := by
  cases d <;> exact ⟨rfl, rfl⟩

set_option maxRecDepth 1000000 in
theorem duplicate_lookup_facts :
    mcdb_findtagstart example_hash (some (mcdb_build example_hash duplicate_records))
        { mcdb.zero with map := some NSS_DBTYPE_PASSWD } [97] 1 61
      = some (true, { map := some NSS_DBTYPE_PASSWD, loop := 0, hslots := 4, kpos := 2082,
                      hpos := 2074, dpos := 0, dlen := 0, khash := 177604 }) ∧
    mcdb_findtagnext (some (mcdb_build example_hash duplicate_records))
        { map := some NSS_DBTYPE_PASSWD, loop := 0, hslots := 4, kpos := 2082,
          hpos := 2074, dpos := 0, dlen := 0, khash := 177604 } [97] 1 61
      = some (true, { map := some NSS_DBTYPE_PASSWD, loop := 1, hslots := 4, kpos := 2090,
                      hpos := 2074, dpos := 2058, dlen := 5, khash := 177604 }) := by
  decide!

/-- The round trip with `buflen` measured against the record looked up does
not hold when another record has the same key and discriminator. In the
database built from `a` with `22222` and `a` with `1`, both under `=`, mapped
at the first use of the passwd database, the lookup of `a` under `=` with
`buflen = 2`, greater than the length 1 of the value of the second record,
finds the first record, whose value does not fit, and returns
`NSS_STATUS_TRYAGAIN` with nothing stored. -/
theorem keyed_lookup_duplicate_key_tryagain :
    ({ key := [97], value := [49], tag := 61 } : Record) ∈ duplicate_records ∧
    ([49] : Bytes).length < 2 ∧
    ∃ G', _nss_files_get_generic (mcdb_lookup example_hash)
        (Env.ok (mcdb_build example_hash duplicate_records)) Globals.init mcdb.zero
        NSS_DBTYPE_PASSWD { key := [97], klen := 1, tagc := 61 }
        { decode := _nss_files_decode_buf, buflen := 2 }
      = some (NSS_STATUS_TRYAGAIN, [], G') := by
  refine ⟨List.mem_cons_of_mem _ (List.mem_singleton.mpr rfl), Nat.lt_succ_self 1, ?_⟩
  obtain ⟨hs, hn⟩ := duplicate_lookup_facts
  obtain ⟨hget, hptr⟩ := getshared_fresh (mcdb_build example_hash duplicate_records)
    NSS_DBTYPE_PASSWD
  exact (get_generic_of_lookup example_hash _ _ _ _ mcdb.zero NSS_DBTYPE_PASSWD NSS_DBTYPE_PASSWD
    { key := [97], klen := 1, tagc := 61 } 2 _ hget hptr hs).1 _ hn (Nat.le_add_left 2 3)

set_option maxRecDepth 1000000 in
theorem zero_hash_lookup_facts :
    u32 (example_hash [99, 112, 104, 118, 97, 104, 102, 103]) = 0 ∧
    mcdb_findtagstart example_hash (some (mcdb_build example_hash zero_hash_records))
        { mcdb.zero with map := some NSS_DBTYPE_PASSWD }
        [99, 112, 104, 118, 97, 104, 102, 103] 8 61
      = some (true, { map := some NSS_DBTYPE_PASSWD, loop := 0, hslots := 2, kpos := 2066,
                      hpos := 2066, dpos := 0, dlen := 0, khash := 0 }) ∧
    mcdb_findtagnext (some (mcdb_build example_hash zero_hash_records))
        { map := some NSS_DBTYPE_PASSWD, loop := 0, hslots := 2, kpos := 2066,
          hpos := 2066, dpos := 0, dlen := 0, khash := 0 }
        [99, 112, 104, 118, 97, 104, 102, 103] 8 61
      = some (false, { map := some NSS_DBTYPE_PASSWD, loop := 1, hslots := 2, kpos := 2074,
                       hpos := 2066, dpos := 0, dlen := 0, khash := 0 }) := by
  decide!

/-- The proviso on the hash is needed: the key `cphvahfg` has the hash 0 under
`example_hash`, the value that marks an empty slot. In the database built from
the single record `cphvahfg` with the value `1` under `=`, mapped at the first
use of the passwd database, the lookup of that key under `=` stops at the slot
of the record as at an empty slot and returns `NSS_STATUS_NOTFOUND`. -/
theorem keyed_lookup_zero_hash_not_found :
    u32 (example_hash [99, 112, 104, 118, 97, 104, 102, 103]) = 0 ∧
    ∃ G', _nss_files_get_generic (mcdb_lookup example_hash)
        (Env.ok (mcdb_build example_hash zero_hash_records)) Globals.init mcdb.zero
        NSS_DBTYPE_PASSWD { key := [99, 112, 104, 118, 97, 104, 102, 103], klen := 8, tagc := 61 }
        { decode := _nss_files_decode_buf, buflen := 16 }
      = some (NSS_STATUS_NOTFOUND, [], G') := by
  obtain ⟨h0, hs, hn⟩ := zero_hash_lookup_facts
  obtain ⟨hget, hptr⟩ := getshared_fresh (mcdb_build example_hash zero_hash_records)
    NSS_DBTYPE_PASSWD
  exact ⟨h0, (get_generic_of_lookup example_hash _ _ _ _ mcdb.zero NSS_DBTYPE_PASSWD
    NSS_DBTYPE_PASSWD { key := [99, 112, 104, 118, 97, 104, 102, 103], klen := 8, tagc := 61 }
    16 _ hget hptr hs).2 _ hn⟩

theorem get_generic_unmapped_faults (hash : Bytes → Nat) (env : Env)
    (G : Globals) (stack : mcdb) (d : nss_dbtype) (kinfo : _nss_kinfo) (vinfo : _nss_vinfo)
    (hpub : G.nss_mcdb_mmap d = some d) (hptr : (G.nss_mcdb_mmap_st d).ptr = none)
    (hreg : env.mcdb_register = true) :
    _nss_files_get_generic (mcdb_lookup hash) env G stack d kinfo vinfo = none := by
  unfold _nss_files_get_generic _nss_mcdb_db_getshared
  simp [hpub, mcdb_register, hreg, findtag, mcdb_lookup, mcdb_findtagstart, Globals.emit,
    Globals.setSt, hptr]

theorem get_generic_first_use_unmaps (L : Lookup) (img : Bytes) (stack : mcdb) (d : nss_dbtype)
    (kinfo : _nss_kinfo) (vinfo : _nss_vinfo) (s : nss_status) (w : Writes) (G' : Globals)
    (hret : _nss_files_get_generic L (Env.ok img) Globals.init stack d kinfo vinfo
      = some (s, w, G')) :
    G'.nss_mcdb_mmap d = some d ∧ (G'.nss_mcdb_mmap_st d).ptr = none := by
  obtain ⟨hget, -⟩ := getshared_fresh img d
  have hpub : (_nss_mcdb_db_getshared (Env.ok img) Globals.init d).2.nss_mcdb_mmap d
      = some d := by
    cases d <;> rfl
  have hcnt : ((_nss_mcdb_db_getshared (Env.ok img) Globals.init d).2.nss_mcdb_mmap_st d).refcnt
      = 1 := by
    cases d <;> rfl
  unfold _nss_files_get_generic at hret
  rw [hget] at hret
  generalize (_nss_mcdb_db_getshared (Env.ok img) Globals.init d).2 = G1 at hpub hcnt hret
  simp only at hret
  cases hf : findtag L G1 d { stack with map := some d } kinfo.key kinfo.klen kinfo.tagc with
  | none => simp [hf] at hret
  | some r2 =>
    obtain ⟨b, m', G2⟩ := r2
    obtain ⟨hst, -⟩ := findtag_spec L G1 d _ _ _ _ b m' G2 hf
    have hmm : G2.nss_mcdb_mmap = G1.nss_mcdb_mmap := by
      unfold findtag at hf
      simp only at hf
      cases h1 : L.mcdb_findtagstart (G1.nss_mcdb_mmap_st d).ptr { stack with map := some d }
          kinfo.key kinfo.klen kinfo.tagc with
      | none => simp [h1] at hf
      | some r1 =>
        obtain ⟨b1, m1⟩ := r1
        cases b1 with
        | false =>
          simp only [h1, Option.some.injEq, Prod.mk.injEq] at hf
          obtain ⟨-, -, rfl⟩ := hf
          rfl
        | true =>
          simp only [h1] at hf
          cases h2 : L.mcdb_findtagnext (G1.nss_mcdb_mmap_st d).ptr m1 kinfo.key kinfo.klen
              kinfo.tagc with
          | none => simp [h2] at hf
          | some r3 =>
            obtain ⟨b2, m2⟩ := r3
            simp only [h2, Option.some.injEq, Prod.mk.injEq] at hf
            obtain ⟨-, -, rfl⟩ := hf
            rfl
    rw [hf] at hret
    cases b with
    | true =>
      simp only at hret
      cases hd : vinfo.decode (G2.nss_mcdb_mmap_st d).ptr m' (some kinfo) vinfo.buflen with
      | none => simp [hd] at hret
      | some q =>
        obtain ⟨st, w'⟩ := q
        simp only [hd, Option.some.injEq, Prod.mk.injEq] at hret
        obtain ⟨-, -, rfl⟩ := hret
        constructor
        · rw [unregister_mmap, emit_mmap, hmm]
          exact hpub
        · rw [unregister_ptr, emit_st, hst, hcnt, if_pos rfl]
    | false =>
      simp only [Option.some.injEq, Prod.mk.injEq] at hret
      obtain ⟨-, -, rfl⟩ := hret
      constructor
      · rw [unregister_mmap, hmm]
        exact hpub
      · rw [unregister_ptr, hst, hcnt, if_pos rfl]

/-- The proviso on the mapping is needed: a lookup finds its record only while
the handle maps the file. In the database of `example_records`, the first
lookup of `alice` under `=` from program start returns `NSS_STATUS_SUCCESS`
with `100`; its release is the last one, which unmaps the file and leaves
`nss_mcdb_mmap[dbtype]` set, so a second, identical lookup registers the
unmapped handle and its `mcdb_findtagstart` reads through the `NULL` base of
the mapping: an invalid access. -/
theorem keyed_lookup_second_call_faults :
    ∃ G', _nss_files_get_generic (mcdb_lookup example_hash)
        (Env.ok (mcdb_build example_hash example_records)) Globals.init mcdb.zero
        NSS_DBTYPE_PASSWD { key := [97, 108, 105, 99, 101], klen := 5, tagc := 61 }
        { decode := _nss_files_decode_buf, buflen := 16 }
      = some (NSS_STATUS_SUCCESS, [(0, 49), (1, 48), (2, 48), (3, 0)], G') ∧
      _nss_files_get_generic (mcdb_lookup example_hash)
        (Env.ok (mcdb_build example_hash example_records)) G' mcdb.zero
        NSS_DBTYPE_PASSWD { key := [97, 108, 105, 99, 101], klen := 5, tagc := 61 }
        { decode := _nss_files_decode_buf, buflen := 16 }
      = none := by
  obtain ⟨hget, hptr⟩ := getshared_fresh (mcdb_build example_hash example_records)
    NSS_DBTYPE_PASSWD
  obtain ⟨r', hr', hk, ht, hcall⟩ := get_generic_found example_hash example_records
    (Env.ok (mcdb_build example_hash example_records)) Globals.init _ mcdb.zero
    NSS_DBTYPE_PASSWD NSS_DBTYPE_PASSWD example_build_facts.1 hget hptr example_build_facts.2
    { key := [97, 108, 105, 99, 101], value := [49, 48, 48], tag := 61 }
    (by simp [example_records])
  simp only [example_records, List.mem_cons, List.mem_singleton, List.not_mem_nil,
    or_false] at hr'
  rcases hr' with rfl | rfl | rfl
  · obtain ⟨G', hG'⟩ := hcall 16 (by decide)
    refine ⟨G', hG', ?_⟩
    obtain ⟨a, b⟩ := get_generic_first_use_unmaps _ _ _ _ _ _ _ _ _ hG'
    exact get_generic_unmapped_faults example_hash _ _ _ _ _ _ a b rfl
  · exact absurd hk (by decide)
  · exact absurd ht (by decide)

/-! ### The empty database, mapped in whole pages -/

theorem unpack_append (p q : Bytes) (pos v : Nat)
    (h : mcdb_uint32_unpack_bigendian_macro p pos = some v) :
    mcdb_uint32_unpack_bigendian_macro (p ++ q) pos = some v := by
  unfold mcdb_uint32_unpack_bigendian_macro at h ⊢
  have key : ∀ i : Nat, (∃ a, p[i]? = some a) → (p ++ q)[i]? = p[i]? := by
    intro i ⟨a, ha⟩
    have hi : i < p.length := by
      by_contra hc
      rw [List.getElem?_eq_none (by omega)] at ha
      cases ha
    exact List.getElem?_append_left hi
  cases h0 : p[pos]? with
  | none => simp [h0] at h
  | some a =>
    cases h1 : p[pos + 1]? with
    | none => simp [h0, h1] at h
    | some b =>
      cases h2 : p[pos + 2]? with
      | none => simp [h0, h1, h2] at h
      | some c =>
        cases h3 : p[pos + 3]? with
        | none => simp [h0, h1, h2, h3] at h
        | some d =>
          rw [key pos ⟨a, h0⟩, key (pos + 1) ⟨b, h1⟩, key (pos + 2) ⟨c, h2⟩,
            key (pos + 3) ⟨d, h3⟩]
          exact h

theorem mmap_pages_reads (pagesize : Nat) (F : Bytes) :
    (∀ pos v, mcdb_uint32_unpack_bigendian_macro F pos = some v →
      mcdb_uint32_unpack_bigendian_macro (mmap_pages pagesize F) pos = some v) ∧
    (∀ (i : Nat) (b : Nat), F[i]? = some b → (mmap_pages pagesize F)[i]? = some b) := by
  constructor
  · intro pos v h
    exact unpack_append F _ pos v h
  · intro i b h
    have hi : i < F.length := by
      by_contra hc
      rw [List.getElem?_eq_none (by omega)] at h
      cases h
    unfold mmap_pages
    rw [List.getElem?_append_left hi]
    exact h

theorem getent_head_entry_tagged (M : Bytes) (fuel : Nat) (d : nss_dbtype) (buflen : Nat)
    (hb : 0 < buflen)
    (r0 : mcdb_uint32_unpack_bigendian_macro M 0 = some 2065)
    (r4 : mcdb_uint32_unpack_bigendian_macro M 4 = some 0)
    (rt : M[2073]? = some 61) :
    _nss_mcdb_getent (fuel + 1) (Env.ok M) Globals.init mcdb.zero d
        { decode := _nss_files_decode_buf, buflen := buflen }
      = .ret { status := NSS_STATUS_SUCCESS,
               m := { map := some d, loop := 0, hslots := 0, kpos := 8,
                      hpos := 2073, dpos := 2073, dlen := 0, khash := 0 },
               writes := [(0, 0)],
               G := (after_setent M d).emit (.decode d 8 2073 0) } := by
  have hptr := after_setent_ptr M d
  rw [getent_fresh]
  generalize after_setent M d = G1 at hptr ⊢
  have hdec : _nss_files_decode_buf (some M)
      { map := some d, loop := 0, hslots := 0, kpos := 8, hpos := 2073,
        dpos := 2073, dlen := 0, khash := 0 } none buflen
      = some (NSS_STATUS_SUCCESS, [(0, 0)]) := by
    simp [_nss_files_decode_buf, mcdb_datalen, memcpy, stores_from, hb]
  simp [_nss_mcdb_getent, _nss_mcdb_getent_loop, cursor_at, hptr,
    mcdb_uint32_unpack_bigendian_aligned_macro, r0, r4, rt, u32, hdec]

/-- C19: a cursor with an empty value handed to the decoder. The file
`image_slot_tag` is the well-formed database built from the single record
`mbcspwl` with the value `=a`; its record stream ends at 2065 and the byte at
2073, in the slot tables, is the top byte `0x3D`, which is `=`, of a stored
hash. From the start of the program, with a fresh cursor and the file mapped in
pages of any size, `_nss_mcdb_getent` takes the first head-table entry for a
record header with `klen = 2065` and `dlen = 0`, tests the byte at offset
`8 + 2065 = 2073` without looking at `dlen`, finds `=` and hands the cursor
with `dlen = 0` to the decoder, which returns `NSS_STATUS_SUCCESS`: what is
delivered has an empty value, and the `=` that caused it is a byte of the slot
tables. -/
theorem getent_hands_over_empty_value :
    mcdb_make_finish (mcdb_make_adds example_hash [([109, 98, 99, 115, 112, 119, 108], [61, 97])])
      = image_slot_tag ∧
    WellFormed image_slot_tag [([109, 98, 99, 115, 112, 119, 108], [61, 97])] ∧
    record_start [(([109, 98, 99, 115, 112, 119, 108] : Bytes), ([61, 97] : Bytes))] 1 = 2065 ∧
    image_slot_tag.length = 2081 ∧
    image_slot_tag[2073]? = some 61 ∧
    ∀ (pagesize fuel : Nat),
      _nss_mcdb_getent (fuel + 1) (Env.ok (mmap_pages pagesize image_slot_tag)) Globals.init
        mcdb.zero NSS_DBTYPE_PASSWD { decode := _nss_files_decode_buf, buflen := 16 }
      = .ret { status := NSS_STATUS_SUCCESS,
               m := { map := some NSS_DBTYPE_PASSWD, loop := 0, hslots := 0, kpos := 8,
                      hpos := 2073, dpos := 2073, dlen := 0, khash := 0 },
               writes := [(0, 0)],
               G := (after_setent (mmap_pages pagesize image_slot_tag) NSS_DBTYPE_PASSWD).emit
                 (.decode NSS_DBTYPE_PASSWD 8 2073 0) } := by
  obtain ⟨h1, h2, h3, h4⟩ := image_slot_tag_reads
  refine ⟨image_slot_tag_built, slot_tag_wellformed, rfl, h1, h4, ?_⟩
  intro pagesize fuel
  obtain ⟨p1, p2⟩ := mmap_pages_reads pagesize image_slot_tag
  exact getent_head_entry_tagged _ fuel NSS_DBTYPE_PASSWD 16 (by decide) (p1 0 2065 h2)
    (p1 4 0 h3) (p2 2073 61 h4)

end NssMcdb
